import Mathlib

/-!
# vdexExtractor: the Vdex container engine (`src/vdex.c`)

A shallow embedding of `src/vdex.c`: the container validator, the layout
accessors, the Dex file iterator `vdex_GetNextDexFileData` and the
unquickening engine `vdex_Unquicken`.

Conventions of the embedding.

* Memory is a map from addresses to bytes; a pointer is an address (`Nat`).
  Pointer arithmetic does not wrap (pointers and `size_t` are wider than the
  32-bit header fields), `uint32_t` arithmetic wraps modulo `2^32`.
* Multi-byte fields are little-endian.
* What `vdex.h`, `dex.h` and `dex_decompiler.h` declare is not part of the
  source file: the Vdex header layout is taken from the format description,
  the constants of the validator are a parameter (`VdexConsts`) that `vdexH`
  instantiates with the magic and the version tags of the format, and
  everything about Dex files is a parameter (`DexEnv`).
* `vdex_Unquicken` threads the memory through the calls of the rewriting
  collaborator, which may change it, and records what it does in a trace of
  `Event`s. Logging (`LOGMSG`, `dex_dumpHeaderInfo`) and the `memset` of locals
  are left out.
* The two loops whose bound is read from memory at every test (over the Dex
  files and over the classes) take a fuel of `2^32`, which never decides
  (`filesLoop_fuel`, `classesLoop_fuel`); the other loops recurse on their count.
-/

namespace Vdex

set_option maxRecDepth 100000
set_option maxHeartbeats 1000000

/-! ## Memory -/

/-- Byte-addressed memory: the byte stored at every address. -/
abbrev Mem : Type := Nat → Nat

/-- The modulus of `uint32_t` arithmetic. -/
def U32 : Nat := 4294967296

/-- One byte load. -/
def readU8 (m : Mem) (a : Nat) : Nat := m a % 256

/-- A little-endian `uint32_t` load at address `a`. -/
def readU32 (m : Mem) (a : Nat) : Nat :=
  readU8 m a + 256 * readU8 m (a + 1) + 65536 * readU8 m (a + 2) + 16777216 * readU8 m (a + 3)

/-- The `n` bytes starting at address `a`. -/
def readBytes (m : Mem) (a : Nat) : Nat → List Nat
  | 0 => []
  | n + 1 => readU8 m a :: readBytes m (a + 1) n

/-! ## The Vdex header (`vdex.h`) -/

/-- Modelled from the spec: `sizeof(vdexHeader)`, declared in `vdex.h`; the header is
`magic[4]`, `version[4]` and four `u32` fields with no padding, 24 bytes. -/
def sizeofVdexHeader : Nat := 24

/-- Modelled from the spec: `sizeof(VdexChecksum)`, declared in `vdex.h`; the checksums
section is an array of 32-bit values. -/
def sizeofVdexChecksum : Nat := 4

/-- Modelled from the spec: `kVdexVersionLen` of `vdex.h`, the version tag is 4 raw bytes. -/
def kVdexVersionLen : Nat := 4

/-- Modelled from the spec: the field `magic_` of `vdexHeader`, bytes 0..3. -/
def hdr_magic (m : Mem) (cursor : Nat) : List Nat := readBytes m cursor 4

/-- Modelled from the spec: the field `version_` of `vdexHeader`, bytes 4..7. -/
def hdr_version (m : Mem) (cursor : Nat) : List Nat := readBytes m (cursor + 4) kVdexVersionLen

/-- Modelled from the spec: the field `number_of_dex_files_` of `vdexHeader`, at offset 8. -/
def number_of_dex_files (m : Mem) (cursor : Nat) : Nat := readU32 m (cursor + 8)

/-- Modelled from the spec: the field `dex_size_` of `vdexHeader`, at offset 12. -/
def dex_size (m : Mem) (cursor : Nat) : Nat := readU32 m (cursor + 12)

/-- Modelled from the spec: the field `verifier_deps_size_` of `vdexHeader`, at offset 16. -/
def verifier_deps_size (m : Mem) (cursor : Nat) : Nat := readU32 m (cursor + 16)

/-- Modelled from the spec: the field `quickening_info_size_` of `vdexHeader`, at offset 20. -/
def quickening_info_size (m : Mem) (cursor : Nat) : Nat := readU32 m (cursor + 20)

/-- The constants of `vdex.h` the validator compares against: the magic and the
table of supported version tags (`kNumVdexVersions` is the length of the table). -/
structure VdexConsts where
  kVdexMagic : List Nat
  kVdexMagicVersions : List (List Nat)

/-! ## Container validator (lines 27-50) -/

/-- `memcmp(p, q, n) == 0` for a buffer `p` in memory and a constant `q`. -/
def memcmpEq (m : Mem) (p : Nat) (q : List Nat) (n : Nat) : Bool :=
  readBytes m p n == q.take n

/-- `vdex_isMagicValid` (lines 27-30). -/
def vdex_isMagicValid (k : VdexConsts) (m : Mem) (cursor : Nat) : Bool :=
  memcmpEq m cursor k.kVdexMagic k.kVdexMagic.length

/-- `vdex_isVersionValid` (lines 32-41): the loop over the version table. -/
def vdex_isVersionValid (k : VdexConsts) (m : Mem) (cursor : Nat) : Bool :=
  k.kVdexMagicVersions.any fun v => memcmpEq m (cursor + 4) v kVdexVersionLen

/-- `vdex_isValidVdex` (lines 43-45). -/
def vdex_isValidVdex (k : VdexConsts) (m : Mem) (cursor : Nat) : Bool :=
  vdex_isMagicValid k m cursor && vdex_isVersionValid k m cursor

/-- `vdex_hasDexSection` (lines 47-50). -/
def vdex_hasDexSection (m : Mem) (cursor : Nat) : Bool :=
  dex_size m cursor != 0

/-! ## Layout accessors (lines 52-73, 110-143) -/

/-- `vdex_GetSizeOfChecksumsSection` (lines 52-55); the product is returned as `uint32_t`. -/
def vdex_GetSizeOfChecksumsSection (m : Mem) (cursor : Nat) : Nat :=
  (sizeofVdexChecksum * number_of_dex_files m cursor) % U32

/-- `vdex_DexBegin` (lines 57-59), a pointer. -/
def vdex_DexBegin (m : Mem) (cursor : Nat) : Nat :=
  cursor + sizeofVdexHeader + vdex_GetSizeOfChecksumsSection m cursor

/-- `vdex_DexBeginOffset` (lines 61-63), a `uint32_t`. -/
def vdex_DexBeginOffset (m : Mem) (cursor : Nat) : Nat :=
  (sizeofVdexHeader + vdex_GetSizeOfChecksumsSection m cursor) % U32

/-- `vdex_DexEnd` (lines 65-68), a pointer. -/
def vdex_DexEnd (m : Mem) (cursor : Nat) : Nat :=
  vdex_DexBegin m cursor + dex_size m cursor

/-- `vdex_DexEndOffset` (lines 70-73), a `uint32_t`. -/
def vdex_DexEndOffset (m : Mem) (cursor : Nat) : Nat :=
  (vdex_DexBeginOffset m cursor + dex_size m cursor) % U32

/-- `vdex_GetLocationChecksum` (lines 110-113). -/
def vdex_GetLocationChecksum (m : Mem) (cursor : Nat) (fileIdx : Nat) : Nat :=
  readU32 m (cursor + sizeofVdexHeader + 4 * fileIdx)

/-- `vdex_GetVerifierDepsData` (lines 115-118), a pointer. -/
def vdex_GetVerifierDepsData (m : Mem) (cursor : Nat) : Nat :=
  vdex_DexBegin m cursor + dex_size m cursor

/-- `vdex_GetVerifierDepsDataOffset` (lines 120-123), a `uint32_t`. -/
def vdex_GetVerifierDepsDataOffset (m : Mem) (cursor : Nat) : Nat :=
  (vdex_DexBeginOffset m cursor + dex_size m cursor) % U32

/-- `vdex_GetVerifierDepsDataSize` (lines 125-128). -/
def vdex_GetVerifierDepsDataSize (m : Mem) (cursor : Nat) : Nat :=
  verifier_deps_size m cursor

/-- `vdex_GetQuickeningInfo` (lines 130-133), a pointer. -/
def vdex_GetQuickeningInfo (m : Mem) (cursor : Nat) : Nat :=
  vdex_GetVerifierDepsData m cursor + verifier_deps_size m cursor

/-- `vdex_GetQuickeningInfoOffset` (lines 135-138), a `uint32_t`. -/
def vdex_GetQuickeningInfoOffset (m : Mem) (cursor : Nat) : Nat :=
  (vdex_GetVerifierDepsDataOffset m cursor + verifier_deps_size m cursor) % U32

/-- `vdex_GetQuickeningInfoSize` (lines 140-143). -/
def vdex_GetQuickeningInfoSize (m : Mem) (cursor : Nat) : Nat :=
  quickening_info_size m cursor

/-! ## Dex collaborators (`dex.h`, `dex_decompiler.h`) -/

/-- The struct `dexClassDataHeader` of `dex.h`. -/
structure dexClassDataHeader where
  staticFieldsSize : Nat
  instanceFieldsSize : Nat
  directMethodsSize : Nat
  virtualMethodsSize : Nat
  deriving DecidableEq, Repr

/-- The struct `dexMethod` of `dex.h`. -/
structure dexMethod where
  methodIdx : Nat
  accessFlags : Nat
  codeOff : Nat
  deriving DecidableEq, Repr

/-- What `vdex.c` uses of `dex.h` and `dex_decompiler.h`: the offsets of the fields
it reads in `dexHeader` and `dexClassDef`, and the functions it calls. A reader
that advances a class-data cursor returns the new cursor with the decoded value;
the decompiler returns its result with the memory it leaves behind. -/
structure DexEnv where
  checksumOff : Nat
  fileSizeOff : Nat
  classDefsSizeOff : Nat
  classDataOffOff : Nat
  dex_isValidDexMagic : Mem → Nat → Bool
  dex_getClassDef : Mem → Nat → Nat → Nat
  dex_readClassDataHeader : Mem → Nat → Nat × dexClassDataHeader
  dex_readClassDataField : Mem → Nat → Nat
  dex_readClassDataMethod : Mem → Nat → Nat × dexMethod
  dex_getFirstInstrOff : dexMethod → Nat
  dexDecompiler_decompile : Mem → Nat → Nat → Nat → Nat → Nat → Bool → Bool × Mem
  dex_computeDexCRC : Mem → Nat → Nat → Nat

/-- The field `fileSize` of the `dexHeader` at address `buf`. -/
def dexHeader_fileSize (c : DexEnv) (m : Mem) (buf : Nat) : Nat := readU32 m (buf + c.fileSizeOff)

/-- The field `checksum` of the `dexHeader` at address `buf`. -/
def dexHeader_checksum (c : DexEnv) (m : Mem) (buf : Nat) : Nat := readU32 m (buf + c.checksumOff)

/-- The field `classDefsSize` of the `dexHeader` at address `buf`. -/
def dexHeader_classDefsSize (c : DexEnv) (m : Mem) (buf : Nat) : Nat :=
  readU32 m (buf + c.classDefsSizeOff)

/-- The field `classDataOff` of the `dexClassDef` at address `p`. -/
def dexClassDef_classDataOff (c : DexEnv) (m : Mem) (p : Nat) : Nat :=
  readU32 m (p + c.classDataOffOff)

/-! ## Dex file iterator (lines 75-108) -/

/-- `vdex_GetNextDexFileData`: the returned pointer (`none` for `NULL`) and the
value left in `*offset`. -/
def vdex_GetNextDexFileData (c : DexEnv) (m : Mem) (cursor offset : Nat) : Option Nat × Nat :=
  if offset = 0 then
    if vdex_hasDexSection m cursor then
      let dexBuf := vdex_DexBegin m cursor
      let offset1 := (sizeofVdexHeader + vdex_GetSizeOfChecksumsSection m cursor) % U32
      (some dexBuf, (offset1 + dexHeader_fileSize c m dexBuf) % U32)
    else
      (none, offset)
  else
    let dexBuf := cursor + offset
    let dexBufMax := dexBuf + dexHeader_fileSize c m dexBuf
    if dexBufMax = vdex_DexEnd m cursor then
      (some dexBuf, (offset + dexHeader_fileSize c m dexBuf) % U32)
    else if dexBufMax ≤ vdex_DexEnd m cursor then
      (some dexBuf, (offset + dexHeader_fileSize c m dexBuf) % U32)
    else
      (none, offset)

/-! ## Unquickening engine (lines 172-311) -/

/-- Where the traversal stands when it decodes a method: the index of the Dex
file, the file's buffer, the index of the class, whether the method belongs to
the virtual methods (the second loop) and its index in its loop. -/
structure MethodPos where
  idx : Nat
  buf : Nat
  cls : Nat
  virt : Bool
  j : Nat
  deriving DecidableEq, Repr

/-- What `vdex_Unquicken` does, in the order it does it. -/
inductive Event where
  /-- The iterator returned `NULL` for this file index (lines 190-193). -/
  | skipExtract (idx : Nat)
  /-- The view has no valid Dex magic (lines 199-202). -/
  | skipMagic (idx buf : Nat)
  /-- A method was decoded by `dex_readClassDataMethod` (lines 246, 272). -/
  | method (pos : MethodPos) (pm : dexMethod)
  /-- A call of `dexDecompiler_decompile` (lines 260, 286) with the code item, the
  first instruction offset, the blob pointer and size, and what it returned. -/
  | decompile (pos : MethodPos) (code first blob size : Nat) (ok : Bool)
  /-- The checksum comparison of a file (lines 296-297): computed and stored value. -/
  | checksum (idx buf cur stored : Nat)
  deriving DecidableEq, Repr

/-- The mutable state of `vdex_Unquicken`: the memory, `quickening_info_ptr`, and
the events so far. -/
structure UqState where
  mem : Mem
  ptr : Nat
  trace : List Event

/-- Record an event. -/
def UqState.log (s : UqState) (e : Event) : UqState :=
  { s with trace := s.trace ++ [e] }

/-- The state of a loop over methods when it stops: `ok = false` when `return false`
was executed, the class-data cursor, and the state. -/
structure MethodsRes where
  ok : Bool
  cur : Nat
  st : UqState

/-- The state when a loop or the function stops: `ok = false` when `return false`
was executed. -/
structure Outcome where
  ok : Bool
  st : UqState

/-- The state after one iteration of the loop over the Dex files, with `offset`. -/
structure FileRes where
  ok : Bool
  offset : Nat
  st : UqState

/-- The loops that skip the static and the instance fields (lines 229-233, 236-240):
`n` calls of `dex_readClassDataField` advance the class-data cursor. -/
def fieldsLoop (c : DexEnv) (m : Mem) : Nat → Nat → Nat
  | 0, cur => cur
  | n + 1, cur => fieldsLoop c m n (c.dex_readClassDataField m cur)

/-- The loop over the direct methods (lines 243-266) and, with `virt = true`, the
loop over the virtual methods (lines 269-292), which is the same code: `n` is the
number of iterations left and `j` the loop index. -/
def methodsLoop (c : DexEnv) (idx buf cls : Nat) (virt : Bool) :
    Nat → Nat → Nat → UqState → MethodsRes
  | 0, _, cur, s => { ok := true, cur := cur, st := s }
  | n + 1, j, cur, s =>
    let rd := c.dex_readClassDataMethod s.mem cur
    let pos : MethodPos := { idx := idx, buf := buf, cls := cls, virt := virt, j := j }
    let s1 := s.log (Event.method pos rd.2)
    if rd.2.codeOff = 0 then
      methodsLoop c idx buf cls virt n (j + 1) rd.1 s1
    else
      let pDexCode := buf + rd.2.codeOff
      let quickening_size := readU32 s1.mem s1.ptr
      let ptr1 := s1.ptr + 4
      let first := c.dex_getFirstInstrOff rd.2
      let r := c.dexDecompiler_decompile s1.mem buf pDexCode first ptr1 quickening_size true
      let ev := Event.decompile pos pDexCode first ptr1 quickening_size r.1
      if r.1 then
        methodsLoop c idx buf cls virt n (j + 1) rd.1
          { mem := r.2, ptr := ptr1 + quickening_size, trace := s1.trace ++ [ev] }
      else
        { ok := false, cur := rd.1, st := { mem := r.2, ptr := ptr1, trace := s1.trace ++ [ev] } }

/-- The body of the loop over the classes (lines 207-292) for class `i`. -/
def classBody (c : DexEnv) (idx buf i : Nat) (s : UqState) : Outcome :=
  let pDexClassDef := c.dex_getClassDef s.mem buf i
  let classDataOff := dexClassDef_classDataOff c s.mem pDexClassDef
  if classDataOff = 0 then
    { ok := true, st := s }
  else
    let rh := c.dex_readClassDataHeader s.mem (buf + classDataOff)
    let cur1 := fieldsLoop c s.mem rh.2.staticFieldsSize rh.1
    let cur2 := fieldsLoop c s.mem rh.2.instanceFieldsSize cur1
    let rd := methodsLoop c idx buf i false rh.2.directMethodsSize 0 cur2 s
    if rd.ok then
      let rv := methodsLoop c idx buf i true rh.2.virtualMethodsSize 0 rd.cur rd.st
      { ok := rv.ok, st := rv.st }
    else
      { ok := false, st := rd.st }

/-- The loop over the classes (line 206). The bound `classDefsSize` is read from
the header at every test. The index is a `uint32_t` below that bound, so at most
`2^32` iterations run: with `fuel ≥ 2^32 - i` the fuel never decides. -/
def classesLoop (c : DexEnv) (idx buf : Nat) : Nat → Nat → UqState → Outcome
  | 0, _, s => { ok := true, st := s }
  | fuel + 1, i, s =>
    if i < dexHeader_classDefsSize c s.mem buf then
      let r := classBody c idx buf i s
      if r.ok then classesLoop c idx buf fuel (i + 1) r.st else r
    else
      { ok := true, st := s }

/-- What the loop over the Dex files does with a valid Dex file (lines 204-302): the
loop over its classes, then the comparison of the checksum computed over the file with
the one stored in its header. -/
def unquickenFile (c : DexEnv) (idx dexFileBuf : Nat) (s : UqState) : Outcome :=
  let r := classesLoop c idx dexFileBuf U32 0 s
  if r.ok then
    let curChecksum :=
      c.dex_computeDexCRC r.st.mem dexFileBuf (dexHeader_fileSize c r.st.mem dexFileBuf)
    let stored := dexHeader_checksum c r.st.mem dexFileBuf
    { ok := decide (curChecksum = stored),
      st := r.st.log (Event.checksum idx dexFileBuf curChecksum stored) }
  else
    { ok := false, st := r.st }

/-- The body of the loop over the Dex files (lines 189-302) for file index `idx`. -/
def fileBody (c : DexEnv) (cursor idx offset : Nat) (s : UqState) : FileRes :=
  let it := vdex_GetNextDexFileData c s.mem cursor offset
  match it.1 with
  | none => { ok := true, offset := it.2, st := s.log (Event.skipExtract idx) }
  | some dexFileBuf =>
    if c.dex_isValidDexMagic s.mem dexFileBuf then
      let r := unquickenFile c idx dexFileBuf s
      { ok := r.ok, offset := it.2, st := r.st }
    else
      { ok := true, offset := it.2, st := s.log (Event.skipMagic idx dexFileBuf) }

/-- The loop over the Dex files (line 188). The bound `number_of_dex_files_` is read
from the header at every test and is below `2^32`: with `fuel ≥ 2^32 - idx` the
fuel never decides. -/
def filesLoop (c : DexEnv) (cursor : Nat) : Nat → Nat → Nat → UqState → Outcome
  | 0, _, _, s => { ok := true, st := s }
  | fuel + 1, idx, offset, s =>
    if idx < number_of_dex_files s.mem cursor then
      let r := fileBody c cursor idx offset s
      if r.ok then filesLoop c cursor fuel (idx + 1) r.offset r.st
      else { ok := false, st := r.st }
    else
      { ok := true, st := s }

/-- `vdex_Unquicken` (lines 172-311) on the memory `m`: what it returns and the state
it leaves. On the early return of line 176 `quickening_info_ptr` is not declared
yet; the state then holds the value it would be initialised with. -/
def vdex_Unquicken (c : DexEnv) (cursor : Nat) (m : Mem) : Outcome :=
  if vdex_GetQuickeningInfoSize m cursor = 0 then
    { ok := true, st := { mem := m, ptr := vdex_GetQuickeningInfo m cursor, trace := [] } }
  else
    let quickening_info_end := vdex_GetQuickeningInfo m cursor + vdex_GetQuickeningInfoSize m cursor
    let r := filesLoop c cursor U32 0 0
      { mem := m, ptr := vdex_GetQuickeningInfo m cursor, trace := [] }
    if r.ok then
      { ok := decide (r.st.ptr = quickening_info_end), st := r.st }
    else
      r

/-! ## Invariants of the engine -/

/-- A pair of state predicates kept by every step of the engine: `P` by the steps
after which the run goes on, `Q` is reached by the steps that execute `return false`. -/
structure StepInv (c : DexEnv) (P Q : UqState → Prop) : Prop where
  method0 : ∀ (s : UqState) (pos : MethodPos) (pm : dexMethod), P s → pm.codeOff = 0 →
    P (s.log (Event.method pos pm))
  callOk : ∀ (s : UqState) (pos : MethodPos) (pm : dexMethod), P s → pm.codeOff ≠ 0 →
    (c.dexDecompiler_decompile s.mem pos.buf (pos.buf + pm.codeOff) (c.dex_getFirstInstrOff pm)
      (s.ptr + 4) (readU32 s.mem s.ptr) true).1 = true →
    P { mem := (c.dexDecompiler_decompile s.mem pos.buf (pos.buf + pm.codeOff)
          (c.dex_getFirstInstrOff pm) (s.ptr + 4) (readU32 s.mem s.ptr) true).2,
        ptr := s.ptr + 4 + readU32 s.mem s.ptr,
        trace := (s.trace ++ [Event.method pos pm]) ++
          [Event.decompile pos (pos.buf + pm.codeOff) (c.dex_getFirstInstrOff pm) (s.ptr + 4)
            (readU32 s.mem s.ptr) true] }
  callFail : ∀ (s : UqState) (pos : MethodPos) (pm : dexMethod), P s → pm.codeOff ≠ 0 →
    (c.dexDecompiler_decompile s.mem pos.buf (pos.buf + pm.codeOff) (c.dex_getFirstInstrOff pm)
      (s.ptr + 4) (readU32 s.mem s.ptr) true).1 = false →
    Q { mem := (c.dexDecompiler_decompile s.mem pos.buf (pos.buf + pm.codeOff)
          (c.dex_getFirstInstrOff pm) (s.ptr + 4) (readU32 s.mem s.ptr) true).2,
        ptr := s.ptr + 4,
        trace := (s.trace ++ [Event.method pos pm]) ++
          [Event.decompile pos (pos.buf + pm.codeOff) (c.dex_getFirstInstrOff pm) (s.ptr + 4)
            (readU32 s.mem s.ptr) false] }
  skipExtract : ∀ (s : UqState) (idx : Nat), P s → P (s.log (Event.skipExtract idx))
  skipMagic : ∀ (s : UqState) (idx buf : Nat), P s → P (s.log (Event.skipMagic idx buf))
  sumOk : ∀ (s : UqState) (idx buf : Nat), P s →
    c.dex_computeDexCRC s.mem buf (dexHeader_fileSize c s.mem buf) = dexHeader_checksum c s.mem buf →
    P (s.log (Event.checksum idx buf (c.dex_computeDexCRC s.mem buf (dexHeader_fileSize c s.mem buf))
      (dexHeader_checksum c s.mem buf)))
  sumFail : ∀ (s : UqState) (idx buf : Nat), P s →
    c.dex_computeDexCRC s.mem buf (dexHeader_fileSize c s.mem buf) ≠ dexHeader_checksum c s.mem buf →
    Q (s.log (Event.checksum idx buf (c.dex_computeDexCRC s.mem buf (dexHeader_fileSize c s.mem buf))
      (dexHeader_checksum c s.mem buf)))

/-- A call of the rewriting collaborator, as recorded in the trace. -/
structure Call where
  pos : MethodPos
  code : Nat
  first : Nat
  blob : Nat
  size : Nat
  ok : Bool
  deriving DecidableEq, Repr

/-- The calls of the rewriting collaborator in a trace, in order. -/
def callsOf : List Event → List Call
  | [] => []
  | Event.decompile pos code first blob size ok :: es =>
    { pos := pos, code := code, first := first, blob := blob, size := size, ok := ok } :: callsOf es
  | _ :: es => callsOf es

/-- The methods decoded in a trace, in order. -/
def methodsOf : List Event → List (MethodPos × dexMethod)
  | [] => []
  | Event.method pos pm :: es => (pos, pm) :: methodsOf es
  | _ :: es => methodsOf es

/-- The decoded methods that have a code item (`codeOff != 0`). -/
def codeMethodsOf (tr : List Event) : List (MethodPos × dexMethod) :=
  (methodsOf tr).filter fun x => x.2.codeOff ≠ 0

/-- The bytes of the stream taken by the records a trace consumed: `4 + L` for
every record handed to the collaborator. -/
def callBytes : List Call → Nat
  | [] => 0
  | k :: ks => 4 + k.size + callBytes ks

/-- The bytes of the stream taken by the records a trace consumed. -/
def recordBytes (tr : List Event) : Nat := callBytes (callsOf tr)

/-- An event that lets the run go on: a call that succeeded, a checksum that matched,
a skipped file, a decoded method. -/
def Event.good : Event → Bool
  | Event.decompile _ _ _ _ _ ok => ok
  | Event.checksum _ _ cur stored => decide (cur = stored)
  | _ => true

/-- While the run goes on, the stream pointer is the start of the stream plus the
bytes of the records consumed, and every event so far is good. -/
def Going (ptr0 : Nat) (s : UqState) : Prop :=
  s.ptr = ptr0 + recordBytes s.trace ∧ s.trace.all Event.good = true

/-- After `return false` inside the loops the last event is the one that failed, and
every event before it is good. -/
def Stopped (s : UqState) : Prop :=
  ∃ (tr : List Event) (e : Event), s.trace = tr ++ [e] ∧ e.good = false ∧ tr.all Event.good = true

/-- What identifies a call: the method it is made for, its code item and its first
instruction offset. -/
def Call.target (k : Call) : MethodPos × Nat × Nat := (k.pos, k.code, k.first)

/-- The call the engine makes for a decoded method with a code item: the code item
is at `dexFileBuf + codeOff`, the first instruction offset comes from
`dex_getFirstInstrOff`. -/
def callTarget (c : DexEnv) (x : MethodPos × dexMethod) : MethodPos × Nat × Nat :=
  (x.1, x.1.buf + x.2.codeOff, c.dex_getFirstInstrOff x.2)

/-- The calls of a trace are those of its decoded methods with a code item, one each
and in the same order. -/
def Paired (c : DexEnv) (s : UqState) : Prop :=
  (callsOf s.trace).map Call.target = (codeMethodsOf s.trace).map (callTarget c)

/-! ## The iterator on a fixed memory -/

/-- The value of the caller's `offset` after `k` successive calls of
`vdex_GetNextDexFileData` on the memory `m`, starting from 0. -/
def iterOffset (c : DexEnv) (m : Mem) (cursor : Nat) : Nat → Nat
  | 0 => 0
  | k + 1 => (vdex_GetNextDexFileData c m cursor (iterOffset c m cursor k)).2

/-- What call number `k` (from 0) of `vdex_GetNextDexFileData` returns on the memory `m`. -/
def nthView (c : DexEnv) (m : Mem) (cursor k : Nat) : Option Nat :=
  (vdex_GetNextDexFileData c m cursor (iterOffset c m cursor k)).1

/-- A rewriting collaborator that always succeeds and changes nothing. -/
def NoopDecompiler (c : DexEnv) : Prop :=
  ∀ (m : Mem) (buf code first blob size : Nat) (flag : Bool),
    c.dexDecompiler_decompile m buf code first blob size flag = (true, m)

/-! ## Records of the stream and traversal order -/

/-- The memory after the calls `cs` of the collaborator, made in this order from the
memory `m`: the calls are what changes the memory during `vdex_Unquicken`. -/
def replay (c : DexEnv) : Mem → List Call → Mem
  | m, [] => m
  | m, k :: ks =>
    replay c (c.dexDecompiler_decompile m k.pos.buf k.code k.first k.blob k.size true).2 ks

/-- The calls `cs` take the records of the stream one after the other from address `p`
on: the record of a call starts where the record before it ends, its first four
bytes hold the size the call is given, its blob follows them, and the call is made on
the memory the calls before it left. -/
def RecordsFrom (c : DexEnv) : Mem → Nat → List Call → Prop
  | _, _, [] => True
  | m, p, k :: ks =>
    k.size = readU32 m p ∧ k.blob = p + 4 ∧
    k.ok = (c.dexDecompiler_decompile m k.pos.buf k.code k.first k.blob k.size true).1 ∧
    RecordsFrom c (c.dexDecompiler_decompile m k.pos.buf k.code k.first k.blob k.size true).2
      (p + 4 + k.size) ks

/-- The traversal order of methods: file order, then class-def order, then direct
before virtual, then declaration order. -/
def MethodPos.before (a b : MethodPos) : Prop :=
  a.idx < b.idx ∨ (a.idx = b.idx ∧ (a.cls < b.cls ∨ (a.cls = b.cls ∧
    (a.virt.toNat < b.virt.toNat ∨ (a.virt.toNat = b.virt.toNat ∧ a.j < b.j)))))

/-- The positions of the methods decoded in a trace, in order. -/
def posOf (tr : List Event) : List MethodPos := (methodsOf tr).map Prod.fst

/-- The decoded methods of the trace are in traversal order and all come before the
position `bound`, where the traversal stands. -/
def Ordered (bound : MethodPos) (tr : List Event) : Prop :=
  (posOf tr).Pairwise MethodPos.before ∧ ∀ p ∈ posOf tr, p.before bound

/-- While the run goes on: the calls so far took the records of the stream in order,
the memory is what they left, and the stream pointer is at the end of the last record. -/
def RecGoing (c : DexEnv) (m0 : Mem) (p0 : Nat) (s : UqState) : Prop :=
  RecordsFrom c m0 p0 (callsOf s.trace) ∧ s.mem = replay c m0 (callsOf s.trace) ∧
    s.ptr = p0 + callBytes (callsOf s.trace)

/-- After `return false`: the calls so far took the records of the stream in order. -/
def RecStopped (c : DexEnv) (m0 : Mem) (p0 : Nat) (s : UqState) : Prop :=
  RecordsFrom c m0 p0 (callsOf s.trace)

/-! ## A container of three files whose second file is skipped -/

/-- The file index an event belongs to. -/
def Event.fileIdx : Event → Nat
  | Event.skipExtract idx => idx
  | Event.skipMagic idx _ => idx
  | Event.method pos _ => pos.idx
  | Event.decompile pos _ _ _ _ _ => pos.idx
  | Event.checksum idx _ _ _ => idx

/-- A set of memories that the rewrite collaborator never leaves. -/
def ClosedUnder (c : DexEnv) (S : Mem → Prop) : Prop :=
  ∀ (m : Mem) (buf code first blob size : Nat) (flag : Bool),
    S m → S (c.dexDecompiler_decompile m buf code first blob size flag).2

/-- A container of three files whose second file has no valid Dex magic: the header
counts three files, three successive calls of the iterator return the views `b1`, `b2`
and `b3` (the offset being `o1` after the first and `o2` after the second call), the
first and the third view have a valid Dex magic and the second has not. -/
def SecondFileBad (c : DexEnv) (cursor b1 b2 b3 o1 o2 : Nat) (m : Mem) : Prop :=
  number_of_dex_files m cursor = 3 ∧
  vdex_GetNextDexFileData c m cursor 0 = (some b1, o1) ∧
  vdex_GetNextDexFileData c m cursor o1 = (some b2, o2) ∧
  (vdex_GetNextDexFileData c m cursor o2).1 = some b3 ∧
  c.dex_isValidDexMagic m b1 = true ∧
  c.dex_isValidDexMagic m b2 = false ∧
  c.dex_isValidDexMagic m b3 = true

/-- The run on a container of three files that skips the second: file #1 is processed
(its classes, then its checksum); if that returns failure the run stops there;
otherwise file #2 is skipped, which leaves nothing but the skip in the trace, and file
#3 is processed from the state file #1 left; if that succeeds the stream must be
drained exactly. -/
def skipSecondRun (c : DexEnv) (cursor : Nat) (m : Mem) (b1 b2 b3 : Nat) : Outcome :=
  let r1 := unquickenFile c 0 b1
    { mem := m, ptr := vdex_GetQuickeningInfo m cursor, trace := [] }
  if r1.ok then
    let r3 := unquickenFile c 2 b3 (r1.st.log (Event.skipMagic 1 b2))
    if r3.ok then
      { ok := decide (r3.st.ptr =
          vdex_GetQuickeningInfo m cursor + vdex_GetQuickeningInfoSize m cursor),
        st := r3.st }
    else
      { ok := false, st := r3.st }
  else
    { ok := false, st := r1.st }

/-- The trace `new` is the trace `old` followed by events of the file index `idx` only. -/
def AddsOnly (idx : Nat) (old new : List Event) : Prop :=
  ∃ es : List Event, new = old ++ es ∧ ∀ e ∈ es, e.fileIdx = idx

/-! ## The constants of the validator -/

/-- The constants have the sizes `vdex.h` declares them with: a magic of 4 bytes and
version tags of `kVdexVersionLen` bytes. -/
def VdexConsts.WellFormed (k : VdexConsts) : Prop :=
  k.kVdexMagic.length = 4 ∧ ∀ v ∈ k.kVdexMagicVersions, v.length = kVdexVersionLen

/-- The number of positions at which two tags differ. -/
def differAt (v w : List Nat) : Nat :=
  ((List.zip v w).filter fun p => p.1 ≠ p.2).length

/-- Any two different tags of the allow-list differ in at least two bytes. -/
def TagsApart (k : VdexConsts) : Prop :=
  ∀ v ∈ k.kVdexMagicVersions, ∀ w ∈ k.kVdexMagicVersions, v ≠ w → 2 ≤ differAt v w

/-- Modelled from the spec: the constants `kVdexMagic`, `kVdexMagicVersions` and
`kNumVdexVersions` of `vdex.h`, a header that is not among the sources. The spec fixes
their shape, a magic of 4 bytes and a static allow-list of version tags compared as 4
raw bytes; the values are those of the container format read here: the magic `vdex` and
the two tags `006` and `010`, each followed by a NUL. -/
def vdexH : VdexConsts :=
  { kVdexMagic := [118, 100, 101, 120]
    kVdexMagicVersions := [[48, 48, 54, 0], [48, 49, 48, 0]] }

/-! ## Files the iterator fails on -/

/-- The event of a file the iterator returned `NULL` for. -/
def Event.isSkipExtract : Event → Bool
  | Event.skipExtract _ => true
  | _ => false

/-- The events of the file indices `i`, `i + 1`, ... below `n` when the iterator fails on
each of them: one skip for each index and nothing else. -/
def skipsFrom (i n : Nat) : List Event := (List.range' i (n - i)).map Event.skipExtract

/-- The trace `new` is the trace `old` followed by events of the file index `idx` that are
not the event of an iterator failure. -/
def AddsWork (idx : Nat) (old new : List Event) : Prop :=
  ∃ es : List Event, new = old ++ es ∧ ∀ e ∈ es, e.fileIdx = idx ∧ e.isSkipExtract = false

/-- As long as no record was handed to the collaborator, the stream pointer is where it
started. -/
def Untouched (p0 : Nat) (s : UqState) : Prop :=
  callsOf s.trace = [] → s.ptr = p0

/-! ## The methods of the embedded files and the records of the stream

The layout the format gives to a container on a fixed memory, apart from any run: the
methods of its embedded files in traversal order, and the records of its stream. -/

/-- The `n` methods that begin at the class-data cursor `cur` of the memory `m`, with
their positions from the index `j` on, and the cursor after them. -/
def methodsAt (c : DexEnv) (m : Mem) (idx buf cls : Nat) (virt : Bool) :
    Nat → Nat → Nat → List (MethodPos × dexMethod) × Nat
  | 0, _, cur => ([], cur)
  | n + 1, j, cur =>
    let rd := c.dex_readClassDataMethod m cur
    let rest := methodsAt c m idx buf cls virt n (j + 1) rd.1
    (({ idx := idx, buf := buf, cls := cls, virt := virt, j := j }, rd.2) :: rest.1, rest.2)

/-- The methods of class `i` of the Dex file at `buf`: none when the class has no class
data, otherwise its direct methods followed by its virtual methods, which begin after
the static and the instance fields. -/
def classMethods (c : DexEnv) (m : Mem) (idx buf i : Nat) : List (MethodPos × dexMethod) :=
  let classDataOff := dexClassDef_classDataOff c m (c.dex_getClassDef m buf i)
  if classDataOff = 0 then
    []
  else
    let rh := c.dex_readClassDataHeader m (buf + classDataOff)
    let cur1 := fieldsLoop c m rh.2.staticFieldsSize rh.1
    let cur2 := fieldsLoop c m rh.2.instanceFieldsSize cur1
    let direct := methodsAt c m idx buf i false rh.2.directMethodsSize 0 cur2
    direct.1 ++ (methodsAt c m idx buf i true rh.2.virtualMethodsSize 0 direct.2).1

/-- The methods of the Dex file at `buf`, class after class. -/
def fileMethods (c : DexEnv) (m : Mem) (idx buf : Nat) : List (MethodPos × dexMethod) :=
  ((List.range (dexHeader_classDefsSize c m buf)).map (classMethods c m idx buf)).flatten

/-- The methods of the embedded file number `k`: those of the view that call number `k`
of the iterator returns, none when it returns `NULL`; with `all = false` a view
without a valid Dex magic has none either. -/
def viewMethods (c : DexEnv) (m : Mem) (cursor : Nat) (all : Bool) (k : Nat) :
    List (MethodPos × dexMethod) :=
  match nthView c m cursor k with
  | none => []
  | some buf => if all || c.dex_isValidDexMagic m buf then fileMethods c m k buf else []

/-- The methods with a code item of the embedded files of the container, in file order,
class-def order, direct before virtual, declaration order. The embedded files are the
views the iterator returns for the file indices below `number_of_dex_files_`; with
`all = false` only the files with a valid Dex magic are counted. -/
def embeddedCodeMethods (c : DexEnv) (m : Mem) (cursor : Nat) (all : Bool) :
    List (MethodPos × dexMethod) :=
  (((List.range (number_of_dex_files m cursor)).map (viewMethods c m cursor all)).flatten).filter
    fun x => x.2.codeOff ≠ 0

/-- Record number `k` (from 0) of the stream of `(u32 length L, L bytes)` records that
begins at the address `p`: the address of its blob and its length. -/
def recordAt (m : Mem) : Nat → Nat → Nat × Nat
  | p, 0 => (p + 4, readU32 m p)
  | p, k + 1 => recordAt m (p + 4 + readU32 m p) k

/-! ## Concrete containers

A small Dex environment with the field offsets of the Dex format and readers for
class data whose numbers fit in one byte, and memories that hold small containers
at address 0. -/

/-- A memory given by its non-zero bytes. -/
def memOfList (l : List (Nat × Nat)) : Mem := fun a => (l.lookup a).getD 0

/-- The four bytes of a little-endian `u32` stored at address `a`. -/
def put32 (a n : Nat) : List (Nat × Nat) :=
  [(a, n % 256), (a + 1, n / 256 % 256), (a + 2, n / 65536 % 256), (a + 3, n / 16777216 % 256)]

/-- A Vdex header at address 0. -/
def putVdexHeader (numFiles dexSize depsSize quickSize : Nat) : List (Nat × Nat) :=
  [(0, 118), (1, 100), (2, 101), (3, 120), (4, 48), (5, 49), (6, 48)] ++
    put32 8 numFiles ++ put32 12 dexSize ++ put32 16 depsSize ++ put32 20 quickSize

/-- The header of a Dex file at address `b`: magic, checksum, file size, the number of
class definitions and the offset of the class definitions (right after the header). -/
def putDexHeader (b checksum fileSize classDefsSize : Nat) : List (Nat × Nat) :=
  [(b, 100), (b + 1, 101), (b + 2, 120), (b + 3, 10)] ++ put32 (b + 8) checksum ++
    put32 (b + 32) fileSize ++ put32 (b + 96) classDefsSize ++ put32 (b + 100) 112

/-- A stand-in for `dex_computeDexCRC`: the sum of the bytes after the checksum field. -/
def toyCRC (m : Mem) (buf size : Nat) : Nat := (readBytes m (buf + 12) (size - 12)).sum % U32

/-- A Dex environment with the offsets of the Dex format (`checksum` at 8, `fileSize` at
32, `classDefsSize` at 96, `classDataOff` at 24 of a 32-byte `dexClassDef`) and class data
whose numbers are single bytes. -/
def toyEnv (dec : Mem → Nat → Nat → Nat → Nat → Nat → Bool → Bool × Mem) : DexEnv :=
  { checksumOff := 8
    fileSizeOff := 32
    classDefsSizeOff := 96
    classDataOffOff := 24
    dex_isValidDexMagic := fun m b => readBytes m b 4 == [100, 101, 120, 10]
    dex_getClassDef := fun m b i => b + readU32 m (b + 100) + 32 * i
    dex_readClassDataHeader := fun m p =>
      (p + 4, { staticFieldsSize := readU8 m p, instanceFieldsSize := readU8 m (p + 1),
                directMethodsSize := readU8 m (p + 2), virtualMethodsSize := readU8 m (p + 3) })
    dex_readClassDataField := fun _ p => p + 2
    dex_readClassDataMethod := fun m p =>
      (p + 3, { methodIdx := readU8 m p, accessFlags := readU8 m (p + 1), codeOff := readU8 m (p + 2) })
    dex_getFirstInstrOff := fun pm => pm.codeOff + 16
    dexDecompiler_decompile := dec
    dex_computeDexCRC := toyCRC }

/-- A collaborator that always succeeds and changes nothing. -/
def decNoop : Mem → Nat → Nat → Nat → Nat → Nat → Bool → Bool × Mem :=
  fun m _ _ _ _ _ _ => (true, m)

/-- A collaborator that fails on a blob of size 3 and otherwise stores the size of the
blob in the first instruction byte of the method. -/
def decPatch : Mem → Nat → Nat → Nat → Nat → Nat → Bool → Bool × Mem :=
  fun m buf _ first _ size _ =>
    (decide (size ≠ 3), fun a => if a = buf + first then size else m a)

/-- A Dex file at address `b` with one class: a static field, two direct methods (the
first with a code item at offset 160, the second without code) and one virtual method
(code item at offset 200). The file is 224 bytes long. -/
def putDexFile (b checksum fileSize : Nat) : List (Nat × Nat) :=
  putDexHeader b checksum fileSize 1 ++ put32 (b + 112 + 24) 144 ++
    [(b + 144, 1), (b + 146, 2), (b + 147, 1),
     (b + 150, 7), (b + 152, 160), (b + 153, 1), (b + 156, 1), (b + 158, 200)]

/-- A container with one Dex file of two methods with code and a stream of two records
(sizes 2 and 0, 10 bytes), the stream size being a parameter. -/
def oneFile (checksum quickSize : Nat) : Mem :=
  memOfList (putVdexHeader 1 224 0 quickSize ++ putDexFile 28 checksum 224 ++
    put32 252 2 ++ [(256, 9), (257, 9)] ++ put32 258 0)

/-- A container with two Dex files and a stream of two records (10 bytes): the first
file as in `oneFile`, the second with a corrupted magic and a stored checksum that
does not match. -/
def goodThenBadMagic : Mem :=
  memOfList (putVdexHeader 2 448 0 10 ++ putDexFile 32 854 224 ++
    [(256, 0)] ++ putDexFile 256 1 224 ++ put32 480 2 ++ [(484, 9), (485, 9)] ++ put32 486 0)

/-- A container with three Dex files as in `oneFile` at 36, 260 and 484, the second with
a corrupted magic, and a stream of four records (sizes 2, 0, 1, 2; 21 bytes) at 708. The
stored checksums of the first and the third file are parameters. -/
def threeFiles (sum1 sum3 : Nat) : Mem :=
  memOfList (putVdexHeader 3 672 0 21 ++ putDexFile 36 sum1 224 ++
    [(260, 0)] ++ putDexFile 260 854 224 ++ putDexFile 484 sum3 224 ++
    put32 708 2 ++ [(712, 9), (713, 9)] ++ put32 714 0 ++
    put32 718 1 ++ [(722, 9)] ++ put32 723 2 ++ [(727, 9), (728, 9)])

/-- A collaborator that replaces the first instruction byte of the method by the size of
the blob when that byte holds the quickened opcode 14, and changes nothing otherwise. -/
def decQuick : Mem → Nat → Nat → Nat → Nat → Nat → Bool → Bool × Mem :=
  fun m buf _ first _ size _ =>
    (true, fun a => if a = buf + first ∧ m a = 14 then size else m a)

/-- The container `threeFiles` with the quickened opcode 14 as the first instruction
byte of the four methods with code of its first and third file. -/
def threeFilesQ (sum1 sum3 : Nat) : Mem :=
  memOfList ([(212, 14), (252, 14), (660, 14), (700, 14)] ++ putVdexHeader 3 672 0 21 ++
    putDexFile 36 sum1 224 ++ [(260, 0)] ++ putDexFile 260 854 224 ++ putDexFile 484 sum3 224 ++
    put32 708 2 ++ [(712, 9), (713, 9)] ++ put32 714 0 ++
    put32 718 1 ++ [(722, 9)] ++ put32 723 2 ++ [(727, 9), (728, 9)])

/-- The memories that differ from `m0` at most where `m0` holds the quickened opcode 14. -/
def SameBut14 (m0 : Mem) (m : Mem) : Prop := ∀ a : Nat, m0 a ≠ 14 → m a = m0 a

/-- The container `oneFile` with a stream whose first record has size 3, on which the
collaborator `decPatch` fails. -/
def oneFileFail : Mem :=
  memOfList (putVdexHeader 1 224 0 11 ++ putDexFile 28 856 224 ++
    put32 252 3 ++ [(256, 9), (257, 9), (258, 9)] ++ put32 259 0)

/-- A container whose only Dex file declares 4096 bytes in its own header while the
header of the container gives 224 bytes to the Dex files. -/
def oversizedFirst : Mem :=
  memOfList (putVdexHeader 1 224 0 0 ++ putDexHeader 28 0 4096 0)

/-- The container `oneFile` with a verifier-deps section of 40 bytes that are zero but
the first, between the Dex file and the stream. -/
def oneFileDeps : Mem :=
  memOfList (putVdexHeader 1 224 40 10 ++ putDexFile 28 854 224 ++ [(252, 1)] ++
    put32 292 2 ++ [(296, 9), (297, 9)] ++ put32 298 0)

/-- The container `oneFileDeps` with a non-zero byte where a file size is read after the
Dex file. -/
def oneFileDeps5 : Mem :=
  memOfList ([(284, 5)] ++ putVdexHeader 1 224 40 10 ++ putDexFile 28 854 224 ++ [(252, 1)] ++
    put32 292 2 ++ [(296, 9), (297, 9)] ++ put32 298 0)

/-- A container whose header gives `2^32 - 1` bytes to the Dex files, with a Dex file of
32 bytes that begins at offset `2^32 - 16`: the Dex files end at `28 + 2^32 - 1`, past
what a 32-bit offset can hold. -/
def hugeDex : Mem :=
  memOfList (putVdexHeader 1 4294967295 0 0 ++ put32 (4294967280 + 32) 32)

/-- A container whose header gives no bytes to the Dex files. -/
def noDex : Mem := memOfList (putVdexHeader 1 0 0 4)

/-- Constants for the validator: the magic `vdex` and the version tags `006` and `010`,
each followed by a NUL. -/
def tagsO : VdexConsts :=
  { kVdexMagic := [118, 100, 101, 120]
    kVdexMagicVersions := [[48, 48, 54, 0], [48, 49, 48, 0]] }

/-- The memory `m` with the byte `v` at the address `a`. -/
def setByte (m : Mem) (a v : Nat) : Mem := fun b => if b = a then v else m b

/-- A header whose `number_of_dex_files_` is `2^30`. -/
def manyFiles : Mem := memOfList (putVdexHeader 1073741824 0 0 0)

/-- The container `threeFiles` whose second file declares 65535 bytes, past the end of the
Dex files; its magic is valid. -/
def secondOversized : Mem :=
  memOfList ([(292, 255), (293, 255)] ++ putVdexHeader 3 672 0 21 ++ putDexFile 36 854 224 ++
    putDexFile 260 854 224 ++ putDexFile 484 854 224 ++
    put32 708 2 ++ [(712, 9), (713, 9)] ++ put32 714 0)

/-- A container with a stream of 4 bytes, three files in its header and no Dex section. -/
def noDex3 : Mem := memOfList (putVdexHeader 3 0 0 4)

/-- A container whose first Dex file declares `2^32 - 28` bytes in its own header: the
first file begins at offset 28, so it ends at offset `2^32`. -/
def wrapFirst : Mem :=
  memOfList (putVdexHeader 1 224 0 0 ++ put32 (28 + 32) 4294967268)

/-! ## Theorems -/

/-! ### Machine integers and fuel -/

theorem readU8_lt (m : Mem) (a : Nat) : readU8 m a < 256 := Nat.mod_lt _ (by decide)

theorem readU32_lt (m : Mem) (a : Nat) : readU32 m a < U32 := by
  have h0 := readU8_lt m a
  have h1 := readU8_lt m (a + 1)
  have h2 := readU8_lt m (a + 2)
  have h3 := readU8_lt m (a + 3)
  unfold readU32 U32
  omega

/-- The fuel of the loop over the classes never decides: any two amounts of at least
`2^32 - i` give the same run. -/
theorem classesLoop_fuel (c : DexEnv) (idx buf : Nat) (fuel : Nat) :
    ∀ (fuel2 i : Nat) (s : UqState), U32 ≤ i + fuel → U32 ≤ i + fuel2 →
      classesLoop c idx buf fuel i s = classesLoop c idx buf fuel2 i s := by
  induction fuel with
  | zero =>
    intro fuel2 i s h1 _
    have hlt := readU32_lt s.mem (buf + c.classDefsSizeOff)
    have hn : ¬ i < dexHeader_classDefsSize c s.mem buf := by
      unfold dexHeader_classDefsSize; omega
    cases fuel2 with
    | zero => rfl
    | succ f2 => simp [classesLoop, hn]
  | succ fuel ih =>
    intro fuel2 i s h1 h2
    have hlt := readU32_lt s.mem (buf + c.classDefsSizeOff)
    cases fuel2 with
    | zero =>
      have hn : ¬ i < dexHeader_classDefsSize c s.mem buf := by
        unfold dexHeader_classDefsSize; omega
      simp [classesLoop, hn]
    | succ f2 =>
      rw [classesLoop, classesLoop]
      by_cases hi : i < dexHeader_classDefsSize c s.mem buf
      · simp only [hi, if_true]
        cases hok : (classBody c idx buf i s).ok with
        | true => simp only [if_true]; exact ih f2 (i + 1) _ (by omega) (by omega)
        | false => rfl
      · simp only [hi, if_false]

/-- The fuel of the loop over the Dex files never decides: any two amounts of at least
`2^32 - idx` give the same run. -/
theorem filesLoop_fuel (c : DexEnv) (cursor : Nat) (fuel : Nat) :
    ∀ (fuel2 idx offset : Nat) (s : UqState), U32 ≤ idx + fuel → U32 ≤ idx + fuel2 →
      filesLoop c cursor fuel idx offset s = filesLoop c cursor fuel2 idx offset s := by
  induction fuel with
  | zero =>
    intro fuel2 idx offset s h1 _
    have hlt := readU32_lt s.mem (cursor + 8)
    have hn : ¬ idx < number_of_dex_files s.mem cursor := by
      unfold number_of_dex_files; omega
    cases fuel2 with
    | zero => rfl
    | succ f2 => simp [filesLoop, hn]
  | succ fuel ih =>
    intro fuel2 idx offset s h1 h2
    have hlt := readU32_lt s.mem (cursor + 8)
    cases fuel2 with
    | zero =>
      have hn : ¬ idx < number_of_dex_files s.mem cursor := by
        unfold number_of_dex_files; omega
      simp [filesLoop, hn]
    | succ f2 =>
      rw [filesLoop, filesLoop]
      by_cases hi : idx < number_of_dex_files s.mem cursor
      · simp only [hi, if_true]
        cases hok : (fileBody c cursor idx offset s).ok with
        | true => simp only [if_true]; exact ih f2 (idx + 1) _ _ (by omega) (by omega)
        | false => rfl
      · simp only [hi, if_false]

/-! ### Invariants of the loops -/

theorem methodsLoop_inv {c : DexEnv} {P Q : UqState → Prop} (h : StepInv c P Q)
    (idx buf cls : Nat) (virt : Bool) (n : Nat) :
    ∀ (j cur : Nat) (s : UqState), P s →
      ((methodsLoop c idx buf cls virt n j cur s).ok = true →
          P (methodsLoop c idx buf cls virt n j cur s).st) ∧
      ((methodsLoop c idx buf cls virt n j cur s).ok = false →
          Q (methodsLoop c idx buf cls virt n j cur s).st) := by
  induction n with
  | zero => intro j cur s hP; simp [methodsLoop, hP]
  | succ n ih =>
    intro j cur s hP
    rw [methodsLoop]
    by_cases h0 : (c.dex_readClassDataMethod s.mem cur).2.codeOff = 0
    · simp only [h0, if_true]
      exact ih _ _ _ (h.method0 s _ _ hP h0)
    · simp only [h0, if_false]
      cases hr : (c.dexDecompiler_decompile s.mem buf
          (buf + (c.dex_readClassDataMethod s.mem cur).2.codeOff)
          (c.dex_getFirstInstrOff (c.dex_readClassDataMethod s.mem cur).2)
          (s.ptr + 4) (readU32 s.mem s.ptr) true).1 with
      | true =>
        have := h.callOk s ⟨idx, buf, cls, virt, j⟩ _ hP h0 hr
        simp only [UqState.log, hr, if_true]
        exact ih _ _ _ this
      | false =>
        have := h.callFail s ⟨idx, buf, cls, virt, j⟩ _ hP h0 hr
        simp only [UqState.log, hr]
        simpa using this

theorem classBody_inv {c : DexEnv} {P Q : UqState → Prop} (h : StepInv c P Q)
    (idx buf i : Nat) (s : UqState) (hP : P s) :
    ((classBody c idx buf i s).ok = true → P (classBody c idx buf i s).st) ∧
    ((classBody c idx buf i s).ok = false → Q (classBody c idx buf i s).st) := by
  unfold classBody
  by_cases h0 : dexClassDef_classDataOff c s.mem (c.dex_getClassDef s.mem buf i) = 0
  · simp [h0, hP]
  · simp only [h0, if_false]
    have hd := methodsLoop_inv h idx buf i false
      (c.dex_readClassDataHeader s.mem
        (buf + dexClassDef_classDataOff c s.mem (c.dex_getClassDef s.mem buf i))).2.directMethodsSize
      0 (fieldsLoop c s.mem (c.dex_readClassDataHeader s.mem
        (buf + dexClassDef_classDataOff c s.mem (c.dex_getClassDef s.mem buf i))).2.instanceFieldsSize
        (fieldsLoop c s.mem (c.dex_readClassDataHeader s.mem
        (buf + dexClassDef_classDataOff c s.mem (c.dex_getClassDef s.mem buf i))).2.staticFieldsSize
        (c.dex_readClassDataHeader s.mem
        (buf + dexClassDef_classDataOff c s.mem (c.dex_getClassDef s.mem buf i))).1)) s hP
    revert hd
    generalize methodsLoop c idx buf i false _ 0 _ s = rd
    intro hd
    cases hok : rd.ok with
    | true =>
      simp only [if_true]
      exact methodsLoop_inv h idx buf i true _ 0 rd.cur rd.st (hd.1 hok)
    | false =>
      simp only [Bool.false_eq_true, if_false, false_implies, true_and]
      intro _; exact hd.2 hok

theorem classesLoop_inv {c : DexEnv} {P Q : UqState → Prop} (h : StepInv c P Q)
    (idx buf : Nat) (fuel : Nat) :
    ∀ (i : Nat) (s : UqState), P s →
      ((classesLoop c idx buf fuel i s).ok = true → P (classesLoop c idx buf fuel i s).st) ∧
      ((classesLoop c idx buf fuel i s).ok = false → Q (classesLoop c idx buf fuel i s).st) := by
  induction fuel with
  | zero => intro i s hP; simp [classesLoop, hP]
  | succ fuel ih =>
    intro i s hP
    rw [classesLoop]
    by_cases hi : i < dexHeader_classDefsSize c s.mem buf
    · simp only [hi, if_true]
      have hb := classBody_inv h idx buf i s hP
      cases hok : (classBody c idx buf i s).ok with
      | true => simp only [if_true]; exact ih _ _ (hb.1 hok)
      | false => simpa [hok] using hb.2 hok
    · simp [hi, hP]

theorem fileBody_none (c : DexEnv) (cursor idx offset : Nat) (s : UqState)
    (hit : (vdex_GetNextDexFileData c s.mem cursor offset).1 = none) :
    fileBody c cursor idx offset s =
      { ok := true, offset := (vdex_GetNextDexFileData c s.mem cursor offset).2,
        st := s.log (Event.skipExtract idx) } := by
  unfold fileBody
  simp only [hit]

theorem fileBody_badMagic (c : DexEnv) (cursor idx offset : Nat) (s : UqState) (buf : Nat)
    (hit : (vdex_GetNextDexFileData c s.mem cursor offset).1 = some buf)
    (hmag : c.dex_isValidDexMagic s.mem buf = false) :
    fileBody c cursor idx offset s =
      { ok := true, offset := (vdex_GetNextDexFileData c s.mem cursor offset).2,
        st := s.log (Event.skipMagic idx buf) } := by
  unfold fileBody
  simp only [hit, hmag, Bool.false_eq_true, if_false]

theorem fileBody_valid (c : DexEnv) (cursor idx offset : Nat) (s : UqState) (buf : Nat)
    (hit : (vdex_GetNextDexFileData c s.mem cursor offset).1 = some buf)
    (hmag : c.dex_isValidDexMagic s.mem buf = true) :
    fileBody c cursor idx offset s =
      { ok := (unquickenFile c idx buf s).ok,
        offset := (vdex_GetNextDexFileData c s.mem cursor offset).2,
        st := (unquickenFile c idx buf s).st } := by
  unfold fileBody
  simp only [hit, hmag, if_true]

theorem fileBody_classesFail (c : DexEnv) (cursor idx offset : Nat) (s : UqState) (buf : Nat)
    (hit : (vdex_GetNextDexFileData c s.mem cursor offset).1 = some buf)
    (hmag : c.dex_isValidDexMagic s.mem buf = true)
    (hok : (classesLoop c idx buf U32 0 s).ok = false) :
    fileBody c cursor idx offset s =
      { ok := false, offset := (vdex_GetNextDexFileData c s.mem cursor offset).2,
        st := (classesLoop c idx buf U32 0 s).st } := by
  rw [fileBody_valid c cursor idx offset s buf hit hmag]
  unfold unquickenFile
  simp only [hok, Bool.false_eq_true, if_false]

theorem fileBody_classesOk (c : DexEnv) (cursor idx offset : Nat) (s : UqState) (buf : Nat)
    (hit : (vdex_GetNextDexFileData c s.mem cursor offset).1 = some buf)
    (hmag : c.dex_isValidDexMagic s.mem buf = true)
    (hok : (classesLoop c idx buf U32 0 s).ok = true) :
    fileBody c cursor idx offset s =
      { ok := decide (c.dex_computeDexCRC (classesLoop c idx buf U32 0 s).st.mem buf
            (dexHeader_fileSize c (classesLoop c idx buf U32 0 s).st.mem buf) =
            dexHeader_checksum c (classesLoop c idx buf U32 0 s).st.mem buf),
        offset := (vdex_GetNextDexFileData c s.mem cursor offset).2,
        st := (classesLoop c idx buf U32 0 s).st.log
          (Event.checksum idx buf
            (c.dex_computeDexCRC (classesLoop c idx buf U32 0 s).st.mem buf
              (dexHeader_fileSize c (classesLoop c idx buf U32 0 s).st.mem buf))
            (dexHeader_checksum c (classesLoop c idx buf U32 0 s).st.mem buf)) } := by
  rw [fileBody_valid c cursor idx offset s buf hit hmag]
  unfold unquickenFile
  simp only [hok, if_true]

theorem fileBody_inv {c : DexEnv} {P Q : UqState → Prop} (h : StepInv c P Q)
    (cursor idx offset : Nat) (s : UqState) (hP : P s) :
    ((fileBody c cursor idx offset s).ok = true → P (fileBody c cursor idx offset s).st) ∧
    ((fileBody c cursor idx offset s).ok = false → Q (fileBody c cursor idx offset s).st) := by
  cases hit : (vdex_GetNextDexFileData c s.mem cursor offset).1 with
  | none => rw [fileBody_none c cursor idx offset s hit]; simp [h.skipExtract s idx hP]
  | some buf =>
    cases hmag : c.dex_isValidDexMagic s.mem buf with
    | false =>
      rw [fileBody_badMagic c cursor idx offset s buf hit hmag]; simp [h.skipMagic s idx buf hP]
    | true =>
      have hc := classesLoop_inv h idx buf U32 0 s hP
      cases hok : (classesLoop c idx buf U32 0 s).ok with
      | false =>
        rw [fileBody_classesFail c cursor idx offset s buf hit hmag hok]
        simpa using hc.2 hok
      | true =>
        rw [fileBody_classesOk c cursor idx offset s buf hit hmag hok]
        simp only [decide_eq_true_eq, decide_eq_false_iff_not]
        exact ⟨fun heq => h.sumOk _ idx buf (hc.1 hok) heq,
          fun hne => h.sumFail _ idx buf (hc.1 hok) hne⟩

theorem filesLoop_inv {c : DexEnv} {P Q : UqState → Prop} (h : StepInv c P Q)
    (cursor : Nat) (fuel : Nat) :
    ∀ (idx offset : Nat) (s : UqState), P s →
      ((filesLoop c cursor fuel idx offset s).ok = true →
          P (filesLoop c cursor fuel idx offset s).st) ∧
      ((filesLoop c cursor fuel idx offset s).ok = false →
          Q (filesLoop c cursor fuel idx offset s).st) := by
  induction fuel with
  | zero => intro idx offset s hP; simp [filesLoop, hP]
  | succ fuel ih =>
    intro idx offset s hP
    rw [filesLoop]
    by_cases hi : idx < number_of_dex_files s.mem cursor
    · simp only [hi, if_true]
      have hb := fileBody_inv h cursor idx offset s hP
      cases hok : (fileBody c cursor idx offset s).ok with
      | true => simp only [if_true]; exact ih _ _ _ (hb.1 hok)
      | false => simpa using hb.2 hok
    · simp [hi, hP]

theorem callsOf_append (a b : List Event) : callsOf (a ++ b) = callsOf a ++ callsOf b := by
  induction a with
  | nil => rfl
  | cons e es ih => cases e <;> simp [callsOf, ih]

theorem methodsOf_append (a b : List Event) : methodsOf (a ++ b) = methodsOf a ++ methodsOf b := by
  induction a with
  | nil => rfl
  | cons e es ih => cases e <;> simp [methodsOf, ih]

theorem codeMethodsOf_append (a b : List Event) :
    codeMethodsOf (a ++ b) = codeMethodsOf a ++ codeMethodsOf b := by
  simp [codeMethodsOf, methodsOf_append]

theorem callBytes_append (a b : List Call) : callBytes (a ++ b) = callBytes a + callBytes b := by
  induction a with
  | nil => simp [callBytes]
  | cons k ks ih => simp [callBytes, ih]; omega

theorem recordBytes_append (a b : List Event) :
    recordBytes (a ++ b) = recordBytes a + recordBytes b := by
  simp [recordBytes, callsOf_append, callBytes_append]

theorem stepInv_going (c : DexEnv) (ptr0 : Nat) : StepInv c (Going ptr0) Stopped where
  method0 := by
    intro s pos pm hP _
    simp [Going, UqState.log, recordBytes, callsOf_append, callBytes_append, callsOf, callBytes, Event.good,
      List.all_append] at hP ⊢
    exact hP
  callOk := by
    intro s pos pm hP _ _
    simp [Going, recordBytes, callsOf_append, callBytes_append, callsOf, callBytes, Event.good,
      List.all_append] at hP ⊢
    refine ⟨by omega, hP.2⟩
  callFail := by
    intro s pos pm hP _ _
    exact ⟨_, _, rfl, rfl, by simpa [Going, List.all_append, Event.good] using hP.2⟩
  skipExtract := by
    intro s idx hP
    simp [Going, UqState.log, recordBytes, callsOf_append, callBytes_append, callsOf, callBytes, Event.good,
      List.all_append] at hP ⊢
    exact hP
  skipMagic := by
    intro s idx buf hP
    simp [Going, UqState.log, recordBytes, callsOf_append, callBytes_append, callsOf, callBytes, Event.good,
      List.all_append] at hP ⊢
    exact hP
  sumOk := by
    intro s idx buf hP heq
    simp [Going, UqState.log, recordBytes, callsOf_append, callBytes_append, callsOf, callBytes, Event.good,
      List.all_append] at hP ⊢
    exact ⟨hP.1, hP.2, heq⟩
  sumFail := by
    intro s idx buf hP hne
    exact ⟨_, _, rfl, by simpa [Event.good] using hne, hP.2⟩

theorem stepInv_paired (c : DexEnv) : StepInv c (Paired c) (Paired c) where
  method0 := by
    intro s pos pm hP h0
    simpa [Paired, UqState.log, callsOf_append, methodsOf_append, callsOf, codeMethodsOf,
      methodsOf, h0] using hP
  callOk := by
    intro s pos pm hP h0 _
    simpa [Paired, callsOf_append, methodsOf_append, callsOf, codeMethodsOf, methodsOf, h0,
      Call.target, callTarget] using hP
  callFail := by
    intro s pos pm hP h0 _
    simpa [Paired, callsOf_append, methodsOf_append, callsOf, codeMethodsOf, methodsOf, h0,
      Call.target, callTarget] using hP
  skipExtract := by
    intro s idx hP
    simpa [Paired, UqState.log, callsOf_append, methodsOf_append, callsOf, codeMethodsOf,
      methodsOf] using hP
  skipMagic := by
    intro s idx buf hP
    simpa [Paired, UqState.log, callsOf_append, methodsOf_append, callsOf, codeMethodsOf,
      methodsOf] using hP
  sumOk := by
    intro s idx buf hP _
    simpa [Paired, UqState.log, callsOf_append, methodsOf_append, callsOf, codeMethodsOf,
      methodsOf] using hP
  sumFail := by
    intro s idx buf hP _
    simpa [Paired, UqState.log, callsOf_append, methodsOf_append, callsOf, codeMethodsOf,
      methodsOf] using hP

theorem StepInv.and {c : DexEnv} {P Q P2 Q2 : UqState → Prop} (h : StepInv c P Q)
    (h2 : StepInv c P2 Q2) : StepInv c (fun s => P s ∧ P2 s) (fun s => Q s ∧ Q2 s) where
  method0 := fun s pos pm hP h0 => ⟨h.method0 s pos pm hP.1 h0, h2.method0 s pos pm hP.2 h0⟩
  callOk := fun s pos pm hP h0 hr => ⟨h.callOk s pos pm hP.1 h0 hr, h2.callOk s pos pm hP.2 h0 hr⟩
  callFail := fun s pos pm hP h0 hr =>
    ⟨h.callFail s pos pm hP.1 h0 hr, h2.callFail s pos pm hP.2 h0 hr⟩
  skipExtract := fun s idx hP => ⟨h.skipExtract s idx hP.1, h2.skipExtract s idx hP.2⟩
  skipMagic := fun s idx buf hP => ⟨h.skipMagic s idx buf hP.1, h2.skipMagic s idx buf hP.2⟩
  sumOk := fun s idx buf hP he => ⟨h.sumOk s idx buf hP.1 he, h2.sumOk s idx buf hP.2 he⟩
  sumFail := fun s idx buf hP he => ⟨h.sumFail s idx buf hP.1 he, h2.sumFail s idx buf hP.2 he⟩

/-- The invariants through the whole of `vdex_Unquicken` when the stream is not empty:
a successful run ends in a `P` state with the stream pointer at the end of the
stream; a failed run ends in a `Q` state, or in a `P` state with the pointer off
the end. -/
theorem vdex_Unquicken_inv {c : DexEnv} {P Q : UqState → Prop} (h : StepInv c P Q)
    (cursor : Nat) (m : Mem) (hq : vdex_GetQuickeningInfoSize m cursor ≠ 0)
    (hP : P { mem := m, ptr := vdex_GetQuickeningInfo m cursor, trace := [] }) :
    ((vdex_Unquicken c cursor m).ok = true →
      P (vdex_Unquicken c cursor m).st ∧
      (vdex_Unquicken c cursor m).st.ptr =
        vdex_GetQuickeningInfo m cursor + vdex_GetQuickeningInfoSize m cursor) ∧
    ((vdex_Unquicken c cursor m).ok = false →
      Q (vdex_Unquicken c cursor m).st ∨
      (P (vdex_Unquicken c cursor m).st ∧
        (vdex_Unquicken c cursor m).st.ptr ≠
          vdex_GetQuickeningInfo m cursor + vdex_GetQuickeningInfoSize m cursor)) := by
  have hl := filesLoop_inv h cursor U32 0 0 _ hP
  unfold vdex_Unquicken
  simp only [hq, if_false]
  cases hok : (filesLoop c cursor U32 0 0
      { mem := m, ptr := vdex_GetQuickeningInfo m cursor, trace := [] }).ok with
  | false => simpa [hok] using Or.inl (hl.2 hok)
  | true =>
    simp only [if_true, decide_eq_true_eq, decide_eq_false_iff_not]
    exact ⟨fun he => ⟨hl.1 hok, he⟩, fun hne => Or.inr ⟨hl.1 hok, hne⟩⟩

/-- C1: when the stream is not empty and `vdex_Unquicken` returns success, the stream was
drained exactly: the final stream pointer equals the end of the stream, the sum of
`4 + L` over the records consumed equals `quickeningInfoSize`, and the records consumed
are one for each decoded method with `codeOff != 0` (none for a method with
`codeOff == 0`); a final pointer off the end of the stream makes it return failure. -/
theorem C1_stream_drained_exactly (c : DexEnv) (cursor : Nat) (m : Mem)
    (hq : vdex_GetQuickeningInfoSize m cursor ≠ 0) :
    ((vdex_Unquicken c cursor m).ok = true →
      (vdex_Unquicken c cursor m).st.ptr =
        vdex_GetQuickeningInfo m cursor + vdex_GetQuickeningInfoSize m cursor ∧
      recordBytes (vdex_Unquicken c cursor m).st.trace = vdex_GetQuickeningInfoSize m cursor ∧
      (callsOf (vdex_Unquicken c cursor m).st.trace).map Call.target =
        (codeMethodsOf (vdex_Unquicken c cursor m).st.trace).map (callTarget c)) ∧
    ((vdex_Unquicken c cursor m).st.ptr ≠
        vdex_GetQuickeningInfo m cursor + vdex_GetQuickeningInfoSize m cursor →
      (vdex_Unquicken c cursor m).ok = false) := by
  have h := vdex_Unquicken_inv
    ((stepInv_going c (vdex_GetQuickeningInfo m cursor)).and (stepInv_paired c)) cursor m hq
    ⟨⟨by simp [recordBytes, callsOf, callBytes], by simp⟩, by simp [Paired, callsOf, codeMethodsOf, methodsOf]⟩
  have h1 : (vdex_Unquicken c cursor m).ok = true →
      (vdex_Unquicken c cursor m).st.ptr =
        vdex_GetQuickeningInfo m cursor + vdex_GetQuickeningInfoSize m cursor ∧
      recordBytes (vdex_Unquicken c cursor m).st.trace = vdex_GetQuickeningInfoSize m cursor ∧
      (callsOf (vdex_Unquicken c cursor m).st.trace).map Call.target =
        (codeMethodsOf (vdex_Unquicken c cursor m).st.trace).map (callTarget c) := by
    intro hok
    obtain ⟨⟨⟨hptr, _⟩, hpair⟩, hend⟩ := h.1 hok
    refine ⟨hend, ?_, hpair⟩
    rw [hptr] at hend
    omega
  refine ⟨h1, fun hne => ?_⟩
  cases hok : (vdex_Unquicken c cursor m).ok with
  | false => rfl
  | true => exact absurd (h1 hok).1 hne

/-- The witness of C1: a one-file container with two methods with code and a stream of
two records, rewritten by a collaborator that patches the code. -/
theorem C1_witness :
    vdex_GetQuickeningInfoSize (oneFile 856 10) 0 ≠ 0 ∧
    (vdex_Unquicken (toyEnv decPatch) 0 (oneFile 856 10)).ok = true ∧
    (((vdex_Unquicken (toyEnv decPatch) 0 (oneFile 856 10)).ok = true →
      (vdex_Unquicken (toyEnv decPatch) 0 (oneFile 856 10)).st.ptr =
        vdex_GetQuickeningInfo (oneFile 856 10) 0 + vdex_GetQuickeningInfoSize (oneFile 856 10) 0 ∧
      recordBytes (vdex_Unquicken (toyEnv decPatch) 0 (oneFile 856 10)).st.trace =
        vdex_GetQuickeningInfoSize (oneFile 856 10) 0 ∧
      (callsOf (vdex_Unquicken (toyEnv decPatch) 0 (oneFile 856 10)).st.trace).map Call.target =
        (codeMethodsOf (vdex_Unquicken (toyEnv decPatch) 0 (oneFile 856 10)).st.trace).map
          (callTarget (toyEnv decPatch))) ∧
    ((vdex_Unquicken (toyEnv decPatch) 0 (oneFile 856 10)).st.ptr ≠
        vdex_GetQuickeningInfo (oneFile 856 10) 0 + vdex_GetQuickeningInfoSize (oneFile 856 10) 0 →
      (vdex_Unquicken (toyEnv decPatch) 0 (oneFile 856 10)).ok = false)) :=
  ⟨by decide, by decide, C1_stream_drained_exactly (toyEnv decPatch) 0 (oneFile 856 10) (by decide)⟩

/-- With a collaborator that changes nothing, the memory stays what it is. -/
theorem stepInv_noop (c : DexEnv) (hnoop : NoopDecompiler c) (m : Mem) :
    StepInv c (fun s => s.mem = m) (fun _ => True) where
  method0 := fun _ _ _ hP _ => hP
  callOk := by
    intro s pos pm hP _ _
    show (c.dexDecompiler_decompile _ _ _ _ _ _ _).2 = m
    rw [hnoop]
    exact hP
  callFail := fun _ _ _ _ _ _ => trivial
  skipExtract := fun _ _ hP => hP
  skipMagic := fun _ _ _ hP => hP
  sumOk := fun _ _ _ hP _ => hP
  sumFail := fun _ _ _ _ _ => trivial

theorem fileBody_offset (c : DexEnv) (cursor idx offset : Nat) (s : UqState) :
    (fileBody c cursor idx offset s).offset = (vdex_GetNextDexFileData c s.mem cursor offset).2 := by
  cases hit : (vdex_GetNextDexFileData c s.mem cursor offset).1 with
  | none => rw [fileBody_none c cursor idx offset s hit]
  | some buf =>
    cases hmag : c.dex_isValidDexMagic s.mem buf with
    | false => rw [fileBody_badMagic c cursor idx offset s buf hit hmag]
    | true =>
      cases hok : (classesLoop c idx buf U32 0 s).ok with
      | false => rw [fileBody_classesFail c cursor idx offset s buf hit hmag hok]
      | true => rw [fileBody_classesOk c cursor idx offset s buf hit hmag hok]

/-- With a collaborator that changes nothing, a file whose checksum does not match
stops the loop over the files when the loop reaches it. -/
theorem filesLoop_mismatch (c : DexEnv) (hnoop : NoopDecompiler c) (cursor : Nat) (m : Mem)
    (k buf : Nat) (hk : k < number_of_dex_files m cursor)
    (hview : nthView c m cursor k = some buf)
    (hmagic : c.dex_isValidDexMagic m buf = true)
    (hsum : c.dex_computeDexCRC m buf (dexHeader_fileSize c m buf) ≠ dexHeader_checksum c m buf)
    (fuel : Nat) :
    ∀ (idx : Nat) (s : UqState), s.mem = m → idx ≤ k → k < idx + fuel →
      (filesLoop c cursor fuel idx (iterOffset c m cursor idx) s).ok = false := by
  induction fuel with
  | zero => intro idx s _ h1 h2; omega
  | succ fuel ih =>
    intro idx s hm h1 h2
    rw [filesLoop]
    have hi : idx < number_of_dex_files s.mem cursor := by rw [hm]; omega
    simp only [hi, if_true]
    have hb := fileBody_inv (stepInv_noop c hnoop m) cursor idx (iterOffset c m cursor idx) s hm
    cases hok : (fileBody c cursor idx (iterOffset c m cursor idx) s).ok with
    | false => simp
    | true =>
      simp only [if_true]
      have hoff := fileBody_offset c cursor idx (iterOffset c m cursor idx) s
      rw [hm] at hoff
      by_cases hik : idx = k
      · exfalso
        subst hik
        have hit : (vdex_GetNextDexFileData c s.mem cursor (iterOffset c m cursor idx)).1 = some buf := by
          rw [hm]; exact hview
        have hmag : c.dex_isValidDexMagic s.mem buf = true := by rw [hm]; exact hmagic
        have hc := classesLoop_inv (stepInv_noop c hnoop m) idx buf U32 0 s hm
        cases hcl : (classesLoop c idx buf U32 0 s).ok with
        | false =>
          rw [fileBody_classesFail c cursor idx _ s buf hit hmag hcl] at hok
          cases hok
        | true =>
          rw [fileBody_classesOk c cursor idx _ s buf hit hmag hcl] at hok
          have hm2 := hc.1 hcl
          simp only [decide_eq_true_eq] at hok
          rw [hm2] at hok
          exact hsum hok
      · have := ih (idx + 1) (fileBody c cursor idx (iterOffset c m cursor idx) s).st
          (hb.1 hok) (by omega) (by omega)
        rw [hoff]
        exact this

/-- C2 (amended): when the stream is not empty and the rewrite collaborator is a no-op,
a file that the traversal reaches (returned by the iterator for a file index below
`numFiles`, with a valid Dex magic) and whose stored checksum differs from the checksum
computed over its bytes makes `vdex_Unquicken` return failure. -/
theorem C2_mismatch_reached_fails (c : DexEnv) (cursor : Nat) (m : Mem)
    (hnoop : NoopDecompiler c)
    (hq : vdex_GetQuickeningInfoSize m cursor ≠ 0)
    (k buf : Nat) (hk : k < number_of_dex_files m cursor)
    (hview : nthView c m cursor k = some buf)
    (hmagic : c.dex_isValidDexMagic m buf = true)
    (hsum : c.dex_computeDexCRC m buf (dexHeader_fileSize c m buf) ≠ dexHeader_checksum c m buf) :
    (vdex_Unquicken c cursor m).ok = false := by
  have hlt : k < 0 + U32 := by
    have := readU32_lt m (cursor + 8)
    unfold number_of_dex_files at hk
    omega
  have h := filesLoop_mismatch c hnoop cursor m k buf hk hview hmagic hsum U32 0
    { mem := m, ptr := vdex_GetQuickeningInfo m cursor, trace := [] } rfl (Nat.zero_le k) hlt
  unfold vdex_Unquicken
  simp only [hq, if_false]
  simp only [iterOffset] at h
  simp [h]

/-- The witness of C2: the one-file container with a stored checksum of 0 where 854 is
computed, and a no-op collaborator. -/
theorem C2_witness :
    NoopDecompiler (toyEnv decNoop) ∧
    vdex_GetQuickeningInfoSize (oneFile 0 10) 0 ≠ 0 ∧
    0 < number_of_dex_files (oneFile 0 10) 0 ∧
    nthView (toyEnv decNoop) (oneFile 0 10) 0 0 = some 28 ∧
    (toyEnv decNoop).dex_isValidDexMagic (oneFile 0 10) 28 = true ∧
    (toyEnv decNoop).dex_computeDexCRC (oneFile 0 10) 28
      (dexHeader_fileSize (toyEnv decNoop) (oneFile 0 10) 28) ≠
      dexHeader_checksum (toyEnv decNoop) (oneFile 0 10) 28 ∧
    (vdex_Unquicken (toyEnv decNoop) 0 (oneFile 0 10)).ok = false :=
  ⟨fun _ _ _ _ _ _ _ => rfl, by decide, by decide, by decide, by decide, by decide,
    C2_mismatch_reached_fails (toyEnv decNoop) 0 (oneFile 0 10) (fun _ _ _ _ _ _ _ => rfl)
      (by decide) 0 28 (by decide) (by decide) (by decide) (by decide)⟩

/-- C2 is false as stated: with a no-op collaborator `vdex_Unquicken` returns success on
a container whose only file has a wrong stored checksum when the stream is empty, and
on a container with a non-empty stream whose second file has a wrong stored checksum and
a corrupted magic. -/
theorem C2_counterexample :
    NoopDecompiler (toyEnv decNoop) ∧
    (nthView (toyEnv decNoop) (oneFile 0 0) 0 0 = some 28 ∧
      (toyEnv decNoop).dex_computeDexCRC (oneFile 0 0) 28
        (dexHeader_fileSize (toyEnv decNoop) (oneFile 0 0) 28) ≠
        dexHeader_checksum (toyEnv decNoop) (oneFile 0 0) 28 ∧
      (vdex_Unquicken (toyEnv decNoop) 0 (oneFile 0 0)).ok = true) ∧
    (vdex_GetQuickeningInfoSize goodThenBadMagic 0 ≠ 0 ∧
      nthView (toyEnv decNoop) goodThenBadMagic 0 1 = some 256 ∧
      (toyEnv decNoop).dex_computeDexCRC goodThenBadMagic 256
        (dexHeader_fileSize (toyEnv decNoop) goodThenBadMagic 256) ≠
        dexHeader_checksum (toyEnv decNoop) goodThenBadMagic 256 ∧
      (vdex_Unquicken (toyEnv decNoop) 0 goodThenBadMagic).ok = true) :=
  ⟨fun _ _ _ _ _ _ _ => rfl, ⟨by decide, by decide, by decide⟩,
    ⟨by decide, by decide, by decide, by decide⟩⟩

theorem replay_append (c : DexEnv) (a b : List Call) :
    ∀ m : Mem, replay c m (a ++ b) = replay c (replay c m a) b := by
  induction a with
  | nil => intro m; rfl
  | cons k ks ih => intro m; simp [replay, ih]

theorem RecordsFrom_append (c : DexEnv) (a b : List Call) :
    ∀ (m : Mem) (p : Nat), RecordsFrom c m p (a ++ b) ↔
      RecordsFrom c m p a ∧ RecordsFrom c (replay c m a) (p + callBytes a) b := by
  induction a with
  | nil => intro m p; simp [RecordsFrom, replay, callBytes]
  | cons k ks ih =>
    intro m p
    have h := ih (c.dexDecompiler_decompile m k.pos.buf k.code k.first k.blob k.size true).2
      (p + 4 + k.size)
    have e : p + (4 + k.size + callBytes ks) = p + 4 + k.size + callBytes ks := by omega
    show (_ ∧ _ ∧ _ ∧ RecordsFrom c _ _ (ks ++ b)) ↔ _
    rw [h]
    simp only [RecordsFrom, replay, callBytes, e, and_assoc]

theorem stepInv_records (c : DexEnv) (m0 : Mem) (p0 : Nat) :
    StepInv c (RecGoing c m0 p0) (RecStopped c m0 p0) where
  method0 := by
    intro s pos pm hP _
    simpa [RecGoing, UqState.log, callsOf_append, callsOf] using hP
  callOk := by
    intro s pos pm hP _ hr
    obtain ⟨h1, h2, h3⟩ := hP
    refine ⟨?_, ?_, ?_⟩
    · simp only [callsOf_append, callsOf, List.append_nil, List.append_assoc, List.nil_append]
      rw [RecordsFrom_append]
      refine ⟨h1, ?_⟩
      simp only [RecordsFrom, and_true]
      rw [← h2, ← h3]
      exact ⟨rfl, rfl, hr.symm⟩
    · simp only [callsOf_append, callsOf, List.append_nil, List.append_assoc, List.nil_append]
      rw [replay_append, ← h2]
      rfl
    · simp only [callsOf_append, callsOf, List.append_nil, List.append_assoc, List.nil_append,
        callBytes_append, callBytes]
      omega
  callFail := by
    intro s pos pm hP _ hr
    obtain ⟨h1, h2, h3⟩ := hP
    show RecordsFrom c m0 p0 _
    simp only [callsOf_append, callsOf, List.append_nil, List.append_assoc, List.nil_append]
    rw [RecordsFrom_append]
    refine ⟨h1, ?_⟩
    simp only [RecordsFrom, and_true]
    rw [← h2, ← h3]
    exact ⟨rfl, rfl, hr.symm⟩
  skipExtract := by
    intro s idx hP
    simpa [RecGoing, UqState.log, callsOf_append, callsOf] using hP
  skipMagic := by
    intro s idx buf hP
    simpa [RecGoing, UqState.log, callsOf_append, callsOf] using hP
  sumOk := by
    intro s idx buf hP _
    simpa [RecGoing, UqState.log, callsOf_append, callsOf] using hP
  sumFail := by
    intro s idx buf hP _
    simpa [RecGoing, RecStopped, UqState.log, callsOf_append, callsOf] using hP.1

/-- The call number `k` of calls that take the records from `p` on is given the record
that starts after the first `k` records. -/
theorem RecordsFrom_get (c : DexEnv) (cs : List Call) :
    ∀ (m : Mem) (p k : Nat) (call : Call), RecordsFrom c m p cs → cs[k]? = some call →
      call.blob = p + callBytes (cs.take k) + 4 ∧
      call.size = readU32 (replay c m (cs.take k)) (p + callBytes (cs.take k)) := by
  induction cs with
  | nil => intro m p k call _ h; simp at h
  | cons x xs ih =>
    intro m p k call hr hk
    obtain ⟨h1, h2, _, h4⟩ := hr
    cases k with
    | zero =>
      simp only [List.getElem?_cons_zero, Option.some.injEq] at hk
      subst hk
      simp [callBytes, replay, h1, h2]
    | succ k =>
      simp only [List.getElem?_cons_succ] at hk
      have := ih _ _ k call h4 hk
      simp only [List.take_succ_cons, callBytes, replay]
      constructor
      · rw [this.1]; omega
      · rw [this.2]
        congr 1
        omega

theorem RecordsFrom_le (c : DexEnv) (cs : List Call) :
    ∀ (m : Mem) (p : Nat), RecordsFrom c m p cs → ∀ k ∈ cs, p + 4 ≤ k.blob := by
  induction cs with
  | nil => intro m p _ k hk; simp at hk
  | cons x xs ih =>
    intro m p hr k hk
    obtain ⟨_, h2, _, h4⟩ := hr
    rcases List.mem_cons.1 hk with rfl | hk
    · omega
    · have := ih _ _ h4 k hk
      omega

theorem RecordsFrom_pairwise (c : DexEnv) (cs : List Call) :
    ∀ (m : Mem) (p : Nat), RecordsFrom c m p cs →
      cs.Pairwise fun a b => a.blob + a.size + 4 ≤ b.blob := by
  induction cs with
  | nil => intro m p _; exact List.Pairwise.nil
  | cons x xs ih =>
    intro m p hr
    obtain ⟨_, h2, _, h4⟩ := hr
    refine List.Pairwise.cons ?_ (ih _ _ h4)
    intro b hb
    have := RecordsFrom_le c xs _ _ h4 b hb
    omega

theorem posOf_append (a b : List Event) : posOf (a ++ b) = posOf a ++ posOf b := by
  simp [posOf, methodsOf_append]

theorem MethodPos.before_mono {a b b2 : MethodPos} (h : a.before b)
    (h2 : b.before b2 ∨ (b.idx = b2.idx ∧ b.cls = b2.cls ∧ b.virt = b2.virt ∧ b.j = b2.j)) :
    a.before b2 := by
  unfold MethodPos.before at *
  rcases h2 with h2 | ⟨e1, e2, e3, e4⟩
  · omega
  · rw [← e1, ← e2, ← e3, ← e4]; exact h

theorem Ordered.mono {b b2 : MethodPos} {tr : List Event} (h : Ordered b tr)
    (h2 : b.before b2 ∨ (b.idx = b2.idx ∧ b.cls = b2.cls ∧ b.virt = b2.virt ∧ b.j = b2.j)) :
    Ordered b2 tr :=
  ⟨h.1, fun p hp => MethodPos.before_mono (h.2 p hp) h2⟩

theorem Ordered.same {b : MethodPos} {tr tr2 : List Event} (h : Ordered b tr)
    (e : posOf tr2 = posOf tr) : Ordered b tr2 := by
  unfold Ordered at *
  rw [e]
  exact h

theorem Ordered.method {pos b2 : MethodPos} {tr : List Event} (pm : dexMethod)
    (h : Ordered pos tr) (h2 : pos.before b2) : Ordered b2 (tr ++ [Event.method pos pm]) := by
  unfold Ordered at *
  have e : posOf (tr ++ [Event.method pos pm]) = posOf tr ++ [pos] := by
    simp [posOf, methodsOf_append, methodsOf]
  rw [e]
  refine ⟨?_, ?_⟩
  · rw [List.pairwise_append]
    exact ⟨h.1, List.pairwise_singleton _ _, fun a ha b hb => by
      rw [List.mem_singleton.1 hb]; exact h.2 a ha⟩
  · intro p hp
    rcases List.mem_append.1 hp with hp | hp
    · exact MethodPos.before_mono (h.2 p hp) (Or.inl h2)
    · rw [List.mem_singleton.1 hp]; exact h2

theorem methodsLoop_ordered (c : DexEnv) (idx buf cls : Nat) (virt : Bool) (n : Nat) :
    ∀ (j cur : Nat) (s : UqState),
      Ordered { idx := idx, buf := buf, cls := cls, virt := virt, j := j } s.trace →
      Ordered { idx := idx, buf := buf, cls := cls, virt := virt, j := j + n }
        (methodsLoop c idx buf cls virt n j cur s).st.trace := by
  induction n with
  | zero => intro j cur s h; simpa [methodsLoop] using h
  | succ n ih =>
    intro j cur s h
    have hnext : MethodPos.before { idx := idx, buf := buf, cls := cls, virt := virt, j := j }
        { idx := idx, buf := buf, cls := cls, virt := virt, j := j + 1 } := by
      simp [MethodPos.before]
    have h1 := Ordered.method (c.dex_readClassDataMethod s.mem cur).2 h hnext
    have e : j + (n + 1) = j + 1 + n := by omega
    rw [methodsLoop, e]
    by_cases h0 : (c.dex_readClassDataMethod s.mem cur).2.codeOff = 0
    · simp only [h0, if_true]
      exact ih _ _ _ h1
    · simp only [h0, if_false]
      have h2 : ∀ ok : Bool, Ordered { idx := idx, buf := buf, cls := cls, virt := virt, j := j + 1 }
          ((s.trace ++ [Event.method { idx := idx, buf := buf, cls := cls, virt := virt, j := j }
              (c.dex_readClassDataMethod s.mem cur).2]) ++
            [Event.decompile { idx := idx, buf := buf, cls := cls, virt := virt, j := j }
              (buf + (c.dex_readClassDataMethod s.mem cur).2.codeOff)
              (c.dex_getFirstInstrOff (c.dex_readClassDataMethod s.mem cur).2) (s.ptr + 4)
              (readU32 s.mem s.ptr) ok]) := fun ok =>
        h1.same (by simp [posOf, methodsOf_append, methodsOf])
      cases hr : (c.dexDecompiler_decompile s.mem buf
          (buf + (c.dex_readClassDataMethod s.mem cur).2.codeOff)
          (c.dex_getFirstInstrOff (c.dex_readClassDataMethod s.mem cur).2)
          (s.ptr + 4) (readU32 s.mem s.ptr) true).1 with
      | true =>
        simp only [UqState.log, hr, if_true]
        exact ih _ _ _ (h2 true)
      | false =>
        simp only [UqState.log, hr, Bool.false_eq_true, if_false]
        exact (h2 false).mono (by
          by_cases hn : n = 0
          · right; simp [hn]
          · left; simp [MethodPos.before]; omega)

theorem classBody_ordered (c : DexEnv) (idx buf i : Nat) (s : UqState)
    (h : Ordered { idx := idx, buf := buf, cls := i, virt := false, j := 0 } s.trace) :
    Ordered { idx := idx, buf := buf, cls := i + 1, virt := false, j := 0 }
      (classBody c idx buf i s).st.trace := by
  unfold classBody
  by_cases h0 : dexClassDef_classDataOff c s.mem (c.dex_getClassDef s.mem buf i) = 0
  · simp only [h0, if_true]
    exact h.mono (Or.inl (by simp [MethodPos.before]))
  · simp only [h0, if_false]
    have hd := methodsLoop_ordered c idx buf i false
      (c.dex_readClassDataHeader s.mem
        (buf + dexClassDef_classDataOff c s.mem (c.dex_getClassDef s.mem buf i))).2.directMethodsSize
      0 (fieldsLoop c s.mem (c.dex_readClassDataHeader s.mem
        (buf + dexClassDef_classDataOff c s.mem (c.dex_getClassDef s.mem buf i))).2.instanceFieldsSize
        (fieldsLoop c s.mem (c.dex_readClassDataHeader s.mem
        (buf + dexClassDef_classDataOff c s.mem (c.dex_getClassDef s.mem buf i))).2.staticFieldsSize
        (c.dex_readClassDataHeader s.mem
        (buf + dexClassDef_classDataOff c s.mem (c.dex_getClassDef s.mem buf i))).1)) s h
    revert hd
    generalize methodsLoop c idx buf i false _ 0 _ s = rd
    intro hd
    cases hok : rd.ok with
    | true =>
      simp only [if_true]
      have hv := methodsLoop_ordered c idx buf i true
        (c.dex_readClassDataHeader s.mem
          (buf + dexClassDef_classDataOff c s.mem (c.dex_getClassDef s.mem buf i))).2.virtualMethodsSize
        0 rd.cur rd.st (hd.mono (Or.inl (by simp [MethodPos.before])))
      exact hv.mono (Or.inl (by simp [MethodPos.before]))
    | false =>
      simp only [Bool.false_eq_true, if_false]
      exact hd.mono (Or.inl (by simp [MethodPos.before]))

theorem classesLoop_ordered (c : DexEnv) (idx buf : Nat) (fuel : Nat) :
    ∀ (i : Nat) (s : UqState),
      Ordered { idx := idx, buf := buf, cls := i, virt := false, j := 0 } s.trace →
      Ordered { idx := idx + 1, buf := 0, cls := 0, virt := false, j := 0 }
        (classesLoop c idx buf fuel i s).st.trace := by
  induction fuel with
  | zero =>
    intro i s h
    simpa [classesLoop] using h.mono (Or.inl (by simp [MethodPos.before]))
  | succ fuel ih =>
    intro i s h
    rw [classesLoop]
    by_cases hi : i < dexHeader_classDefsSize c s.mem buf
    · simp only [hi, if_true]
      have hb := classBody_ordered c idx buf i s h
      cases hok : (classBody c idx buf i s).ok with
      | true => simp only [if_true]; exact ih _ _ hb
      | false =>
        simp only [Bool.false_eq_true, if_false]
        exact hb.mono (Or.inl (by simp [MethodPos.before]))
    · simp only [hi, if_false]
      exact h.mono (Or.inl (by simp [MethodPos.before]))

theorem fileBody_ordered (c : DexEnv) (cursor idx offset : Nat) (s : UqState)
    (h : Ordered { idx := idx, buf := 0, cls := 0, virt := false, j := 0 } s.trace) :
    Ordered { idx := idx + 1, buf := 0, cls := 0, virt := false, j := 0 }
      (fileBody c cursor idx offset s).st.trace := by
  have hup : Ordered { idx := idx + 1, buf := 0, cls := 0, virt := false, j := 0 } s.trace :=
    h.mono (Or.inl (by simp [MethodPos.before]))
  cases hit : (vdex_GetNextDexFileData c s.mem cursor offset).1 with
  | none =>
    rw [fileBody_none c cursor idx offset s hit]
    exact hup.same (by simp [UqState.log, posOf, methodsOf_append, methodsOf])
  | some buf =>
    cases hmag : c.dex_isValidDexMagic s.mem buf with
    | false =>
      rw [fileBody_badMagic c cursor idx offset s buf hit hmag]
      exact hup.same (by simp [UqState.log, posOf, methodsOf_append, methodsOf])
    | true =>
      have hc := classesLoop_ordered c idx buf U32 0 s (h.mono (Or.inr ⟨rfl, rfl, rfl, rfl⟩))
      cases hok : (classesLoop c idx buf U32 0 s).ok with
      | false =>
        rw [fileBody_classesFail c cursor idx offset s buf hit hmag hok]
        exact hc
      | true =>
        rw [fileBody_classesOk c cursor idx offset s buf hit hmag hok]
        exact hc.same (by simp [UqState.log, posOf, methodsOf_append, methodsOf])

theorem filesLoop_ordered (c : DexEnv) (cursor : Nat) (fuel : Nat) :
    ∀ (idx offset : Nat) (s : UqState),
      Ordered { idx := idx, buf := 0, cls := 0, virt := false, j := 0 } s.trace →
      (posOf (filesLoop c cursor fuel idx offset s).st.trace).Pairwise MethodPos.before := by
  induction fuel with
  | zero => intro idx offset s h; simpa [filesLoop] using h.1
  | succ fuel ih =>
    intro idx offset s h
    rw [filesLoop]
    by_cases hi : idx < number_of_dex_files s.mem cursor
    · simp only [hi, if_true]
      have hb := fileBody_ordered c cursor idx offset s h
      cases hok : (fileBody c cursor idx offset s).ok with
      | true => simp only [if_true]; exact ih _ _ _ hb
      | false => simp only [Bool.false_eq_true, if_false]; exact hb.1
    · simp only [hi, if_false]
      exact h.1

theorem vdex_Unquicken_ordered (c : DexEnv) (cursor : Nat) (m : Mem) :
    (posOf (vdex_Unquicken c cursor m).st.trace).Pairwise MethodPos.before := by
  unfold vdex_Unquicken
  by_cases hq : vdex_GetQuickeningInfoSize m cursor = 0
  · simp [hq, posOf, methodsOf]
  · simp only [hq, if_false]
    have h := filesLoop_ordered c cursor U32 0 0
      { mem := m, ptr := vdex_GetQuickeningInfo m cursor, trace := [] }
      ⟨by simp [posOf, methodsOf], by simp [posOf, methodsOf]⟩
    split <;> exact h

/-- The calls of every run take the records of the stream in order and are paired with
the decoded methods that have a code item. -/
theorem vdex_Unquicken_records (c : DexEnv) (cursor : Nat) (m : Mem) :
    RecordsFrom c m (vdex_GetQuickeningInfo m cursor) (callsOf (vdex_Unquicken c cursor m).st.trace) ∧
    Paired c (vdex_Unquicken c cursor m).st := by
  by_cases hq : vdex_GetQuickeningInfoSize m cursor = 0
  · simp [vdex_Unquicken, hq, callsOf, RecordsFrom, Paired, codeMethodsOf, methodsOf]
  · have h := vdex_Unquicken_inv
      ((stepInv_records c m (vdex_GetQuickeningInfo m cursor)).and (stepInv_paired c)) cursor m hq
      ⟨⟨by simp [callsOf, RecordsFrom], by simp [callsOf, replay], by simp [callsOf, callBytes]⟩,
        by simp [Paired, callsOf, codeMethodsOf, methodsOf]⟩
    cases hok : (vdex_Unquicken c cursor m).ok with
    | true => exact ⟨(h.1 hok).1.1.1, (h.1 hok).1.2⟩
    | false =>
      rcases h.2 hok with h2 | h2
      · exact ⟨h2.1, h2.2⟩
      · exact ⟨h2.1.1.1, h2.1.2⟩

theorem calls_pos_pairwise (c : DexEnv) (tr : List Event)
    (hp : (callsOf tr).map Call.target = (codeMethodsOf tr).map (callTarget c))
    (ho : (posOf tr).Pairwise MethodPos.before) :
    (callsOf tr).Pairwise fun a b => a.pos.before b.pos := by
  have e : (callsOf tr).map Call.pos = (codeMethodsOf tr).map Prod.fst := by
    have := congrArg (List.map Prod.fst) hp
    simpa [List.map_map, Function.comp_def, Call.target, callTarget] using this
  have hs : List.Sublist ((codeMethodsOf tr).map Prod.fst) (posOf tr) :=
    List.Sublist.map _ (List.filter_sublist _)
  have h2 : ((callsOf tr).map Call.pos).Pairwise MethodPos.before := by
    rw [e]; exact ho.sublist hs
  exact List.pairwise_map.1 h2

theorem unquickenFile_fail (c : DexEnv) (idx buf : Nat) (s : UqState)
    (hok : (classesLoop c idx buf U32 0 s).ok = false) :
    unquickenFile c idx buf s = { ok := false, st := (classesLoop c idx buf U32 0 s).st } := by
  unfold unquickenFile
  simp only [hok, Bool.false_eq_true, if_false]

theorem unquickenFile_ok (c : DexEnv) (idx buf : Nat) (s : UqState)
    (hok : (classesLoop c idx buf U32 0 s).ok = true) :
    unquickenFile c idx buf s =
      { ok := decide (c.dex_computeDexCRC (classesLoop c idx buf U32 0 s).st.mem buf
            (dexHeader_fileSize c (classesLoop c idx buf U32 0 s).st.mem buf) =
            dexHeader_checksum c (classesLoop c idx buf U32 0 s).st.mem buf),
        st := (classesLoop c idx buf U32 0 s).st.log
          (Event.checksum idx buf
            (c.dex_computeDexCRC (classesLoop c idx buf U32 0 s).st.mem buf
              (dexHeader_fileSize c (classesLoop c idx buf U32 0 s).st.mem buf))
            (dexHeader_checksum c (classesLoop c idx buf U32 0 s).st.mem buf)) } := by
  unfold unquickenFile
  simp only [hok, if_true]

theorem filesLoop_succ (c : DexEnv) (cursor fuel idx offset : Nat) (s : UqState) :
    filesLoop c cursor (fuel + 1) idx offset s =
      if idx < number_of_dex_files s.mem cursor then
        if (fileBody c cursor idx offset s).ok = true then
          filesLoop c cursor fuel (idx + 1) (fileBody c cursor idx offset s).offset
            (fileBody c cursor idx offset s).st
        else { ok := false, st := (fileBody c cursor idx offset s).st }
      else { ok := true, st := s } := by
  rw [filesLoop]

/-- With a collaborator that changes nothing, a loop over methods runs to its end, leaves
the memory as it is, and decodes the methods that begin at its cursor. -/
theorem methodsLoop_static (c : DexEnv) (hnoop : NoopDecompiler c) (idx buf cls : Nat)
    (virt : Bool) (n : Nat) :
    ∀ (j cur : Nat) (s : UqState),
      (methodsLoop c idx buf cls virt n j cur s).ok = true ∧
      (methodsLoop c idx buf cls virt n j cur s).cur =
        (methodsAt c s.mem idx buf cls virt n j cur).2 ∧
      (methodsLoop c idx buf cls virt n j cur s).st.mem = s.mem ∧
      methodsOf (methodsLoop c idx buf cls virt n j cur s).st.trace =
        methodsOf s.trace ++ (methodsAt c s.mem idx buf cls virt n j cur).1 := by
  induction n with
  | zero => intro j cur s; simp [methodsLoop, methodsAt]
  | succ n ih =>
    intro j cur s
    rw [methodsLoop, methodsAt]
    by_cases h0 : (c.dex_readClassDataMethod s.mem cur).2.codeOff = 0
    · simp only [h0, if_true]
      obtain ⟨a, b, d, e⟩ := ih (j + 1) (c.dex_readClassDataMethod s.mem cur).1
        (s.log (Event.method { idx := idx, buf := buf, cls := cls, virt := virt, j := j }
          (c.dex_readClassDataMethod s.mem cur).2))
      refine ⟨a, b, d, ?_⟩
      rw [e]
      simp [UqState.log, methodsOf_append, methodsOf]
    · simp only [h0, if_false, UqState.log, hnoop s.mem, if_true]
      obtain ⟨a, b, d, e⟩ := ih (j + 1) (c.dex_readClassDataMethod s.mem cur).1
        { mem := s.mem, ptr := s.ptr + 4 + readU32 s.mem s.ptr,
          trace := (s.trace ++
            [Event.method { idx := idx, buf := buf, cls := cls, virt := virt, j := j }
              (c.dex_readClassDataMethod s.mem cur).2]) ++
            [Event.decompile { idx := idx, buf := buf, cls := cls, virt := virt, j := j }
              (buf + (c.dex_readClassDataMethod s.mem cur).2.codeOff)
              (c.dex_getFirstInstrOff (c.dex_readClassDataMethod s.mem cur).2) (s.ptr + 4)
              (readU32 s.mem s.ptr) true] }
      refine ⟨a, b, d, ?_⟩
      rw [e]
      simp [methodsOf_append, methodsOf]

/-- With a collaborator that changes nothing, the body of the loop over the classes
decodes the methods of the class. -/
theorem classBody_static (c : DexEnv) (hnoop : NoopDecompiler c) (idx buf i : Nat)
    (s : UqState) :
    (classBody c idx buf i s).ok = true ∧ (classBody c idx buf i s).st.mem = s.mem ∧
    methodsOf (classBody c idx buf i s).st.trace =
      methodsOf s.trace ++ classMethods c s.mem idx buf i := by
  unfold classBody classMethods
  by_cases h0 : dexClassDef_classDataOff c s.mem (c.dex_getClassDef s.mem buf i) = 0
  · simp [h0]
  · simp only [h0, if_false]
    generalize c.dex_readClassDataHeader s.mem
      (buf + dexClassDef_classDataOff c s.mem (c.dex_getClassDef s.mem buf i)) = rh
    generalize fieldsLoop c s.mem rh.2.instanceFieldsSize
      (fieldsLoop c s.mem rh.2.staticFieldsSize rh.1) = cur2
    obtain ⟨a1, b1, d1, e1⟩ :=
      methodsLoop_static c hnoop idx buf i false rh.2.directMethodsSize 0 cur2 s
    obtain ⟨a2, b2, d2, e2⟩ :=
      methodsLoop_static c hnoop idx buf i true rh.2.virtualMethodsSize 0
        (methodsLoop c idx buf i false rh.2.directMethodsSize 0 cur2 s).cur
        (methodsLoop c idx buf i false rh.2.directMethodsSize 0 cur2 s).st
    simp only [a1, if_true]
    refine ⟨a2, d2.trans d1, ?_⟩
    rw [e2, e1, d1, b1, List.append_assoc]

/-- With a collaborator that changes nothing, the loop over the classes decodes the
methods of the classes from `i` on. -/
theorem classesLoop_static (c : DexEnv) (hnoop : NoopDecompiler c) (idx buf : Nat)
    (fuel : Nat) :
    ∀ (i : Nat) (s : UqState), dexHeader_classDefsSize c s.mem buf ≤ i + fuel →
      (classesLoop c idx buf fuel i s).ok = true ∧
      (classesLoop c idx buf fuel i s).st.mem = s.mem ∧
      methodsOf (classesLoop c idx buf fuel i s).st.trace =
        methodsOf s.trace ++
          ((List.range' i (dexHeader_classDefsSize c s.mem buf - i)).map
            (classMethods c s.mem idx buf)).flatten := by
  induction fuel with
  | zero =>
    intro i s h
    have e : dexHeader_classDefsSize c s.mem buf - i = 0 := by omega
    simp [classesLoop, e]
  | succ fuel ih =>
    intro i s h
    rw [classesLoop]
    by_cases hi : i < dexHeader_classDefsSize c s.mem buf
    · obtain ⟨a, d, e⟩ := classBody_static c hnoop idx buf i s
      simp only [hi, if_true, a]
      have h2 : dexHeader_classDefsSize c (classBody c idx buf i s).st.mem buf ≤ i + 1 + fuel := by
        rw [d]; omega
      obtain ⟨a2, d2, e2⟩ := ih (i + 1) (classBody c idx buf i s).st h2
      refine ⟨a2, d2.trans d, ?_⟩
      rw [e2, e, d]
      have e3 : dexHeader_classDefsSize c s.mem buf - i =
          (dexHeader_classDefsSize c s.mem buf - (i + 1)) + 1 := by omega
      rw [e3, List.range'_succ]
      simp [List.append_assoc]
    · have e : dexHeader_classDefsSize c s.mem buf - i = 0 := by omega
      simp [hi, e]

/-- With a collaborator that changes nothing, a valid Dex file has its methods decoded,
whatever its checksum. -/
theorem unquickenFile_static (c : DexEnv) (hnoop : NoopDecompiler c) (idx buf : Nat)
    (s : UqState) :
    (unquickenFile c idx buf s).st.mem = s.mem ∧
    methodsOf (unquickenFile c idx buf s).st.trace =
      methodsOf s.trace ++ fileMethods c s.mem idx buf := by
  have hlt : dexHeader_classDefsSize c s.mem buf ≤ 0 + U32 := by
    have := readU32_lt s.mem (buf + c.classDefsSizeOff)
    unfold dexHeader_classDefsSize; omega
  obtain ⟨a, d, e⟩ := classesLoop_static c hnoop idx buf U32 0 s hlt
  rw [unquickenFile_ok c idx buf s a]
  refine ⟨d, ?_⟩
  simp only [UqState.log, methodsOf_append, methodsOf, List.append_nil]
  rw [e]
  simp [fileMethods, List.range_eq_range']

/-- With a collaborator that changes nothing, the body of the loop over the files follows
the iterator on the fixed memory and decodes the methods of the file if it is not
skipped. -/
theorem fileBody_static (c : DexEnv) (hnoop : NoopDecompiler c) (cursor idx : Nat)
    (s : UqState) :
    (fileBody c cursor idx (iterOffset c s.mem cursor idx) s).st.mem = s.mem ∧
    (fileBody c cursor idx (iterOffset c s.mem cursor idx) s).offset =
      iterOffset c s.mem cursor (idx + 1) ∧
    methodsOf (fileBody c cursor idx (iterOffset c s.mem cursor idx) s).st.trace =
      methodsOf s.trace ++ viewMethods c s.mem cursor false idx := by
  unfold viewMethods nthView
  cases hit : (vdex_GetNextDexFileData c s.mem cursor (iterOffset c s.mem cursor idx)).1 with
  | none =>
    rw [fileBody_none c cursor idx _ s hit]
    simp [UqState.log, methodsOf_append, methodsOf, iterOffset]
  | some b =>
    cases hmag : c.dex_isValidDexMagic s.mem b with
    | false =>
      rw [fileBody_badMagic c cursor idx _ s b hit hmag]
      simp [UqState.log, methodsOf_append, methodsOf, iterOffset, hmag]
    | true =>
      rw [fileBody_valid c cursor idx _ s b hit hmag]
      obtain ⟨d, e⟩ := unquickenFile_static c hnoop idx b s
      simp [d, e, iterOffset, hmag]

/-- With a collaborator that changes nothing, the loop over the files decodes an initial
segment of the methods of the files that are not skipped, and all of them when it runs
to its end. -/
theorem filesLoop_static (c : DexEnv) (hnoop : NoopDecompiler c) (cursor : Nat) (fuel : Nat) :
    ∀ (idx : Nat) (s : UqState), number_of_dex_files s.mem cursor ≤ idx + fuel →
      ∃ rest : List (MethodPos × dexMethod),
        methodsOf s.trace ++
            ((List.range' idx (number_of_dex_files s.mem cursor - idx)).map
              (viewMethods c s.mem cursor false)).flatten =
          methodsOf (filesLoop c cursor fuel idx (iterOffset c s.mem cursor idx) s).st.trace ++
            rest ∧
        ((filesLoop c cursor fuel idx (iterOffset c s.mem cursor idx) s).ok = true →
          rest = []) := by
  induction fuel with
  | zero =>
    intro idx s h
    have e : number_of_dex_files s.mem cursor - idx = 0 := by omega
    exact ⟨[], by simp [filesLoop, e], fun _ => rfl⟩
  | succ fuel ih =>
    intro idx s h
    rw [filesLoop_succ]
    by_cases hi : idx < number_of_dex_files s.mem cursor
    · obtain ⟨d, o, e⟩ := fileBody_static c hnoop cursor idx s
      have e3 : number_of_dex_files s.mem cursor - idx =
          (number_of_dex_files s.mem cursor - (idx + 1)) + 1 := by omega
      simp only [hi, if_true]
      cases hok : (fileBody c cursor idx (iterOffset c s.mem cursor idx) s).ok with
      | true =>
        simp only [if_true]
        have h2 : number_of_dex_files
            (fileBody c cursor idx (iterOffset c s.mem cursor idx) s).st.mem cursor ≤
              idx + 1 + fuel := by rw [d]; omega
        obtain ⟨rest, hr, hnil⟩ :=
          ih (idx + 1) (fileBody c cursor idx (iterOffset c s.mem cursor idx) s).st h2
        rw [d] at hr hnil
        rw [o]
        refine ⟨rest, ?_, hnil⟩
        rw [← hr, e, e3, List.range'_succ]
        simp [List.append_assoc]
      | false =>
        simp only [Bool.false_eq_true, if_false]
        refine ⟨((List.range' (idx + 1) (number_of_dex_files s.mem cursor - (idx + 1))).map
          (viewMethods c s.mem cursor false)).flatten, ?_, fun h => by cases h⟩
        rw [e, e3, List.range'_succ]
        simp [List.append_assoc]
    · have e : number_of_dex_files s.mem cursor - idx = 0 := by omega
      exact ⟨[], by simp [hi, e], fun _ => rfl⟩

/-- With a collaborator that changes nothing, the methods with a code item that the run
decodes are an initial segment of those of the embedded files with a valid Dex magic,
and all of them when the run succeeds on a stream that is not empty. -/
theorem decoded_are_embedded (c : DexEnv) (hnoop : NoopDecompiler c) (cursor : Nat) (m : Mem) :
    ∃ rest : List (MethodPos × dexMethod),
      embeddedCodeMethods c m cursor false =
        codeMethodsOf (vdex_Unquicken c cursor m).st.trace ++ rest ∧
      ((vdex_Unquicken c cursor m).ok = true → vdex_GetQuickeningInfoSize m cursor ≠ 0 →
        rest = []) := by
  unfold vdex_Unquicken
  by_cases h0 : vdex_GetQuickeningInfoSize m cursor = 0
  · simp only [h0, if_true]
    exact ⟨embeddedCodeMethods c m cursor false, by simp [codeMethodsOf, methodsOf],
      fun _ h => absurd rfl h⟩
  · simp only [h0, if_false]
    have hlt : number_of_dex_files m cursor ≤ 0 + U32 := by
      have := readU32_lt m (cursor + 8)
      unfold number_of_dex_files; omega
    obtain ⟨rest, hr, hnil⟩ := filesLoop_static c hnoop cursor U32 0
      { mem := m, ptr := vdex_GetQuickeningInfo m cursor, trace := [] } hlt
    simp only [iterOffset, methodsOf, List.nil_append, Nat.sub_zero] at hr hnil
    refine ⟨rest.filter fun x => x.2.codeOff ≠ 0, ?_, ?_⟩
    · unfold embeddedCodeMethods codeMethodsOf
      rw [List.range_eq_range', hr, List.filter_append]
      cases hok : (filesLoop c cursor U32 0 0
        { mem := m, ptr := vdex_GetQuickeningInfo m cursor, trace := [] }).ok <;> simp [hok]
    · intro hok _
      cases hok2 : (filesLoop c cursor U32 0 0
        { mem := m, ptr := vdex_GetQuickeningInfo m cursor, trace := [] }).ok with
      | true => rw [hnil hok2]; rfl
      | false => simp [hok2] at hok

/-- C3 (amended): every call of the rewrite collaborator is made for a method with a code
item that the run decodes, call number `k` for the `k`-th such method, a file that is
skipped having none of its methods decoded; the methods are decoded in traversal order
(file order, class-def order, direct before virtual, declaration order); call number `k`
is given the `k`-th record of the stream: its blob starts 4 bytes after the end of the
records of the calls before it and its size is the `u32` stored in those 4 bytes, in the
memory the call is made on; the records of two calls do not overlap and follow the
traversal order, so each file that is processed is rewritten from a slice of its own.
When the collaborator changes nothing, the methods with a code item that the run decodes
are an initial segment of those of the embedded files with a valid Dex magic that the
iterator returns, and all of them when the run succeeds on a stream that is not empty. -/
theorem C3_blob_is_own_record (c : DexEnv) (cursor : Nat) (m : Mem) :
    (callsOf (vdex_Unquicken c cursor m).st.trace).map Call.target =
      (codeMethodsOf (vdex_Unquicken c cursor m).st.trace).map (callTarget c) ∧
    (posOf (vdex_Unquicken c cursor m).st.trace).Pairwise MethodPos.before ∧
    (∀ (k : Nat) (call : Call), (callsOf (vdex_Unquicken c cursor m).st.trace)[k]? = some call →
      call.blob = vdex_GetQuickeningInfo m cursor +
        callBytes ((callsOf (vdex_Unquicken c cursor m).st.trace).take k) + 4 ∧
      call.size = readU32 (replay c m ((callsOf (vdex_Unquicken c cursor m).st.trace).take k))
        (vdex_GetQuickeningInfo m cursor +
          callBytes ((callsOf (vdex_Unquicken c cursor m).st.trace).take k))) ∧
    (callsOf (vdex_Unquicken c cursor m).st.trace).Pairwise
      (fun a b => a.pos.before b.pos ∧ a.blob + a.size + 4 ≤ b.blob) ∧
    (NoopDecompiler c →
      ∃ rest : List (MethodPos × dexMethod),
        embeddedCodeMethods c m cursor false =
          codeMethodsOf (vdex_Unquicken c cursor m).st.trace ++ rest ∧
        ((vdex_Unquicken c cursor m).ok = true → vdex_GetQuickeningInfoSize m cursor ≠ 0 →
          rest = [])) := by
  obtain ⟨hrec, hpair⟩ := vdex_Unquicken_records c cursor m
  have hord := vdex_Unquicken_ordered c cursor m
  refine ⟨hpair, hord, ?_, ?_, fun hnoop => decoded_are_embedded c hnoop cursor m⟩
  · intro k call hk
    exact RecordsFrom_get c _ m _ k call hrec hk
  · exact (calls_pos_pairwise c _ hpair hord).and (RecordsFrom_pairwise c _ m _ hrec)

/-- The witness of C3: on the container of three files whose second file is skipped, the
run succeeds; its four calls are made for the four methods with a code item of the first
and the third file, which are the methods the run decodes, and are given the records 0
to 3 of the stream; the third call gets the blob at 722 of one byte, after the 10 bytes
of the two records before it. With the collaborator that changes nothing the run
succeeds as well and decodes all the methods with a code item of the first and the
third file. -/
theorem C3_witness :
    (vdex_Unquicken (toyEnv decQuick) 0 (threeFilesQ 856 857)).ok = true ∧
    (callsOf (vdex_Unquicken (toyEnv decQuick) 0 (threeFilesQ 856 857)).st.trace).map
        (fun k => (k.pos, k.blob, k.size)) =
      [(⟨0, 36, 0, false, 0⟩, recordAt (threeFilesQ 856 857) 708 0),
       (⟨0, 36, 0, true, 0⟩, recordAt (threeFilesQ 856 857) 708 1),
       (⟨2, 484, 0, false, 0⟩, recordAt (threeFilesQ 856 857) 708 2),
       (⟨2, 484, 0, true, 0⟩, recordAt (threeFilesQ 856 857) 708 3)] ∧
    codeMethodsOf (vdex_Unquicken (toyEnv decQuick) 0 (threeFilesQ 856 857)).st.trace =
      embeddedCodeMethods (toyEnv decQuick) (threeFilesQ 856 857) 0 false ∧
    (callsOf (vdex_Unquicken (toyEnv decQuick) 0 (threeFilesQ 856 857)).st.trace)[2]? =
      some { pos := ⟨2, 484, 0, false, 0⟩, code := 644, first := 176, blob := 722, size := 1,
             ok := true } ∧
    722 = vdex_GetQuickeningInfo (threeFilesQ 856 857) 0 +
      callBytes ((callsOf
        (vdex_Unquicken (toyEnv decQuick) 0 (threeFilesQ 856 857)).st.trace).take 2) + 4 ∧
    callBytes ((callsOf
      (vdex_Unquicken (toyEnv decQuick) 0 (threeFilesQ 856 857)).st.trace).take 2) = 10 ∧
    NoopDecompiler (toyEnv decNoop) ∧
    (vdex_Unquicken (toyEnv decNoop) 0 (threeFiles 854 854)).ok = true ∧
    vdex_GetQuickeningInfoSize (threeFiles 854 854) 0 ≠ 0 ∧
    (embeddedCodeMethods (toyEnv decNoop) (threeFiles 854 854) 0 false).map Prod.fst =
      [⟨0, 36, 0, false, 0⟩, ⟨0, 36, 0, true, 0⟩, ⟨2, 484, 0, false, 0⟩,
       ⟨2, 484, 0, true, 0⟩] ∧
    (∃ rest : List (MethodPos × dexMethod),
      embeddedCodeMethods (toyEnv decNoop) (threeFiles 854 854) 0 false =
        codeMethodsOf (vdex_Unquicken (toyEnv decNoop) 0 (threeFiles 854 854)).st.trace ++
          rest ∧
      ((vdex_Unquicken (toyEnv decNoop) 0 (threeFiles 854 854)).ok = true →
        vdex_GetQuickeningInfoSize (threeFiles 854 854) 0 ≠ 0 → rest = [])) :=
  ⟨by decide, by decide, by decide, by decide,
    ((C3_blob_is_own_record (toyEnv decQuick) 0 (threeFilesQ 856 857)).2.2.1 2
      { pos := ⟨2, 484, 0, false, 0⟩, code := 644, first := 176, blob := 722, size := 1,
        ok := true } (by decide)).1,
    by decide, fun _ _ _ _ _ _ _ => rfl, by decide, by decide, by decide,
    (C3_blob_is_own_record (toyEnv decNoop) 0 (threeFiles 854 854)).2.2.2.2
      (fun _ _ _ _ _ _ _ => rfl)⟩

/-- C3 is false as stated: in the container of three files whose second file has a
corrupted magic, the embedded files hold six methods with a code item, two in each file,
and the first method of the third file is number 4 (from 0) among them; the run skips
the second file without moving the stream pointer, succeeds, and hands to the
collaborator, for that method, the blob at 722 of one byte, which is record number 2 of
the stream and not record number 4. -/
theorem C3_counterexample :
    (embeddedCodeMethods (toyEnv decQuick) (threeFilesQ 856 857) 0 true).map Prod.fst =
      [⟨0, 36, 0, false, 0⟩, ⟨0, 36, 0, true, 0⟩, ⟨1, 260, 0, false, 0⟩, ⟨1, 260, 0, true, 0⟩,
       ⟨2, 484, 0, false, 0⟩, ⟨2, 484, 0, true, 0⟩] ∧
    (vdex_Unquicken (toyEnv decQuick) 0 (threeFilesQ 856 857)).ok = true ∧
    Event.skipMagic 1 260 ∈ (vdex_Unquicken (toyEnv decQuick) 0 (threeFilesQ 856 857)).st.trace ∧
    Event.decompile ⟨2, 484, 0, false, 0⟩ 644 176 722 1 true ∈
      (vdex_Unquicken (toyEnv decQuick) 0 (threeFilesQ 856 857)).st.trace ∧
    recordAt (threeFilesQ 856 857) (vdex_GetQuickeningInfo (threeFilesQ 856 857) 0) 2 = (722, 1) ∧
    recordAt (threeFilesQ 856 857) (vdex_GetQuickeningInfo (threeFilesQ 856 857) 0) 4 ≠
      (722, 1) := by
  decide

theorem unquickenFile_inv {c : DexEnv} {P Q : UqState → Prop} (h : StepInv c P Q)
    (idx buf : Nat) (s : UqState) (hP : P s) :
    ((unquickenFile c idx buf s).ok = true → P (unquickenFile c idx buf s).st) ∧
    ((unquickenFile c idx buf s).ok = false → Q (unquickenFile c idx buf s).st) := by
  have hc := classesLoop_inv h idx buf U32 0 s hP
  cases hok : (classesLoop c idx buf U32 0 s).ok with
  | false =>
    rw [unquickenFile_fail c idx buf s hok]
    simpa using hc.2 hok
  | true =>
    rw [unquickenFile_ok c idx buf s hok]
    simp only [decide_eq_true_eq, decide_eq_false_iff_not]
    exact ⟨fun heq => h.sumOk _ idx buf (hc.1 hok) heq,
      fun hne => h.sumFail _ idx buf (hc.1 hok) hne⟩

/-- A set of memories closed under the collaborator is kept by every step. -/
theorem stepInv_closed (c : DexEnv) (S : Mem → Prop) (hS : ClosedUnder c S) :
    StepInv c (fun s => S s.mem) (fun _ => True) where
  method0 := fun _ _ _ hP _ => hP
  callOk := fun _ _ _ hP _ _ => hS _ _ _ _ _ _ _ hP
  callFail := fun _ _ _ _ _ _ => trivial
  skipExtract := fun _ _ hP => hP
  skipMagic := fun _ _ _ hP => hP
  sumOk := fun _ _ _ hP _ => hP
  sumFail := fun _ _ _ _ _ => trivial

/-- The loop over the files on a container of three files whose second file is
skipped, when the collaborator keeps the container such a container. -/
theorem filesLoop_skipSecond (c : DexEnv) (cursor : Nat) (S : Mem → Prop)
    (b1 b2 b3 o1 o2 : Nat) (hclosed : ClosedUnder c S)
    (hshape : ∀ m : Mem, S m → SecondFileBad c cursor b1 b2 b3 o1 o2 m)
    (fuel : Nat) (s : UqState) (hS : S s.mem) :
    filesLoop c cursor (fuel + 4) 0 0 s =
      if (unquickenFile c 0 b1 s).ok = true then
        if (unquickenFile c 2 b3 ((unquickenFile c 0 b1 s).st.log (Event.skipMagic 1 b2))).ok = true
        then { ok := true,
               st := (unquickenFile c 2 b3
                 ((unquickenFile c 0 b1 s).st.log (Event.skipMagic 1 b2))).st }
        else { ok := false,
               st := (unquickenFile c 2 b3
                 ((unquickenFile c 0 b1 s).st.log (Event.skipMagic 1 b2))).st }
      else { ok := false, st := (unquickenFile c 0 b1 s).st } := by
  obtain ⟨hn, hv1, _, _, hm1, _, _⟩ := hshape s.mem hS
  have hb1 : fileBody c cursor 0 0 s =
      { ok := (unquickenFile c 0 b1 s).ok, offset := o1, st := (unquickenFile c 0 b1 s).st } := by
    rw [fileBody_valid c cursor 0 0 s b1 (by rw [hv1]) hm1, hv1]
  rw [filesLoop_succ, hb1]
  simp only [hn, show (0 : Nat) < 3 by decide, if_true]
  cases hok1 : (unquickenFile c 0 b1 s).ok with
  | false => simp
  | true =>
    simp only [if_true]
    have hS1 : S (unquickenFile c 0 b1 s).st.mem :=
      (unquickenFile_inv (stepInv_closed c S hclosed) 0 b1 s hS).1 hok1
    obtain ⟨hn1, _, hv2, hv3, _, hm2, hm3⟩ := hshape _ hS1
    have hb2 : fileBody c cursor 1 o1 (unquickenFile c 0 b1 s).st =
        { ok := true, offset := o2,
          st := (unquickenFile c 0 b1 s).st.log (Event.skipMagic 1 b2) } := by
      rw [fileBody_badMagic c cursor 1 o1 _ b2 (by rw [hv2]) hm2, hv2]
    rw [filesLoop_succ, hb2]
    simp only [hn1, show (0 : Nat) + 1 < 3 by decide, if_true]
    have hb3 : fileBody c cursor 2 o2
        ((unquickenFile c 0 b1 s).st.log (Event.skipMagic 1 b2)) =
        { ok := (unquickenFile c 2 b3
            ((unquickenFile c 0 b1 s).st.log (Event.skipMagic 1 b2))).ok,
          offset := (vdex_GetNextDexFileData c (unquickenFile c 0 b1 s).st.mem cursor o2).2,
          st := (unquickenFile c 2 b3
            ((unquickenFile c 0 b1 s).st.log (Event.skipMagic 1 b2))).st } := by
      exact fileBody_valid c cursor 2 o2
        ((unquickenFile c 0 b1 s).st.log (Event.skipMagic 1 b2)) b3 hv3 hm3
    rw [filesLoop_succ]
    have hn2 : number_of_dex_files
        ((unquickenFile c 0 b1 s).st.log (Event.skipMagic 1 b2)).mem cursor = 3 := hn1
    simp only [hn2, show (0 : Nat) + 1 + 1 < 3 by decide, if_true, hb3]
    cases hok3 : (unquickenFile c 2 b3
        ((unquickenFile c 0 b1 s).st.log (Event.skipMagic 1 b2))).ok with
    | false => simp
    | true =>
      simp only [if_true]
      have hS3 : S (unquickenFile c 2 b3
          ((unquickenFile c 0 b1 s).st.log (Event.skipMagic 1 b2))).st.mem :=
        (unquickenFile_inv (stepInv_closed c S hclosed) 2 b3
          ((unquickenFile c 0 b1 s).st.log (Event.skipMagic 1 b2)) hS1).1 hok3
      rw [filesLoop_succ]
      simp [(hshape _ hS3).1]

theorem AddsOnly.refl (idx : Nat) (tr : List Event) : AddsOnly idx tr tr :=
  ⟨[], by simp, by simp⟩

theorem AddsOnly.trans {idx : Nat} {a b d : List Event} (h1 : AddsOnly idx a b)
    (h2 : AddsOnly idx b d) : AddsOnly idx a d := by
  obtain ⟨e1, rfl, he1⟩ := h1
  obtain ⟨e2, rfl, he2⟩ := h2
  refine ⟨e1 ++ e2, by simp, ?_⟩
  intro e he
  rcases List.mem_append.1 he with h | h
  · exact he1 e h
  · exact he2 e h

theorem AddsOnly.snoc {idx : Nat} (tr : List Event) (e : Event) (h : e.fileIdx = idx) :
    AddsOnly idx tr (tr ++ [e]) :=
  ⟨[e], rfl, by simpa using h⟩

theorem methodsLoop_adds (c : DexEnv) (idx buf cls : Nat) (virt : Bool) (n : Nat) :
    ∀ (j cur : Nat) (s : UqState),
      AddsOnly idx s.trace (methodsLoop c idx buf cls virt n j cur s).st.trace := by
  induction n with
  | zero => intro j cur s; exact AddsOnly.refl idx _
  | succ n ih =>
    intro j cur s
    rw [methodsLoop]
    have h1 : AddsOnly idx s.trace (s.trace ++
        [Event.method { idx := idx, buf := buf, cls := cls, virt := virt, j := j }
          (c.dex_readClassDataMethod s.mem cur).2]) := AddsOnly.snoc _ _ rfl
    by_cases h0 : (c.dex_readClassDataMethod s.mem cur).2.codeOff = 0
    · simp only [h0, if_true]
      exact h1.trans (ih _ _ _)
    · simp only [h0, if_false]
      have h2 : ∀ ok : Bool, AddsOnly idx s.trace ((s.trace ++
          [Event.method { idx := idx, buf := buf, cls := cls, virt := virt, j := j }
            (c.dex_readClassDataMethod s.mem cur).2]) ++
          [Event.decompile { idx := idx, buf := buf, cls := cls, virt := virt, j := j }
            (buf + (c.dex_readClassDataMethod s.mem cur).2.codeOff)
            (c.dex_getFirstInstrOff (c.dex_readClassDataMethod s.mem cur).2) (s.ptr + 4)
            (readU32 s.mem s.ptr) ok]) := fun ok => h1.trans (AddsOnly.snoc _ _ rfl)
      cases hr : (c.dexDecompiler_decompile s.mem buf
          (buf + (c.dex_readClassDataMethod s.mem cur).2.codeOff)
          (c.dex_getFirstInstrOff (c.dex_readClassDataMethod s.mem cur).2)
          (s.ptr + 4) (readU32 s.mem s.ptr) true).1 with
      | true =>
        simp only [UqState.log, hr, if_true]
        exact (h2 true).trans (ih _ _ _)
      | false =>
        simp only [UqState.log, hr, Bool.false_eq_true, if_false]
        exact h2 false

theorem classBody_adds (c : DexEnv) (idx buf i : Nat) (s : UqState) :
    AddsOnly idx s.trace (classBody c idx buf i s).st.trace := by
  unfold classBody
  by_cases h0 : dexClassDef_classDataOff c s.mem (c.dex_getClassDef s.mem buf i) = 0
  · simp only [h0, if_true]
    exact AddsOnly.refl idx _
  · simp only [h0, if_false]
    have hd := methodsLoop_adds c idx buf i false
      (c.dex_readClassDataHeader s.mem
        (buf + dexClassDef_classDataOff c s.mem (c.dex_getClassDef s.mem buf i))).2.directMethodsSize
      0 (fieldsLoop c s.mem (c.dex_readClassDataHeader s.mem
        (buf + dexClassDef_classDataOff c s.mem (c.dex_getClassDef s.mem buf i))).2.instanceFieldsSize
        (fieldsLoop c s.mem (c.dex_readClassDataHeader s.mem
        (buf + dexClassDef_classDataOff c s.mem (c.dex_getClassDef s.mem buf i))).2.staticFieldsSize
        (c.dex_readClassDataHeader s.mem
        (buf + dexClassDef_classDataOff c s.mem (c.dex_getClassDef s.mem buf i))).1)) s
    revert hd
    generalize methodsLoop c idx buf i false _ 0 _ s = rd
    intro hd
    cases hok : rd.ok with
    | true =>
      simp only [if_true]
      exact hd.trans (methodsLoop_adds c idx buf i true _ 0 rd.cur rd.st)
    | false =>
      simp only [Bool.false_eq_true, if_false]
      exact hd

theorem classesLoop_adds (c : DexEnv) (idx buf : Nat) (fuel : Nat) :
    ∀ (i : Nat) (s : UqState), AddsOnly idx s.trace (classesLoop c idx buf fuel i s).st.trace := by
  induction fuel with
  | zero => intro i s; exact AddsOnly.refl idx _
  | succ fuel ih =>
    intro i s
    rw [classesLoop]
    by_cases hi : i < dexHeader_classDefsSize c s.mem buf
    · simp only [hi, if_true]
      have hb := classBody_adds c idx buf i s
      cases hok : (classBody c idx buf i s).ok with
      | true => simp only [if_true]; exact hb.trans (ih _ _)
      | false => simp only [Bool.false_eq_true, if_false]; exact hb
    · simp only [hi, if_false]
      exact AddsOnly.refl idx _

theorem unquickenFile_adds (c : DexEnv) (idx buf : Nat) (s : UqState) :
    AddsOnly idx s.trace (unquickenFile c idx buf s).st.trace := by
  have hc := classesLoop_adds c idx buf U32 0 s
  cases hok : (classesLoop c idx buf U32 0 s).ok with
  | false => rw [unquickenFile_fail c idx buf s hok]; exact hc
  | true =>
    rw [unquickenFile_ok c idx buf s hok]
    exact hc.trans (AddsOnly.snoc _ _ rfl)

/-- The trace of the run that skips the second file: nothing of file index 1 but the skip. -/
theorem skipSecondRun_trace (c : DexEnv) (cursor : Nat) (m : Mem) (b1 b2 b3 : Nat) :
    ∀ e ∈ (skipSecondRun c cursor m b1 b2 b3).st.trace, e.fileIdx = 1 → e = Event.skipMagic 1 b2 := by
  obtain ⟨es1, h1, he1⟩ := unquickenFile_adds c 0 b1
    { mem := m, ptr := vdex_GetQuickeningInfo m cursor, trace := [] }
  obtain ⟨es3, h3, he3⟩ := unquickenFile_adds c 2 b3
    ((unquickenFile c 0 b1
      { mem := m, ptr := vdex_GetQuickeningInfo m cursor, trace := [] }).st.log
        (Event.skipMagic 1 b2))
  have hcases : (skipSecondRun c cursor m b1 b2 b3).st.trace = es1 ∨
      (skipSecondRun c cursor m b1 b2 b3).st.trace = es1 ++ [Event.skipMagic 1 b2] ++ es3 := by
    unfold skipSecondRun
    simp only [UqState.log, List.nil_append] at h1 h3 ⊢
    split
    · right
      split <;> rw [h3, h1]
    · left; exact h1
  intro e he hidx
  rcases hcases with h | h
  · rw [h] at he
    have := he1 e he
    omega
  · rw [h] at he
    simp only [List.mem_append, List.mem_singleton] at he
    rcases he with (he | he) | he
    · have := he1 e he; omega
    · exact he
    · have := he3 e he; omega

/-- A file that is processed with success has its checksum verified: the last event is
the comparison of its checksum, computed and stored value being equal. -/
theorem unquickenFile_checksum (c : DexEnv) (idx buf : Nat) (s : UqState)
    (hok : (unquickenFile c idx buf s).ok = true) :
    ∃ v : Nat, Event.checksum idx buf v v ∈ (unquickenFile c idx buf s).st.trace := by
  cases hcl : (classesLoop c idx buf U32 0 s).ok with
  | false => rw [unquickenFile_fail c idx buf s hcl] at hok; cases hok
  | true =>
    rw [unquickenFile_ok c idx buf s hcl] at hok ⊢
    simp only [decide_eq_true_eq] at hok
    refine ⟨dexHeader_checksum c (classesLoop c idx buf U32 0 s).st.mem buf, ?_⟩
    rw [hok]
    simp [UqState.log]

/-- C4 (amended): on a container with a non-empty stream and three files of which the
second has no valid Dex magic, these facts being left unchanged by the rewrite
collaborator, `vdex_Unquicken` processes file #1 (its classes, then its checksum); when
that does not return failure it skips file #2, which leaves only the skip in the trace
(no rewrite call, no checksum, no abort), and processes file #3 in the same way. The
rewrite collaborator is called once for every decoded method with code, in traversal
order, and a run that returns success has verified the checksums of files #1 and #3. -/
theorem C4_second_file_skipped (c : DexEnv) (cursor : Nat) (m : Mem) (S : Mem → Prop)
    (b1 b2 b3 o1 o2 : Nat)
    (hq : vdex_GetQuickeningInfoSize m cursor ≠ 0)
    (hS : S m) (hclosed : ClosedUnder c S)
    (hshape : ∀ m2 : Mem, S m2 → SecondFileBad c cursor b1 b2 b3 o1 o2 m2) :
    vdex_Unquicken c cursor m = skipSecondRun c cursor m b1 b2 b3 ∧
    (∀ e ∈ (vdex_Unquicken c cursor m).st.trace, e.fileIdx = 1 → e = Event.skipMagic 1 b2) ∧
    (callsOf (vdex_Unquicken c cursor m).st.trace).map Call.target =
      (codeMethodsOf (vdex_Unquicken c cursor m).st.trace).map (callTarget c) ∧
    (posOf (vdex_Unquicken c cursor m).st.trace).Pairwise MethodPos.before ∧
    ((vdex_Unquicken c cursor m).ok = true →
      Event.skipMagic 1 b2 ∈ (vdex_Unquicken c cursor m).st.trace ∧
      ∃ v1 v3 : Nat,
        Event.checksum 0 b1 v1 v1 ∈ (vdex_Unquicken c cursor m).st.trace ∧
        Event.checksum 2 b3 v3 v3 ∈ (vdex_Unquicken c cursor m).st.trace) := by
  have heq : vdex_Unquicken c cursor m = skipSecondRun c cursor m b1 b2 b3 := by
    have hl := filesLoop_skipSecond c cursor S b1 b2 b3 o1 o2 hclosed hshape 4294967292
      { mem := m, ptr := vdex_GetQuickeningInfo m cursor, trace := [] } hS
    unfold vdex_Unquicken skipSecondRun
    simp only [hq, if_false]
    have hU : U32 = 4294967292 + 4 := rfl
    rw [hU, hl]
    split
    · split <;> simp_all
    · simp
  refine ⟨heq, ?_, (vdex_Unquicken_records c cursor m).2, vdex_Unquicken_ordered c cursor m, ?_⟩
  · rw [heq]
    exact skipSecondRun_trace c cursor m b1 b2 b3
  · rw [heq]
    intro hok
    unfold skipSecondRun at hok ⊢
    cases h1 : (unquickenFile c 0 b1
        { mem := m, ptr := vdex_GetQuickeningInfo m cursor, trace := [] }).ok with
    | false => simp [h1] at hok
    | true =>
      cases h3 : (unquickenFile c 2 b3
          ((unquickenFile c 0 b1
            { mem := m, ptr := vdex_GetQuickeningInfo m cursor, trace := [] }).st.log
              (Event.skipMagic 1 b2))).ok with
      | false => simp [h1, h3] at hok
      | true =>
        simp only [h1, h3, if_true]
        obtain ⟨v1, hv1⟩ := unquickenFile_checksum c 0 b1 _ h1
        obtain ⟨v3, hv3⟩ := unquickenFile_checksum c 2 b3 _ h3
        obtain ⟨es3, he3, _⟩ := unquickenFile_adds c 2 b3
          ((unquickenFile c 0 b1
            { mem := m, ptr := vdex_GetQuickeningInfo m cursor, trace := [] }).st.log
              (Event.skipMagic 1 b2))
        refine ⟨?_, v1, v3, ?_, hv3⟩
        · rw [he3]; simp [UqState.log]
        · rw [he3]; simp [UqState.log, hv1]

/-- The collaborator `decQuick` only overwrites bytes that hold the opcode 14. -/
theorem closed_decQuick (m0 : Mem) : ClosedUnder (toyEnv decQuick) (SameBut14 m0) := by
  intro m buf code first blob size flag hS a ha
  show (if a = buf + first ∧ m a = 14 then size else m a) = m0 a
  have h := hS a ha
  by_cases hc : a = buf + first ∧ m a = 14
  · exact absurd (h ▸ hc.2) ha
  · rw [if_neg hc]; exact h

/-- Every memory that differs from `threeFilesQ 856 857` only at its opcodes 14 is a
container of three files whose second file has no valid magic. -/
theorem shape_threeFilesQ (m : Mem) (hS : SameBut14 (threeFilesQ 856 857) m) :
    SecondFileBad (toyEnv decQuick) 0 36 260 484 260 484 m := by
  have h14 : ∀ a ∈ [8, 9, 10, 11, 12, 13, 14, 15, 36, 37, 38, 39, 68, 69, 70, 71,
      260, 261, 262, 263, 292, 293, 294, 295, 484, 485, 486, 487, 516, 517, 518, 519],
      threeFilesQ 856 857 a ≠ 14 := by decide
  have e : m = fun a => if a ∈ [8, 9, 10, 11, 12, 13, 14, 15, 36, 37, 38, 39, 68, 69, 70, 71,
      260, 261, 262, 263, 292, 293, 294, 295, 484, 485, 486, 487, 516, 517, 518, 519]
      then threeFilesQ 856 857 a else m a := by
    funext a
    by_cases ha : a ∈ [8, 9, 10, 11, 12, 13, 14, 15, 36, 37, 38, 39, 68, 69, 70, 71,
      260, 261, 262, 263, 292, 293, 294, 295, 484, 485, 486, 487, 516, 517, 518, 519]
    · rw [if_pos ha]; exact hS a (h14 a ha)
    · rw [if_neg ha]
  rw [e]
  exact ⟨rfl, rfl, rfl, rfl, rfl, rfl, rfl⟩

/-- The witness of C4: the three-file container with quickened opcodes and a collaborator
that rewrites them; the run succeeds. -/
theorem C4_witness :
    vdex_GetQuickeningInfoSize (threeFilesQ 856 857) 0 ≠ 0 ∧
    SecondFileBad (toyEnv decQuick) 0 36 260 484 260 484 (threeFilesQ 856 857) ∧
    (vdex_Unquicken (toyEnv decQuick) 0 (threeFilesQ 856 857)).ok = true ∧
    vdex_Unquicken (toyEnv decQuick) 0 (threeFilesQ 856 857) =
      skipSecondRun (toyEnv decQuick) 0 (threeFilesQ 856 857) 36 260 484 ∧
    ∀ e ∈ (vdex_Unquicken (toyEnv decQuick) 0 (threeFilesQ 856 857)).st.trace,
      e.fileIdx = 1 → e = Event.skipMagic 1 260 :=
  ⟨by decide, shape_threeFilesQ _ (fun _ _ => rfl), by decide,
    (C4_second_file_skipped (toyEnv decQuick) 0 (threeFilesQ 856 857)
      (SameBut14 (threeFilesQ 856 857)) 36 260 484 260 484 (by decide) (fun _ _ => rfl)
      (closed_decQuick _) shape_threeFilesQ).1,
    (C4_second_file_skipped (toyEnv decQuick) 0 (threeFilesQ 856 857)
      (SameBut14 (threeFilesQ 856 857)) 36 260 484 260 484 (by decide) (fun _ _ => rfl)
      (closed_decQuick _) shape_threeFilesQ).2.1⟩

/-- C4 is false as stated: on a three-file container with a non-empty stream whose second
file has no valid magic and whose first file has a stored checksum that does not match,
the run returns failure after file #1 and nothing of file #3 is in the trace: no rewrite
call on its methods and no checksum check. -/
theorem C4_counterexample :
    vdex_GetQuickeningInfoSize (threeFilesQ 0 857) 0 ≠ 0 ∧
    SecondFileBad (toyEnv decQuick) 0 36 260 484 260 484 (threeFilesQ 0 857) ∧
    (vdex_Unquicken (toyEnv decQuick) 0 (threeFilesQ 0 857)).ok = false ∧
    ∀ e ∈ (vdex_Unquicken (toyEnv decQuick) 0 (threeFilesQ 0 857)).st.trace, e.fileIdx ≠ 2 :=
  ⟨by decide, by unfold SecondFileBad; decide, by decide, by decide⟩

/-- The result recorded with a call is what the collaborator returned on the memory the
calls before it left. -/
theorem RecordsFrom_get_ok (c : DexEnv) (cs : List Call) :
    ∀ (m : Mem) (p k : Nat) (call : Call), RecordsFrom c m p cs → cs[k]? = some call →
      call.ok = (c.dexDecompiler_decompile (replay c m (cs.take k)) call.pos.buf call.code
        call.first call.blob call.size true).1 := by
  induction cs with
  | nil => intro m p k call _ h; simp at h
  | cons x xs ih =>
    intro m p k call hr hk
    obtain ⟨_, _, h3, h4⟩ := hr
    cases k with
    | zero =>
      simp only [List.getElem?_cons_zero, Option.some.injEq] at hk
      subst hk
      simpa [replay] using h3
    | succ k =>
      simp only [List.getElem?_cons_succ] at hk
      simpa [replay] using ih _ _ k call h4 hk

/-- C5: the result recorded with every call is what the rewrite collaborator returned;
when a call of the collaborator fails, `vdex_Unquicken` returns failure and the failed
call is the last event of the run: no later method or file is processed, and no
checksum or stream-length check follows. -/
theorem C5_rewrite_failure_aborts (c : DexEnv) (cursor : Nat) (m : Mem) :
    (∀ (k : Nat) (call : Call), (callsOf (vdex_Unquicken c cursor m).st.trace)[k]? = some call →
      call.ok = (c.dexDecompiler_decompile
        (replay c m ((callsOf (vdex_Unquicken c cursor m).st.trace).take k))
        call.pos.buf call.code call.first call.blob call.size true).1) ∧
    ∀ (pos : MethodPos) (code first blob size : Nat),
      Event.decompile pos code first blob size false ∈ (vdex_Unquicken c cursor m).st.trace →
      (vdex_Unquicken c cursor m).ok = false ∧
      (vdex_Unquicken c cursor m).st.trace.getLast? =
        some (Event.decompile pos code first blob size false) := by
  refine ⟨fun k call hk =>
    RecordsFrom_get_ok c _ m _ k call (vdex_Unquicken_records c cursor m).1 hk, ?_⟩
  intro pos code first blob size hmem
  by_cases hq : vdex_GetQuickeningInfoSize m cursor = 0
  · simp [vdex_Unquicken, hq] at hmem
  · have h := vdex_Unquicken_inv (stepInv_going c (vdex_GetQuickeningInfo m cursor)) cursor m hq
      ⟨by simp [recordBytes, callsOf, callBytes], by simp⟩
    have hbad : ∀ s : UqState, Going (vdex_GetQuickeningInfo m cursor) s →
        Event.decompile pos code first blob size false ∈ s.trace → False := by
      intro s hg hin
      have := List.all_eq_true.1 hg.2 _ hin
      simp [Event.good] at this
    cases hok : (vdex_Unquicken c cursor m).ok with
    | true => exact absurd hmem (fun hin => hbad _ (h.1 hok).1 hin)
    | false =>
      refine ⟨rfl, ?_⟩
      rcases h.2 hok with hst | hgo
      · obtain ⟨tr, e, htr, _, hall⟩ := hst
        rw [htr] at hmem ⊢
        rcases List.mem_append.1 hmem with hin | hin
        · have := List.all_eq_true.1 hall _ hin
          simp [Event.good] at this
        · rw [List.mem_singleton.1 hin]
          simp
      · exact absurd hmem (fun hin => hbad _ hgo.1 hin)

/-- The witness of C5: the collaborator fails on the first record of the stream. -/
theorem C5_witness :
    Event.decompile { idx := 0, buf := 28, cls := 0, virt := false, j := 0 } 188 176 256 3 false ∈
      (vdex_Unquicken (toyEnv decPatch) 0 oneFileFail).st.trace ∧
    (vdex_Unquicken (toyEnv decPatch) 0 oneFileFail).ok = false ∧
    (vdex_Unquicken (toyEnv decPatch) 0 oneFileFail).st.trace.getLast? =
      some (Event.decompile { idx := 0, buf := 28, cls := 0, virt := false, j := 0 }
        188 176 256 3 false) :=
  ⟨by decide,
    (C5_rewrite_failure_aborts (toyEnv decPatch) 0 oneFileFail).2
      { idx := 0, buf := 28, cls := 0, virt := false, j := 0 } 188 176 256 3 (by decide)⟩

/-- C6: when the header field `quickeningInfoSize` is 0, `vdex_Unquicken` returns success at
once: nothing happens (no event, so no call of the rewrite collaborator) and the memory
is unchanged, whatever else the buffer holds. -/
theorem C6_empty_stream_succeeds (c : DexEnv) (cursor : Nat) (m : Mem)
    (hq : vdex_GetQuickeningInfoSize m cursor = 0) :
    (vdex_Unquicken c cursor m).ok = true ∧
    (vdex_Unquicken c cursor m).st.trace = [] ∧
    callsOf (vdex_Unquicken c cursor m).st.trace = [] ∧
    (vdex_Unquicken c cursor m).st.mem = m := by
  simp [vdex_Unquicken, hq, callsOf]

/-- The witness of C6: the one-file container with a stream size of 0, whose file has a
stored checksum that does not match and methods with code. -/
theorem C6_witness :
    vdex_GetQuickeningInfoSize (oneFile 0 0) 0 = 0 ∧
    (vdex_Unquicken (toyEnv decPatch) 0 (oneFile 0 0)).ok = true ∧
    (vdex_Unquicken (toyEnv decPatch) 0 (oneFile 0 0)).st.trace = [] ∧
    callsOf (vdex_Unquicken (toyEnv decPatch) 0 (oneFile 0 0)).st.trace = [] ∧
    (vdex_Unquicken (toyEnv decPatch) 0 (oneFile 0 0)).st.mem = oneFile 0 0 :=
  ⟨by decide, C6_empty_stream_succeeds (toyEnv decPatch) 0 (oneFile 0 0) (by decide)⟩

/-- C8 fails on the first call: with the offset 0 the iterator returns the first view
without comparing its end with the end of the Dex files. Here the first file declares
4096 bytes, the Dex files end at address 252, and the call returns the view at 28 and
advances the offset to 28 + 4096. -/
theorem C8_first_view_unchecked :
    vdex_GetNextDexFileData (toyEnv decNoop) oversizedFirst 0 0 = (some 28, 4124) ∧
    dexHeader_fileSize (toyEnv decNoop) oversizedFirst 28 = 4096 ∧
    vdex_DexEnd oversizedFirst 0 = 252 ∧
    vdex_DexEnd oversizedFirst 0 < 28 + dexHeader_fileSize (toyEnv decNoop) oversizedFirst 28 := by
  decide

theorem sum_take_le (l : List Nat) (i : Nat) : (l.take i).sum ≤ l.sum := by
  induction l generalizing i with
  | nil => simp
  | cons x xs ih =>
    cases i with
    | zero => simp
    | succ i => simp only [List.take_succ_cons, List.sum_cons]; have := ih i; omega

theorem sum_take_succ (l : List Nat) (i : Nat) (hi : i < l.length) :
    (l.take (i + 1)).sum = (l.take i).sum + l[i] := by
  induction l generalizing i with
  | nil => simp at hi
  | cons x xs ih =>
    cases i with
    | zero => simp
    | succ i =>
      simp only [List.take_succ_cons, List.sum_cons, List.getElem_cons_succ]
      rw [ih i (by simpa using hi)]
      omega

/-- The layout without overflow: when the header, the checksums and the Dex files fit in
32 bits, the offsets are the plain sums and the pointers are the base plus the offsets. -/
theorem layout_fit (m : Mem) (cursor : Nat)
    (hfit : sizeofVdexHeader + 4 * number_of_dex_files m cursor + dex_size m cursor < U32) :
    vdex_GetSizeOfChecksumsSection m cursor = 4 * number_of_dex_files m cursor ∧
    vdex_DexBeginOffset m cursor = 24 + 4 * number_of_dex_files m cursor ∧
    vdex_DexBegin m cursor = cursor + (24 + 4 * number_of_dex_files m cursor) ∧
    vdex_DexEndOffset m cursor = 24 + 4 * number_of_dex_files m cursor + dex_size m cursor ∧
    vdex_DexEnd m cursor = cursor + (24 + 4 * number_of_dex_files m cursor + dex_size m cursor) := by
  unfold sizeofVdexHeader U32 at hfit
  have h1 : vdex_GetSizeOfChecksumsSection m cursor = 4 * number_of_dex_files m cursor := by
    unfold vdex_GetSizeOfChecksumsSection sizeofVdexChecksum U32
    exact Nat.mod_eq_of_lt (by omega)
  have h2 : vdex_DexBeginOffset m cursor = 24 + 4 * number_of_dex_files m cursor := by
    unfold vdex_DexBeginOffset sizeofVdexHeader U32
    rw [h1]
    exact Nat.mod_eq_of_lt (by omega)
  have h3 : vdex_DexEndOffset m cursor =
      24 + 4 * number_of_dex_files m cursor + dex_size m cursor := by
    unfold vdex_DexEndOffset U32
    rw [h2]
    exact Nat.mod_eq_of_lt (by omega)
  refine ⟨h1, h2, ?_, h3, ?_⟩
  · unfold vdex_DexBegin sizeofVdexHeader; rw [h1]; omega
  · unfold vdex_DexEnd vdex_DexBegin sizeofVdexHeader; rw [h1]; omega

/-- The iterator over well-formed concatenated files: after `i` calls (`1 ≤ i ≤ N`) the
offset is the offset of the first file plus the sizes of the first `i` files, and call
number `i` returns the view that begins after the first `i` files. -/
theorem iter_files (c : DexEnv) (cursor : Nat) (m : Mem) (sizes : List Nat)
    (hN : 1 ≤ sizes.length) (hpos : ∀ s ∈ sizes, 0 < s)
    (hsize : ∀ (i : Nat) (hi : i < sizes.length),
      dexHeader_fileSize c m (vdex_DexBegin m cursor + (sizes.take i).sum) = sizes[i])
    (hsum : sizes.sum = dex_size m cursor)
    (hfit : sizeofVdexHeader + 4 * number_of_dex_files m cursor + dex_size m cursor < U32) :
    ∀ i : Nat, i < sizes.length →
      nthView c m cursor i = some (vdex_DexBegin m cursor + (sizes.take i).sum) ∧
      iterOffset c m cursor (i + 1) = vdex_DexBeginOffset m cursor + (sizes.take (i + 1)).sum := by
  obtain ⟨_, hbo, hb, _, he⟩ := layout_fit m cursor hfit
  have hU : U32 = 4294967296 := rfl
  have h24 : sizeofVdexHeader = 24 := rfl
  have hsumpos : 0 < sizes.sum := by
    cases sizes with
    | nil => simp at hN
    | cons x xs =>
      have := hpos x (by simp)
      simp only [List.sum_cons]
      omega
  intro i
  induction i with
  | zero =>
    intro hi
    have hfs := hsize 0 hi
    simp only [List.take_zero, List.sum_nil, Nat.add_zero] at hfs
    have hle := sum_take_le sizes 1
    have h1 := sum_take_succ sizes 0 hi
    simp only [List.take_zero, List.sum_nil, Nat.zero_add] at h1
    have hds : vdex_hasDexSection m cursor = true := by
      unfold vdex_hasDexSection
      simp only [bne_iff_ne, ne_eq]
      omega
    unfold nthView
    simp only [iterOffset, vdex_GetNextDexFileData, hds, if_true, List.take_zero, List.sum_nil,
      Nat.add_zero, true_and]
    rw [hfs]
    have e1 : (sizeofVdexHeader + vdex_GetSizeOfChecksumsSection m cursor) % U32 =
        vdex_DexBeginOffset m cursor := rfl
    rw [e1, hbo, h1, hU]
    exact Nat.mod_eq_of_lt (by omega)
  | succ i ih =>
    intro hi
    obtain ⟨_, hoff⟩ := ih (by omega)
    have hfs := hsize (i + 1) hi
    have hle := sum_take_le sizes (i + 1 + 1)
    have h1 := sum_take_succ sizes (i + 1) hi
    have hne : vdex_DexBeginOffset m cursor + (sizes.take (i + 1)).sum ≠ 0 := by omega
    have hbuf : cursor + (vdex_DexBeginOffset m cursor + (sizes.take (i + 1)).sum) =
        vdex_DexBegin m cursor + (sizes.take (i + 1)).sum := by omega
    have hstep : vdex_GetNextDexFileData c m cursor
        (vdex_DexBeginOffset m cursor + (sizes.take (i + 1)).sum) =
        (some (vdex_DexBegin m cursor + (sizes.take (i + 1)).sum),
          vdex_DexBeginOffset m cursor + (sizes.take (i + 1 + 1)).sum) := by
      unfold vdex_GetNextDexFileData
      simp only [hne, if_false]
      rw [hbuf, hfs]
      have hmod : (vdex_DexBeginOffset m cursor + (sizes.take (i + 1)).sum + sizes[i + 1]) % U32 =
          vdex_DexBeginOffset m cursor + (sizes.take (i + 1 + 1)).sum := by
        rw [hU]
        rw [Nat.mod_eq_of_lt (by omega)]
        omega
      rw [hmod]
      have hle2 : vdex_DexBegin m cursor + (sizes.take (i + 1)).sum + sizes[i + 1] ≤
          vdex_DexEnd m cursor := by omega
      by_cases heq : vdex_DexBegin m cursor + (sizes.take (i + 1)).sum + sizes[i + 1] =
          vdex_DexEnd m cursor
      · simp only [heq, if_true]
      · simp only [heq, if_false, hle2, if_true]
    constructor
    · unfold nthView
      rw [hoff, hstep]
    · show (vdex_GetNextDexFileData c m cursor (iterOffset c m cursor (i + 1))).2 = _
      rw [hoff, hstep]

/-- C9: on a container with `N ≥ 1` concatenated files of declared sizes `s_1 .. s_N`, each
positive, that sum to `dexSize`, the header, the checksums and the files fitting in 32
bits, `N` successive calls of the iterator from the offset 0 return `N` views, the
`i`-th beginning at the base plus `filesBeginOffset + s_1 + ... + s_(i-1)`; after the
`N`-th call the offset equals `filesEndOffset`, and the end of the last view is
`filesEnd`. -/
theorem C9_iterator_returns_all_files (c : DexEnv) (cursor : Nat) (m : Mem) (sizes : List Nat)
    (hN : 1 ≤ sizes.length) (hpos : ∀ s ∈ sizes, 0 < s)
    (hsize : ∀ (i : Nat) (hi : i < sizes.length),
      dexHeader_fileSize c m (vdex_DexBegin m cursor + (sizes.take i).sum) = sizes[i])
    (hsum : sizes.sum = dex_size m cursor)
    (hfit : sizeofVdexHeader + 4 * number_of_dex_files m cursor + dex_size m cursor < U32) :
    (∀ i : Nat, i < sizes.length →
      nthView c m cursor i =
        some (cursor + (vdex_DexBeginOffset m cursor + (sizes.take i).sum))) ∧
    iterOffset c m cursor sizes.length = vdex_DexEndOffset m cursor ∧
    (∀ b : Nat, nthView c m cursor (sizes.length - 1) = some b →
      b + dexHeader_fileSize c m b = vdex_DexEnd m cursor) := by
  have h := iter_files c cursor m sizes hN hpos hsize hsum hfit
  obtain ⟨_, hbo, hb, heo, he⟩ := layout_fit m cursor hfit
  have hlast : sizes.length - 1 < sizes.length := by omega
  have hall : (sizes.take (sizes.length - 1 + 1)).sum = sizes.sum := by
    rw [Nat.sub_add_cancel hN, List.take_length]
  refine ⟨fun i hi => ?_, ?_, ?_⟩
  · rw [(h i hi).1, hb, hbo]
    congr 1
    omega
  · have := (h (sizes.length - 1) hlast).2
    rw [Nat.sub_add_cancel hN] at this
    rw [this, hbo, heo, List.take_length]
    omega
  · intro b hb2
    rw [(h (sizes.length - 1) hlast).1] at hb2
    have hb3 : b = vdex_DexBegin m cursor + (sizes.take (sizes.length - 1)).sum :=
      (Option.some.inj hb2).symm
    rw [hb3, hsize _ hlast, he, hb]
    have := sum_take_succ sizes (sizes.length - 1) hlast
    rw [hall] at this
    omega

/-- The witness of C9: the container of three files of 224 bytes. -/
theorem C9_witness :
    (∀ i : Nat, i < 3 →
      nthView (toyEnv decNoop) (threeFiles 0 0) 0 i =
        some (0 + (vdex_DexBeginOffset (threeFiles 0 0) 0 + ([224, 224, 224].take i).sum))) ∧
    iterOffset (toyEnv decNoop) (threeFiles 0 0) 0 3 = vdex_DexEndOffset (threeFiles 0 0) 0 ∧
    (∀ b : Nat, nthView (toyEnv decNoop) (threeFiles 0 0) 0 2 = some b →
      b + dexHeader_fileSize (toyEnv decNoop) (threeFiles 0 0) b = vdex_DexEnd (threeFiles 0 0) 0) :=
  C9_iterator_returns_all_files (toyEnv decNoop) 0 (threeFiles 0 0) [224, 224, 224]
    (by decide) (by decide) (by decide) (by decide) (by decide)

/-- C10 (amended): when the header, the checksums and the Dex files fit in 32 bits and the
cursor has reached `filesEndOffset`, a further call of the iterator reads a file size
from the bytes that follow the Dex files: when that size is not zero the call returns
the end-sentinel and leaves the offset, when it is zero the call returns one more view,
empty, at `filesEnd`, and leaves the offset. -/
theorem C10_call_after_last_file (c : DexEnv) (cursor : Nat) (m : Mem)
    (hfit : sizeofVdexHeader + 4 * number_of_dex_files m cursor + dex_size m cursor < U32) :
    (dexHeader_fileSize c m (vdex_DexEnd m cursor) ≠ 0 →
      vdex_GetNextDexFileData c m cursor (vdex_DexEndOffset m cursor) =
        (none, vdex_DexEndOffset m cursor)) ∧
    (dexHeader_fileSize c m (vdex_DexEnd m cursor) = 0 →
      vdex_GetNextDexFileData c m cursor (vdex_DexEndOffset m cursor) =
        (some (vdex_DexEnd m cursor), vdex_DexEndOffset m cursor)) := by
  obtain ⟨_, _, _, heo, he⟩ := layout_fit m cursor hfit
  have hne : vdex_DexEndOffset m cursor ≠ 0 := by rw [heo]; omega
  have hbuf : cursor + vdex_DexEndOffset m cursor = vdex_DexEnd m cursor := by rw [heo, he]
  have hlt : vdex_DexEndOffset m cursor < U32 := by
    rw [heo]; unfold sizeofVdexHeader at hfit; omega
  constructor
  · intro hfs
    unfold vdex_GetNextDexFileData
    simp only [hne, if_false]
    rw [hbuf]
    have h1 : ¬ vdex_DexEnd m cursor + dexHeader_fileSize c m (vdex_DexEnd m cursor) =
        vdex_DexEnd m cursor := by omega
    have h2 : ¬ vdex_DexEnd m cursor + dexHeader_fileSize c m (vdex_DexEnd m cursor) ≤
        vdex_DexEnd m cursor := by omega
    simp only [h1, h2, if_false]
  · intro hfs
    unfold vdex_GetNextDexFileData
    simp only [hne, if_false]
    rw [hbuf, hfs]
    simp only [Nat.add_zero, if_true]
    rw [Nat.mod_eq_of_lt hlt]

/-- The witness of C10: the one-file container with a verifier-deps section, where the
bytes read as a file size after the Dex file are zero, and the same container with a
non-zero byte there. -/
theorem C10_witness :
    vdex_GetNextDexFileData (toyEnv decNoop) oneFileDeps 0 (vdex_DexEndOffset oneFileDeps 0) =
      (some (vdex_DexEnd oneFileDeps 0), vdex_DexEndOffset oneFileDeps 0) ∧
    vdex_GetNextDexFileData (toyEnv decNoop) oneFileDeps5 0 (vdex_DexEndOffset oneFileDeps5 0) =
      (none, vdex_DexEndOffset oneFileDeps5 0) :=
  ⟨(C10_call_after_last_file (toyEnv decNoop) 0 oneFileDeps (by decide)).2 (by decide),
    (C10_call_after_last_file (toyEnv decNoop) 0 oneFileDeps5 (by decide)).1 (by decide)⟩

/-- C10 is false as stated: on a container with one well-formed file followed by
verifier-deps bytes that are zero where a file size is read, the first call returns the
file and moves the cursor to `filesEndOffset`, and every further call returns one more
view instead of the end-sentinel. -/
theorem C10_counterexample :
    vdex_GetNextDexFileData (toyEnv decNoop) oneFileDeps 0 0 = (some 28, 252) ∧
    28 + dexHeader_fileSize (toyEnv decNoop) oneFileDeps 28 = vdex_DexEnd oneFileDeps 0 ∧
    vdex_DexEndOffset oneFileDeps 0 = 252 ∧
    vdex_GetNextDexFileData (toyEnv decNoop) oneFileDeps 0 252 = (some 252, 252) := by
  decide

/-- The call of the iterator with an offset other than 0: the end-sentinel with the
offset left when the view ends past the end of the Dex files, the view with the offset
advanced by the file size, as a `uint32_t`, when it does not. -/
theorem iter_later_call (c : DexEnv) (cursor : Nat) (m : Mem) (offset : Nat) (h0 : offset ≠ 0) :
    (vdex_DexEnd m cursor < cursor + offset + dexHeader_fileSize c m (cursor + offset) →
      vdex_GetNextDexFileData c m cursor offset = (none, offset)) ∧
    (cursor + offset + dexHeader_fileSize c m (cursor + offset) ≤ vdex_DexEnd m cursor →
      vdex_GetNextDexFileData c m cursor offset =
        (some (cursor + offset), (offset + dexHeader_fileSize c m (cursor + offset)) % U32)) := by
  refine ⟨fun h => ?_, fun h => ?_⟩
  · unfold vdex_GetNextDexFileData
    have h1 : ¬ cursor + offset + dexHeader_fileSize c m (cursor + offset) = vdex_DexEnd m cursor := by
      omega
    have h2 : ¬ cursor + offset + dexHeader_fileSize c m (cursor + offset) ≤ vdex_DexEnd m cursor := by
      omega
    simp only [h0, h1, h2, if_false]
  · unfold vdex_GetNextDexFileData
    simp only [h0, if_false]
    by_cases h1 : cursor + offset + dexHeader_fileSize c m (cursor + offset) = vdex_DexEnd m cursor
    · simp only [h1, if_true]
    · simp only [h1, if_false, h, if_true]

/-- C11 (amended): on a call with an offset other than 0, the view begins at the base
plus the offset and ends `fileSize` bytes later, `fileSize` read from the view's own
header. When that end is past `filesEnd` the call returns the end-sentinel and leaves the
offset; when it is not, the call returns the view and sets the offset to
`offset + fileSize` modulo `2^32`, which is the offset of the view's end whenever
`filesEnd` is less than `2^32` bytes from the base. -/
theorem C11_call_with_offset (c : DexEnv) (cursor : Nat) (m : Mem) (offset : Nat)
    (h0 : offset ≠ 0) :
    (vdex_DexEnd m cursor < cursor + offset + dexHeader_fileSize c m (cursor + offset) →
      vdex_GetNextDexFileData c m cursor offset = (none, offset)) ∧
    (cursor + offset + dexHeader_fileSize c m (cursor + offset) ≤ vdex_DexEnd m cursor →
      vdex_GetNextDexFileData c m cursor offset =
        (some (cursor + offset), (offset + dexHeader_fileSize c m (cursor + offset)) % U32)) ∧
    (cursor + offset + dexHeader_fileSize c m (cursor + offset) ≤ vdex_DexEnd m cursor →
      vdex_DexEnd m cursor < cursor + U32 →
      (offset + dexHeader_fileSize c m (cursor + offset)) % U32 =
        offset + dexHeader_fileSize c m (cursor + offset)) := by
  exact ⟨(iter_later_call c cursor m offset h0).1, (iter_later_call c cursor m offset h0).2,
    fun h hlt => Nat.mod_eq_of_lt (by omega)⟩

/-- The witness of C11: in the container of three files, the call with the offset 260
returns the second file and moves the offset to 484, and the call with the offset 600
returns the end-sentinel (the bytes read as a file size there give an end past 708). -/
theorem C11_witness :
    vdex_GetNextDexFileData (toyEnv decNoop) (threeFiles 0 0) 0 260 = (some (0 + 260), (260 + 224) % U32) ∧
    (260 + dexHeader_fileSize (toyEnv decNoop) (threeFiles 0 0) (0 + 260)) % U32 = 484 ∧
    vdex_GetNextDexFileData (toyEnv decNoop) (threeFiles 0 0) 0 600 = (none, 600) :=
  ⟨(C11_call_with_offset (toyEnv decNoop) 0 (threeFiles 0 0) 260 (by decide)).2.1 (by decide),
    by decide,
    (C11_call_with_offset (toyEnv decNoop) 0 (threeFiles 0 0) 600 (by decide)).1 (by decide)⟩

/-- C11 is false as stated: in a container whose Dex files end past `base + 2^32`, the
view at the offset `2^32 - 16` of 32 bytes ends at the offset `2^32 + 16`, which is not
past `filesEnd`; the call returns the view and sets the offset to 16, not to the offset
of the view's end. -/
theorem C11_counterexample :
    (4294967280 : Nat) ≠ 0 ∧
    dexHeader_fileSize (toyEnv decNoop) hugeDex (0 + 4294967280) = 32 ∧
    0 + 4294967280 + dexHeader_fileSize (toyEnv decNoop) hugeDex (0 + 4294967280) ≤
      vdex_DexEnd hugeDex 0 ∧
    vdex_GetNextDexFileData (toyEnv decNoop) hugeDex 0 4294967280 =
      (some (0 + 4294967280), 16) ∧
    (vdex_GetNextDexFileData (toyEnv decNoop) hugeDex 0 4294967280).2 ≠
      4294967280 + dexHeader_fileSize (toyEnv decNoop) hugeDex (0 + 4294967280) := by
  decide

/-- C12 (amended): a call with the offset 0 returns the end-sentinel and leaves the offset
at 0 when `dexSize` is 0; otherwise it returns the view that begins at `filesBegin` (the
base plus the header size plus the size of the checksums) and sets the offset to
`filesBeginOffset + fileSize` modulo `2^32`, `fileSize` read from the header of that
first file; that is `filesBeginOffset + fileSize` itself when the sum is below `2^32`. -/
theorem C12_first_call (c : DexEnv) (cursor : Nat) (m : Mem) :
    (dex_size m cursor = 0 → vdex_GetNextDexFileData c m cursor 0 = (none, 0)) ∧
    (dex_size m cursor ≠ 0 →
      vdex_GetNextDexFileData c m cursor 0 =
        (some (cursor + sizeofVdexHeader + vdex_GetSizeOfChecksumsSection m cursor),
          (vdex_DexBeginOffset m cursor +
            dexHeader_fileSize c m (vdex_DexBegin m cursor)) % U32)) ∧
    vdex_DexBegin m cursor = cursor + sizeofVdexHeader + vdex_GetSizeOfChecksumsSection m cursor ∧
    (vdex_hasDexSection m cursor = true ↔ dex_size m cursor ≠ 0) ∧
    (vdex_DexBeginOffset m cursor + dexHeader_fileSize c m (vdex_DexBegin m cursor) < U32 →
      (vdex_DexBeginOffset m cursor + dexHeader_fileSize c m (vdex_DexBegin m cursor)) % U32 =
        vdex_DexBeginOffset m cursor + dexHeader_fileSize c m (vdex_DexBegin m cursor)) := by
  refine ⟨fun h => ?_, fun h => ?_, rfl, ?_, fun h => Nat.mod_eq_of_lt h⟩
  · simp [vdex_GetNextDexFileData, vdex_hasDexSection, h]
  · have hds : vdex_hasDexSection m cursor = true := by
      simp [vdex_hasDexSection, h]
    simp only [vdex_GetNextDexFileData, hds, if_true]
    rfl
  · simp [vdex_hasDexSection]

/-- The witness of C12: the first call on a container without Dex files and on the
container of three files. -/
theorem C12_witness :
    vdex_GetNextDexFileData (toyEnv decNoop) noDex 0 0 = (none, 0) ∧
    vdex_GetNextDexFileData (toyEnv decNoop) (threeFiles 0 0) 0 0 =
      (some (0 + sizeofVdexHeader + vdex_GetSizeOfChecksumsSection (threeFiles 0 0) 0),
        (vdex_DexBeginOffset (threeFiles 0 0) 0 +
          dexHeader_fileSize (toyEnv decNoop) (threeFiles 0 0) (vdex_DexBegin (threeFiles 0 0) 0)) %
            U32) ∧
    vdex_GetNextDexFileData (toyEnv decNoop) (threeFiles 0 0) 0 0 = (some 36, 260) :=
  ⟨(C12_first_call (toyEnv decNoop) 0 noDex).1 (by decide),
    (C12_first_call (toyEnv decNoop) 0 (threeFiles 0 0)).2.1 (by decide), by decide⟩

/-- C12 is false as stated: in a container with Dex files whose first file declares
`2^32 - 28` bytes in its own header, the first call returns the view at `filesBegin`, 28
bytes from the base, and leaves the offset at 0, while `filesBeginOffset + fileSize` is
`2^32`. -/
theorem C12_counterexample :
    dex_size wrapFirst 0 ≠ 0 ∧
    vdex_DexBeginOffset wrapFirst 0 = 28 ∧
    dexHeader_fileSize (toyEnv decNoop) wrapFirst (vdex_DexBegin wrapFirst 0) = 4294967268 ∧
    vdex_GetNextDexFileData (toyEnv decNoop) wrapFirst 0 0 =
      (some (vdex_DexBegin wrapFirst 0), 0) ∧
    (vdex_GetNextDexFileData (toyEnv decNoop) wrapFirst 0 0).2 ≠
      vdex_DexBeginOffset wrapFirst 0 +
        dexHeader_fileSize (toyEnv decNoop) wrapFirst (vdex_DexBegin wrapFirst 0) := by
  decide

/-- C13 (amended): when the Dex files end less than `2^32` bytes from the base, a call of
the iterator never moves the offset back, whether it returns a view or the
end-sentinel. -/
theorem C13_cursor_monotone (c : DexEnv) (cursor : Nat) (m : Mem) (offset : Nat)
    (hfit : sizeofVdexHeader + vdex_GetSizeOfChecksumsSection m cursor + dex_size m cursor < U32) :
    offset ≤ (vdex_GetNextDexFileData c m cursor offset).2 := by
  by_cases h0 : offset = 0
  · rw [h0]; exact Nat.zero_le _
  · have hend : vdex_DexEnd m cursor < cursor + U32 := by
      unfold vdex_DexEnd vdex_DexBegin; omega
    have h := iter_later_call c cursor m offset h0
    by_cases hle : cursor + offset + dexHeader_fileSize c m (cursor + offset) ≤ vdex_DexEnd m cursor
    · rw [h.2 hle]
      show offset ≤ (offset + dexHeader_fileSize c m (cursor + offset)) % U32
      rw [Nat.mod_eq_of_lt (by omega)]
      omega
    · rw [h.1 (by omega)]

/-- The witness of C13: the calls with the offsets 0, 260 and 600 on the container of
three files. -/
theorem C13_witness :
    0 ≤ (vdex_GetNextDexFileData (toyEnv decNoop) (threeFiles 0 0) 0 0).2 ∧
    260 ≤ (vdex_GetNextDexFileData (toyEnv decNoop) (threeFiles 0 0) 0 260).2 ∧
    600 ≤ (vdex_GetNextDexFileData (toyEnv decNoop) (threeFiles 0 0) 0 600).2 :=
  ⟨C13_cursor_monotone (toyEnv decNoop) 0 (threeFiles 0 0) 0 (by decide),
    C13_cursor_monotone (toyEnv decNoop) 0 (threeFiles 0 0) 260 (by decide),
    C13_cursor_monotone (toyEnv decNoop) 0 (threeFiles 0 0) 600 (by decide)⟩

/-- C13 is false as stated: on a container whose Dex files end past `base + 2^32`, the
call with the offset `2^32 - 16` returns the view of 32 bytes that begins there (it ends
before the end of the Dex files) and leaves the offset at 16, below what it was. -/
theorem C13_counterexample :
    vdex_GetNextDexFileData (toyEnv decNoop) hugeDex 0 4294967280 = (some 4294967280, 16) ∧
    4294967280 + dexHeader_fileSize (toyEnv decNoop) hugeDex 4294967280 ≤ vdex_DexEnd hugeDex 0 ∧
    (vdex_GetNextDexFileData (toyEnv decNoop) hugeDex 0 4294967280).2 < 4294967280 := by
  decide

theorem readBytes_four (m : Mem) (p : Nat) :
    readBytes m p 4 = [readU8 m p, readU8 m (p + 1), readU8 m (p + 2), readU8 m (p + 3)] := by
  simp [readBytes, Nat.add_assoc]

theorem take_of_length (v : List Nat) (n : Nat) (h : v.length = n) : v.take n = v := by
  rw [← h, List.take_length]

theorem isMagicValid_iff (k : VdexConsts) (hk : k.WellFormed) (m : Mem) (cursor : Nat) :
    vdex_isMagicValid k m cursor = true ↔ hdr_magic m cursor = k.kVdexMagic := by
  unfold vdex_isMagicValid memcmpEq hdr_magic
  rw [take_of_length _ _ rfl, hk.1]
  simp

theorem isVersionValid_iff (k : VdexConsts) (hk : k.WellFormed) (m : Mem) (cursor : Nat) :
    vdex_isVersionValid k m cursor = true ↔ hdr_version m cursor ∈ k.kVdexMagicVersions := by
  unfold vdex_isVersionValid memcmpEq hdr_version
  simp only [List.any_eq_true, beq_iff_eq]
  constructor
  · rintro ⟨v, hv, he⟩
    rw [take_of_length v _ (hk.2 v hv)] at he
    rw [he]
    exact hv
  · intro h
    exact ⟨_, h, (take_of_length _ _ (hk.2 _ h)).symm⟩

theorem isValidVdex_iff (k : VdexConsts) (hk : k.WellFormed) (m : Mem) (cursor : Nat) :
    vdex_isValidVdex k m cursor = true ↔
      hdr_magic m cursor = k.kVdexMagic ∧ hdr_version m cursor ∈ k.kVdexMagicVersions := by
  unfold vdex_isValidVdex
  rw [Bool.and_eq_true, isMagicValid_iff k hk, isVersionValid_iff k hk]

/-- The validator reads the first 8 bytes of the buffer only. -/
theorem isValidVdex_local (k : VdexConsts) (hk : k.WellFormed) (m m2 : Mem) (cursor : Nat)
    (h : ∀ i : Nat, i < 8 → readU8 m2 (cursor + i) = readU8 m (cursor + i)) :
    vdex_isValidVdex k m2 cursor = vdex_isValidVdex k m cursor := by
  have hm : hdr_magic m2 cursor = hdr_magic m cursor := by
    unfold hdr_magic
    rw [readBytes_four, readBytes_four]
    have h0 := h 0 (by decide)
    rw [Nat.add_zero] at h0
    rw [h0, h 1 (by decide), h 2 (by decide), h 3 (by decide)]
  have hv : hdr_version m2 cursor = hdr_version m cursor := by
    unfold hdr_version kVdexVersionLen
    rw [readBytes_four, readBytes_four]
    have e1 : cursor + 4 + 1 = cursor + 5 := by omega
    have e2 : cursor + 4 + 2 = cursor + 6 := by omega
    have e3 : cursor + 4 + 3 = cursor + 7 := by omega
    rw [e1, e2, e3, h 4 (by decide), h 5 (by decide), h 6 (by decide), h 7 (by decide)]
  have e := isValidVdex_iff k hk m cursor
  have e2 := isValidVdex_iff k hk m2 cursor
  rw [hm, hv] at e2
  cases h1 : vdex_isValidVdex k m cursor with
  | true => exact e2.2 (e.1 h1)
  | false =>
    cases h2 : vdex_isValidVdex k m2 cursor with
    | false => rfl
    | true => rw [e.2 (e2.1 h2)] at h1; cases h1

/-- C14: with the constants of the sizes `vdex.h` declares, `vdex_isValidVdex` returns true
if and only if the bytes 0..3 are the magic and the bytes 4..7, all four raw bytes, are
one of the allow-listed version tags; it is `vdex_isMagicValid` and
`vdex_isVersionValid`; and two buffers with the same first 8 bytes get the same
result. -/
theorem C14_valid_iff_magic_and_version (k : VdexConsts) (hk : k.WellFormed) (m : Mem)
    (cursor : Nat) :
    (vdex_isValidVdex k m cursor = true ↔
      readBytes m cursor 4 = k.kVdexMagic ∧ readBytes m (cursor + 4) 4 ∈ k.kVdexMagicVersions) ∧
    vdex_isValidVdex k m cursor = (vdex_isMagicValid k m cursor && vdex_isVersionValid k m cursor) ∧
    (∀ m2 : Mem, (∀ i : Nat, i < 8 → readU8 m2 (cursor + i) = readU8 m (cursor + i)) →
      vdex_isValidVdex k m2 cursor = vdex_isValidVdex k m cursor) :=
  ⟨isValidVdex_iff k hk m cursor, rfl, fun m2 h => isValidVdex_local k hk m m2 cursor h⟩

/-- The witness of C14: the header of the one-file container, with the magic `vdex` and the
version `010`, is valid for the tags `006` and `010`. -/
theorem C14_witness :
    tagsO.WellFormed ∧
    vdex_isValidVdex tagsO (oneFile 0 10) 0 = true ∧
    (vdex_isValidVdex tagsO (oneFile 0 10) 0 = true ↔
      readBytes (oneFile 0 10) 0 4 = tagsO.kVdexMagic ∧
      readBytes (oneFile 0 10) (0 + 4) 4 ∈ tagsO.kVdexMagicVersions) :=
  ⟨by unfold VdexConsts.WellFormed; decide, by decide,
    (C14_valid_iff_magic_and_version tagsO (by unfold VdexConsts.WellFormed; decide)
      (oneFile 0 10) 0).1⟩

/-- A window of four bytes that holds the one changed byte reads differently, in exactly
one position. -/
theorem window_changed (m m2 : Mem) (a p : Nat) (hp : p ≤ a ∧ a < p + 4)
    (hchg : readU8 m2 a ≠ readU8 m a)
    (hsame : ∀ b : Nat, b ≠ a → readU8 m2 b = readU8 m b) :
    readBytes m2 p 4 ≠ readBytes m p 4 ∧ differAt (readBytes m p 4) (readBytes m2 p 4) = 1 := by
  rw [readBytes_four, readBytes_four]
  have hc := Ne.symm hchg
  have hcases : a = p ∨ a = p + 1 ∨ a = p + 2 ∨ a = p + 3 := by omega
  rcases hcases with h | h | h | h
  · subst h
    rw [hsame (a + 1) (by omega), hsame (a + 2) (by omega), hsame (a + 3) (by omega)]
    simp [differAt, hchg, hc]
  · subst h
    rw [hsame p (by omega), hsame (p + 2) (by omega), hsame (p + 3) (by omega)]
    simp [differAt, hchg, hc]
  · subst h
    rw [hsame p (by omega), hsame (p + 1) (by omega), hsame (p + 3) (by omega)]
    simp [differAt, hchg, hc]
  · subst h
    rw [hsame p (by omega), hsame (p + 1) (by omega), hsame (p + 2) (by omega)]
    simp [differAt, hchg, hc]

/-- A window of four bytes that does not hold the changed byte reads the same. -/
theorem window_kept (m m2 : Mem) (a p : Nat) (hp : a < p ∨ p + 4 ≤ a)
    (hsame : ∀ b : Nat, b ≠ a → readU8 m2 b = readU8 m b) :
    readBytes m2 p 4 = readBytes m p 4 := by
  rw [readBytes_four, readBytes_four, hsame p (by omega), hsame (p + 1) (by omega),
    hsame (p + 2) (by omega), hsame (p + 3) (by omega)]

/-- Whatever the constants: on a buffer that validates true, changing exactly one byte of
the magic yields a buffer that validates false; changing exactly one byte of the version
yields a buffer that validates false unless the changed version is itself a tag of the
allow-list, hence always when the tags of the allow-list differ from one another in at
least two bytes. -/
theorem one_byte_changed (k : VdexConsts) (hk : k.WellFormed) (m m2 : Mem) (cursor a : Nat)
    (hvalid : vdex_isValidVdex k m cursor = true)
    (hchg : readU8 m2 a ≠ readU8 m a)
    (hsame : ∀ b : Nat, b ≠ a → readU8 m2 b = readU8 m b) :
    (cursor ≤ a ∧ a < cursor + 4 → vdex_isValidVdex k m2 cursor = false) ∧
    (cursor + 4 ≤ a ∧ a < cursor + 8 →
      (vdex_isValidVdex k m2 cursor = false ↔ hdr_version m2 cursor ∉ k.kVdexMagicVersions)) ∧
    (cursor + 4 ≤ a ∧ a < cursor + 8 → TagsApart k → vdex_isValidVdex k m2 cursor = false) := by
  have hold := (isValidVdex_iff k hk m cursor).1 hvalid
  have hnew := isValidVdex_iff k hk m2 cursor
  have hfalse : ∀ P : Prop, (vdex_isValidVdex k m2 cursor = true ↔ P) →
      (vdex_isValidVdex k m2 cursor = false ↔ ¬ P) := by
    intro P hP
    cases h : vdex_isValidVdex k m2 cursor with
    | true => simp [hP.1 h]
    | false =>
      simp only [true_iff]
      intro hp
      rw [hP.2 hp] at h
      cases h
  have hver : cursor + 4 ≤ a ∧ a < cursor + 8 →
      (vdex_isValidVdex k m2 cursor = false ↔ hdr_version m2 cursor ∉ k.kVdexMagicVersions) := by
    intro ha
    have hmag : hdr_magic m2 cursor = hdr_magic m cursor :=
      window_kept m m2 a cursor (by omega) hsame
    apply hfalse
    rw [hnew, hmag]
    exact ⟨fun h => h.2, fun h => ⟨hold.1, h⟩⟩
  refine ⟨fun ha => ?_, hver, fun ha hapart => ?_⟩
  · have hw := (window_changed m m2 a cursor ha hchg hsame).1
    apply (hfalse _ hnew).2
    intro h
    apply hw
    show hdr_magic m2 cursor = hdr_magic m cursor
    rw [h.1, hold.1]
  · apply (hver ha).2
    intro hin
    have hw := window_changed m m2 a (cursor + 4) (by omega) hchg hsame
    have h2 := hapart (hdr_version m cursor) hold.2 (hdr_version m2 cursor) hin
      (fun e => hw.1 e.symm)
    have h1 : differAt (hdr_version m cursor) (hdr_version m2 cursor) = 1 := hw.2
    omega

/-- C15: with the magic and the allow-list of `vdex.h`, a buffer with the correct magic
and an allow-listed version validates true, and changing exactly one byte of its magic
field or exactly one byte of its version field yields a buffer for which
`vdex_isValidVdex` returns false. -/
theorem C15_single_byte_mutation (m m2 : Mem) (cursor a : Nat)
    (hmagic : hdr_magic m cursor = vdexH.kVdexMagic)
    (hversion : hdr_version m cursor ∈ vdexH.kVdexMagicVersions)
    (ha : cursor ≤ a ∧ a < cursor + 8)
    (hchg : readU8 m2 a ≠ readU8 m a)
    (hsame : ∀ b : Nat, b ≠ a → readU8 m2 b = readU8 m b) :
    vdex_isValidVdex vdexH m cursor = true ∧ vdex_isValidVdex vdexH m2 cursor = false := by
  have hk : vdexH.WellFormed := by unfold VdexConsts.WellFormed; decide
  have hapart : TagsApart vdexH := by unfold TagsApart; decide
  have hvalid : vdex_isValidVdex vdexH m cursor = true :=
    (isValidVdex_iff vdexH hk m cursor).2 ⟨hmagic, hversion⟩
  have h := one_byte_changed vdexH hk m m2 cursor a hvalid hchg hsame
  refine ⟨hvalid, ?_⟩
  by_cases h4 : a < cursor + 4
  · exact h.1 ⟨ha.1, h4⟩
  · exact h.2.2 ⟨by omega, ha.2⟩ hapart

/-- The witness of C15: in the header of the one-file container, whose version is `010`,
the first byte of the magic, the last byte of the version, and the byte of the version
that makes it `011` are changed, one at a time. -/
theorem C15_witness :
    (vdex_isValidVdex vdexH (oneFile 0 10) 0 = true ∧
      vdex_isValidVdex vdexH (setByte (oneFile 0 10) 0 119) 0 = false) ∧
    (vdex_isValidVdex vdexH (oneFile 0 10) 0 = true ∧
      vdex_isValidVdex vdexH (setByte (oneFile 0 10) 7 1) 0 = false) ∧
    (vdex_isValidVdex vdexH (oneFile 0 10) 0 = true ∧
      vdex_isValidVdex vdexH (setByte (oneFile 0 10) 6 49) 0 = false) :=
  ⟨C15_single_byte_mutation (oneFile 0 10) (setByte (oneFile 0 10) 0 119) 0 0
      (by decide) (by decide) (by decide) (by decide)
      (fun b hb => by simp [readU8, setByte, hb]),
    C15_single_byte_mutation (oneFile 0 10) (setByte (oneFile 0 10) 7 1) 0 7
      (by decide) (by decide) (by decide) (by decide)
      (fun b hb => by simp [readU8, setByte, hb]),
    C15_single_byte_mutation (oneFile 0 10) (setByte (oneFile 0 10) 6 49) 0 6
      (by decide) (by decide) (by decide) (by decide)
      (fun b hb => by simp [readU8, setByte, hb])⟩

/-- C16: for all values of the header fields, in `uint32_t` arithmetic,
`vdex_DexBeginOffset + dexSize` is `vdex_DexEndOffset`, which is
`vdex_GetVerifierDepsDataOffset`, and `vdex_GetVerifierDepsDataOffset + verifierDepsSize`
is `vdex_GetQuickeningInfoOffset`: the sections follow one another with no padding. When
the layout fits in 32 bits the sums are the plain sums. -/
theorem C16_offsets_chain (m : Mem) (cursor : Nat) :
    (vdex_DexBeginOffset m cursor + dex_size m cursor) % U32 = vdex_DexEndOffset m cursor ∧
    vdex_DexEndOffset m cursor = vdex_GetVerifierDepsDataOffset m cursor ∧
    (vdex_GetVerifierDepsDataOffset m cursor + verifier_deps_size m cursor) % U32 =
      vdex_GetQuickeningInfoOffset m cursor ∧
    (sizeofVdexHeader + 4 * number_of_dex_files m cursor + dex_size m cursor +
        verifier_deps_size m cursor < U32 →
      vdex_DexBeginOffset m cursor + dex_size m cursor = vdex_DexEndOffset m cursor ∧
      vdex_GetVerifierDepsDataOffset m cursor + verifier_deps_size m cursor =
        vdex_GetQuickeningInfoOffset m cursor) := by
  refine ⟨rfl, rfl, rfl, fun hfit => ?_⟩
  obtain ⟨_, hbo, _, heo, _⟩ := layout_fit m cursor (by omega)
  have hv : vdex_GetVerifierDepsDataOffset m cursor = vdex_DexEndOffset m cursor := rfl
  have hq : vdex_GetQuickeningInfoOffset m cursor =
      (vdex_GetVerifierDepsDataOffset m cursor + verifier_deps_size m cursor) % U32 := rfl
  unfold sizeofVdexHeader U32 at hfit
  refine ⟨by rw [hbo, heo], ?_⟩
  rw [hq, hv, heo]
  exact (Nat.mod_eq_of_lt (by unfold U32; omega)).symm

/-- The witness of C16: the offsets of the one-file container with a verifier-deps
section. -/
theorem C16_witness :
    vdex_DexBeginOffset oneFileDeps 0 + dex_size oneFileDeps 0 = vdex_DexEndOffset oneFileDeps 0 ∧
    vdex_GetVerifierDepsDataOffset oneFileDeps 0 + verifier_deps_size oneFileDeps 0 =
      vdex_GetQuickeningInfoOffset oneFileDeps 0 :=
  (C16_offsets_chain oneFileDeps 0).2.2.2 (by decide)

/-- C17 (amended): `vdex_GetSizeOfChecksumsSection` returns `4 * numFiles` modulo `2^32` and
`vdex_DexBeginOffset` returns the header size (24) plus that, modulo `2^32`; these are
exactly `4 * numFiles` when `numFiles < 2^30` and exactly `24 + 4 * numFiles` when that
is below `2^32`; both depend on `numFiles` only. -/
theorem C17_checksums_size (m : Mem) (cursor : Nat) :
    vdex_GetSizeOfChecksumsSection m cursor = (4 * number_of_dex_files m cursor) % U32 ∧
    vdex_DexBeginOffset m cursor = (24 + (4 * number_of_dex_files m cursor) % U32) % U32 ∧
    (number_of_dex_files m cursor < 1073741824 →
      vdex_GetSizeOfChecksumsSection m cursor = 4 * number_of_dex_files m cursor) ∧
    (24 + 4 * number_of_dex_files m cursor < U32 →
      vdex_DexBeginOffset m cursor = 24 + 4 * number_of_dex_files m cursor) ∧
    (∀ m2 : Mem, number_of_dex_files m2 cursor = number_of_dex_files m cursor →
      vdex_GetSizeOfChecksumsSection m2 cursor = vdex_GetSizeOfChecksumsSection m cursor ∧
      vdex_DexBeginOffset m2 cursor = vdex_DexBeginOffset m cursor) := by
  refine ⟨rfl, rfl, fun h => ?_, fun h => ?_, fun m2 h => ?_⟩
  · unfold vdex_GetSizeOfChecksumsSection sizeofVdexChecksum U32
    exact Nat.mod_eq_of_lt (by omega)
  · unfold U32 at h
    unfold vdex_DexBeginOffset vdex_GetSizeOfChecksumsSection sizeofVdexChecksum sizeofVdexHeader
      U32
    rw [Nat.mod_eq_of_lt (show 4 * number_of_dex_files m cursor < 4294967296 by omega)]
    exact Nat.mod_eq_of_lt (by omega)
  · unfold vdex_DexBeginOffset vdex_GetSizeOfChecksumsSection
    rw [h]
    exact ⟨rfl, rfl⟩

/-- The witness of C17: the container of three files has 12 bytes of checksums and its
Dex files begin at the offset 36. -/
theorem C17_witness :
    vdex_GetSizeOfChecksumsSection (threeFiles 0 0) 0 = 4 * number_of_dex_files (threeFiles 0 0) 0 ∧
    vdex_DexBeginOffset (threeFiles 0 0) 0 = 24 + 4 * number_of_dex_files (threeFiles 0 0) 0 :=
  ⟨(C17_checksums_size (threeFiles 0 0) 0).2.2.1 (by decide),
    (C17_checksums_size (threeFiles 0 0) 0).2.2.2.1 (by decide)⟩

/-- C17 is false as stated: for `numFiles = 2^30` the size of the checksums section is
returned as 0 and the offset of the Dex files as 24, not `4 * 2^30` and `24 + 4 * 2^30`. -/
theorem C17_counterexample :
    number_of_dex_files manyFiles 0 = 1073741824 ∧
    vdex_GetSizeOfChecksumsSection manyFiles 0 = 0 ∧
    vdex_GetSizeOfChecksumsSection manyFiles 0 ≠ 4 * number_of_dex_files manyFiles 0 ∧
    vdex_DexBeginOffset manyFiles 0 = 24 ∧
    vdex_DexBeginOffset manyFiles 0 ≠ 24 + 4 * number_of_dex_files manyFiles 0 := by
  decide

theorem AddsWork.nil (idx : Nat) (tr : List Event) : AddsWork idx tr tr :=
  ⟨[], by simp, by simp⟩

theorem AddsWork.andThen {idx : Nat} {a b d : List Event} (h1 : AddsWork idx a b)
    (h2 : AddsWork idx b d) : AddsWork idx a d := by
  obtain ⟨e1, rfl, he1⟩ := h1
  obtain ⟨e2, rfl, he2⟩ := h2
  refine ⟨e1 ++ e2, by simp, ?_⟩
  intro e he
  rcases List.mem_append.1 he with h | h
  · exact he1 e h
  · exact he2 e h

theorem AddsWork.one {idx : Nat} (tr : List Event) (e : Event) (h : e.fileIdx = idx)
    (h2 : e.isSkipExtract = false) : AddsWork idx tr (tr ++ [e]) :=
  ⟨[e], rfl, by simpa using ⟨h, h2⟩⟩

theorem methodsLoop_addsWork (c : DexEnv) (idx buf cls : Nat) (virt : Bool) (n : Nat) :
    ∀ (j cur : Nat) (s : UqState),
      AddsWork idx s.trace (methodsLoop c idx buf cls virt n j cur s).st.trace := by
  induction n with
  | zero => intro j cur s; exact AddsWork.nil idx _
  | succ n ih =>
    intro j cur s
    rw [methodsLoop]
    have h1 : AddsWork idx s.trace (s.trace ++
        [Event.method { idx := idx, buf := buf, cls := cls, virt := virt, j := j }
          (c.dex_readClassDataMethod s.mem cur).2]) := AddsWork.one _ _ rfl rfl
    by_cases h0 : (c.dex_readClassDataMethod s.mem cur).2.codeOff = 0
    · simp only [h0, if_true]
      exact h1.andThen (ih _ _ _)
    · simp only [h0, if_false]
      have h2 : ∀ ok : Bool, AddsWork idx s.trace ((s.trace ++
          [Event.method { idx := idx, buf := buf, cls := cls, virt := virt, j := j }
            (c.dex_readClassDataMethod s.mem cur).2]) ++
          [Event.decompile { idx := idx, buf := buf, cls := cls, virt := virt, j := j }
            (buf + (c.dex_readClassDataMethod s.mem cur).2.codeOff)
            (c.dex_getFirstInstrOff (c.dex_readClassDataMethod s.mem cur).2) (s.ptr + 4)
            (readU32 s.mem s.ptr) ok]) := fun ok => h1.andThen (AddsWork.one _ _ rfl rfl)
      cases hr : (c.dexDecompiler_decompile s.mem buf
          (buf + (c.dex_readClassDataMethod s.mem cur).2.codeOff)
          (c.dex_getFirstInstrOff (c.dex_readClassDataMethod s.mem cur).2)
          (s.ptr + 4) (readU32 s.mem s.ptr) true).1 with
      | true =>
        simp only [UqState.log, hr, if_true]
        exact (h2 true).andThen (ih _ _ _)
      | false =>
        simp only [UqState.log, hr, Bool.false_eq_true, if_false]
        exact h2 false

theorem classBody_addsWork (c : DexEnv) (idx buf i : Nat) (s : UqState) :
    AddsWork idx s.trace (classBody c idx buf i s).st.trace := by
  unfold classBody
  by_cases h0 : dexClassDef_classDataOff c s.mem (c.dex_getClassDef s.mem buf i) = 0
  · simp only [h0, if_true]
    exact AddsWork.nil idx _
  · simp only [h0, if_false]
    have hd := methodsLoop_addsWork c idx buf i false
      (c.dex_readClassDataHeader s.mem
        (buf + dexClassDef_classDataOff c s.mem (c.dex_getClassDef s.mem buf i))).2.directMethodsSize
      0 (fieldsLoop c s.mem (c.dex_readClassDataHeader s.mem
        (buf + dexClassDef_classDataOff c s.mem (c.dex_getClassDef s.mem buf i))).2.instanceFieldsSize
        (fieldsLoop c s.mem (c.dex_readClassDataHeader s.mem
        (buf + dexClassDef_classDataOff c s.mem (c.dex_getClassDef s.mem buf i))).2.staticFieldsSize
        (c.dex_readClassDataHeader s.mem
        (buf + dexClassDef_classDataOff c s.mem (c.dex_getClassDef s.mem buf i))).1)) s
    revert hd
    generalize methodsLoop c idx buf i false _ 0 _ s = rd
    intro hd
    cases hok : rd.ok with
    | true =>
      simp only [if_true]
      exact hd.andThen (methodsLoop_addsWork c idx buf i true _ 0 rd.cur rd.st)
    | false =>
      simp only [Bool.false_eq_true, if_false]
      exact hd

theorem classesLoop_addsWork (c : DexEnv) (idx buf : Nat) (fuel : Nat) :
    ∀ (i : Nat) (s : UqState), AddsWork idx s.trace (classesLoop c idx buf fuel i s).st.trace := by
  induction fuel with
  | zero => intro i s; exact AddsWork.nil idx _
  | succ fuel ih =>
    intro i s
    rw [classesLoop]
    by_cases hi : i < dexHeader_classDefsSize c s.mem buf
    · simp only [hi, if_true]
      have hb := classBody_addsWork c idx buf i s
      cases hok : (classBody c idx buf i s).ok with
      | true => simp only [if_true]; exact hb.andThen (ih _ _)
      | false => simp only [Bool.false_eq_true, if_false]; exact hb
    · simp only [hi, if_false]
      exact AddsWork.nil idx _

theorem unquickenFile_addsWork (c : DexEnv) (idx buf : Nat) (s : UqState) :
    AddsWork idx s.trace (unquickenFile c idx buf s).st.trace := by
  have hc := classesLoop_addsWork c idx buf U32 0 s
  cases hok : (classesLoop c idx buf U32 0 s).ok with
  | false => rw [unquickenFile_fail c idx buf s hok]; exact hc
  | true =>
    rw [unquickenFile_ok c idx buf s hok]
    exact hc.andThen (AddsWork.one _ _ rfl rfl)

/-- An iteration of the loop over the files whose view the iterator returns leaves events
of its file index that are not the event of an iterator failure. -/
theorem fileBody_addsWork (c : DexEnv) (cursor idx offset : Nat) (s : UqState) (buf : Nat)
    (hit : (vdex_GetNextDexFileData c s.mem cursor offset).1 = some buf) :
    AddsWork idx s.trace (fileBody c cursor idx offset s).st.trace := by
  cases hmag : c.dex_isValidDexMagic s.mem buf with
  | false =>
    rw [fileBody_badMagic c cursor idx offset s buf hit hmag]
    exact AddsWork.one _ _ rfl rfl
  | true =>
    rw [fileBody_valid c cursor idx offset s buf hit hmag]
    exact unquickenFile_addsWork c idx buf s

/-- The iterator leaves the offset when it returns the end-sentinel. -/
theorem iter_none_offset (c : DexEnv) (m : Mem) (cursor offset : Nat)
    (h : (vdex_GetNextDexFileData c m cursor offset).1 = none) :
    vdex_GetNextDexFileData c m cursor offset = (none, offset) := by
  unfold vdex_GetNextDexFileData at h ⊢
  by_cases h0 : offset = 0
  · simp only [h0, if_true] at h ⊢
    by_cases hd : vdex_hasDexSection m cursor = true
    · simp [hd] at h
    · simp [hd]
  · simp only [h0, if_false] at h ⊢
    by_cases h1 : cursor + offset + dexHeader_fileSize c m (cursor + offset) = vdex_DexEnd m cursor
    · simp [h1] at h
    · by_cases h2 : cursor + offset + dexHeader_fileSize c m (cursor + offset) ≤ vdex_DexEnd m cursor
      · simp [h1, h2] at h
      · simp [h1, h2]

theorem skipsFrom_step (i n : Nat) (h : i < n) :
    skipsFrom i n = Event.skipExtract i :: skipsFrom (i + 1) n := by
  unfold skipsFrom
  have e : n - i = (n - (i + 1)) + 1 := by omega
  rw [e, List.range'_succ]
  simp

theorem skipsFrom_empty (i n : Nat) (h : n ≤ i) : skipsFrom i n = [] := by
  unfold skipsFrom
  have e : n - i = 0 := by omega
  rw [e]
  rfl

/-- Once the iterator fails, the loop over the files skips the file and all the files
after it: the iterator fails again on the same memory and offset, so the run leaves one
skip event for each remaining file index and nothing else. -/
theorem filesLoop_all_skipped (c : DexEnv) (cursor : Nat) (fuel : Nat) :
    ∀ (idx offset : Nat) (s : UqState),
      (vdex_GetNextDexFileData c s.mem cursor offset).1 = none →
      number_of_dex_files s.mem cursor ≤ idx + fuel →
      filesLoop c cursor fuel idx offset s =
        { ok := true,
          st := { mem := s.mem, ptr := s.ptr,
                  trace := s.trace ++ skipsFrom idx (number_of_dex_files s.mem cursor) } } := by
  induction fuel with
  | zero =>
    intro idx offset s _ hn
    rw [skipsFrom_empty _ _ (by omega)]
    simp [filesLoop]
  | succ fuel ih =>
    intro idx offset s hit hn
    rw [filesLoop]
    by_cases hi : idx < number_of_dex_files s.mem cursor
    · simp only [hi, if_true]
      rw [fileBody_none c cursor idx offset s hit, iter_none_offset c s.mem cursor offset hit]
      simp only [if_true]
      have := ih (idx + 1) offset (s.log (Event.skipExtract idx)) hit (by
        show number_of_dex_files s.mem cursor ≤ idx + 1 + fuel
        omega)
      rw [this, skipsFrom_step _ _ hi]
      simp [UqState.log]
    · simp only [hi, if_false]
      rw [skipsFrom_empty _ _ (by omega)]
      simp

theorem skipsFrom_split_aux (i n : Nat) (h2 : i ≤ n) (k : Nat) :
    ∀ idx : Nat, idx + k = i → skipsFrom idx n = skipsFrom idx i ++ skipsFrom i n := by
  induction k with
  | zero =>
    intro idx h
    have e : idx = i := by omega
    rw [e, skipsFrom_empty i i (Nat.le_refl i)]
    rfl
  | succ k ih =>
    intro idx h
    rw [skipsFrom_step idx n (by omega), skipsFrom_step idx i (by omega),
      ih (idx + 1) (by omega)]
    rfl

theorem skipsFrom_split (idx i n : Nat) (h1 : idx ≤ i) (h2 : i ≤ n) :
    skipsFrom idx n = skipsFrom idx i ++ skipsFrom i n :=
  skipsFrom_split_aux i n h2 (i - idx) idx (by omega)

theorem mem_skipsFrom (e : Event) (i n : Nat) (h : e ∈ skipsFrom i n) :
    ∃ j : Nat, e = Event.skipExtract j ∧ i ≤ j ∧ j < n := by
  unfold skipsFrom at h
  obtain ⟨j, hj, rfl⟩ := List.mem_map.1 h
  have := List.mem_range'_1.1 hj
  exact ⟨j, rfl, by omega, by omega⟩

/-- The trace of the loop over the files from the index `idx` on: its events belong to
file indices from `idx` on, and when the iterator failed on the index `i` the trace ends
with exactly one skip event for each index from `i` to the number of files. -/
theorem filesLoop_sticky (c : DexEnv) (cursor : Nat) (fuel : Nat) :
    ∀ (idx offset : Nat) (s : UqState), U32 ≤ idx + fuel →
      ∃ es : List Event,
        (filesLoop c cursor fuel idx offset s).st.trace = s.trace ++ es ∧
        (∀ e ∈ es, idx ≤ e.fileIdx) ∧
        ∀ i : Nat, Event.skipExtract i ∈ es →
          ∃ pre : List Event,
            es = pre ++ skipsFrom i
              (number_of_dex_files (filesLoop c cursor fuel idx offset s).st.mem cursor) ∧
            ∀ e ∈ pre, e.fileIdx < i := by
  induction fuel with
  | zero =>
    intro idx offset s _
    exact ⟨[], by simp [filesLoop], by simp, by simp⟩
  | succ fuel ih =>
    intro idx offset s hfuel
    have hlt : number_of_dex_files s.mem cursor < U32 := readU32_lt s.mem (cursor + 8)
    by_cases hi : idx < number_of_dex_files s.mem cursor
    · cases hit : (vdex_GetNextDexFileData c s.mem cursor offset).1 with
      | none =>
        rw [filesLoop_all_skipped c cursor (fuel + 1) idx offset s hit (by omega)]
        refine ⟨skipsFrom idx (number_of_dex_files s.mem cursor), rfl, ?_, ?_⟩
        · intro e he
          obtain ⟨j, rfl, hj, _⟩ := mem_skipsFrom e _ _ he
          exact hj
        · intro i hin
          obtain ⟨j, hj, h1, h2⟩ := mem_skipsFrom _ _ _ hin
          have hji : j = i := by injection hj with h; exact h.symm
          subst hji
          refine ⟨skipsFrom idx j, skipsFrom_split idx j _ h1 (by omega), ?_⟩
          intro e he
          obtain ⟨k, rfl, _, hk⟩ := mem_skipsFrom e _ _ he
          exact hk
      | some buf =>
        obtain ⟨es0, h0, hw⟩ := fileBody_addsWork c cursor idx offset s buf hit
        rw [filesLoop]
        simp only [hi, if_true]
        cases hok : (fileBody c cursor idx offset s).ok with
        | false =>
          simp only [Bool.false_eq_true, if_false]
          refine ⟨es0, h0, fun e he => by rw [(hw e he).1], ?_⟩
          intro i hin
          have := (hw _ hin).2
          simp [Event.isSkipExtract] at this
        | true =>
          simp only [if_true]
          obtain ⟨es1, h1, hge, hst⟩ := ih (idx + 1) (fileBody c cursor idx offset s).offset
            (fileBody c cursor idx offset s).st (by omega)
          refine ⟨es0 ++ es1, by rw [h1, h0, List.append_assoc], ?_, ?_⟩
          · intro e he
            rcases List.mem_append.1 he with h | h
            · rw [(hw e h).1]
            · have := hge e h; omega
          · intro i hin
            rcases List.mem_append.1 hin with h | h
            · have := (hw _ h).2
              simp [Event.isSkipExtract] at this
            · obtain ⟨pre, hpre, hlow⟩ := hst i h
              have hi1 : idx + 1 ≤ i := hge _ h
              refine ⟨es0 ++ pre, by rw [List.append_assoc, ← hpre], ?_⟩
              intro e he
              rcases List.mem_append.1 he with h2 | h2
              · rw [(hw e h2).1]; omega
              · exact hlow e h2
    · rw [filesLoop]
      simp only [hi, if_false]
      exact ⟨[], by simp, by simp, by simp⟩

/-- C18: when the iterator returns the end-sentinel it leaves the offset, and the same call
again returns the end-sentinel again; in `vdex_Unquicken`, once the iterator has failed
on the file index `i`, the rest of the run is one skip for each file index from `i` to
the number of files and nothing else (no rewrite call, no checksum), and everything
before belongs to file indices below `i`. -/
theorem C18_iterator_failure_sticky (c : DexEnv) (cursor : Nat) (m : Mem) :
    (∀ offset : Nat, (vdex_GetNextDexFileData c m cursor offset).1 = none →
      (vdex_GetNextDexFileData c m cursor offset).2 = offset ∧
      vdex_GetNextDexFileData c m cursor (vdex_GetNextDexFileData c m cursor offset).2 =
        (none, offset)) ∧
    ∀ i : Nat, Event.skipExtract i ∈ (vdex_Unquicken c cursor m).st.trace →
      ∃ pre : List Event,
        (vdex_Unquicken c cursor m).st.trace =
          pre ++ skipsFrom i (number_of_dex_files (vdex_Unquicken c cursor m).st.mem cursor) ∧
        ∀ e ∈ pre, e.fileIdx < i := by
  constructor
  · intro offset h
    have e := iter_none_offset c m cursor offset h
    rw [e]
    exact ⟨rfl, e⟩
  · intro i hin
    by_cases hq : vdex_GetQuickeningInfoSize m cursor = 0
    · simp [vdex_Unquicken, hq] at hin
    · obtain ⟨es, h1, _, hst⟩ := filesLoop_sticky c cursor U32 0 0
        { mem := m, ptr := vdex_GetQuickeningInfo m cursor, trace := [] } (by omega)
      have hrun : (vdex_Unquicken c cursor m).st = (filesLoop c cursor U32 0 0
          { mem := m, ptr := vdex_GetQuickeningInfo m cursor, trace := [] }).st := by
        unfold vdex_Unquicken
        simp only [hq, if_false]
        split <;> rfl
      rw [hrun] at hin ⊢
      simp only [List.nil_append] at h1
      rw [h1] at hin ⊢
      exact hst i hin

/-- The witness of C18: in the container of three files whose second file declares a size
past the end of the Dex files, the iterator fails on the file indices 1 and 2. -/
theorem C18_witness :
    Event.skipExtract 1 ∈ (vdex_Unquicken (toyEnv decNoop) 0 secondOversized).st.trace ∧
    (vdex_GetNextDexFileData (toyEnv decNoop) secondOversized 0 260).1 = none ∧
    (vdex_Unquicken (toyEnv decNoop) 0 secondOversized).st.trace.drop 6 =
      [Event.skipExtract 1, Event.skipExtract 2] ∧
    ∃ pre : List Event,
      (vdex_Unquicken (toyEnv decNoop) 0 secondOversized).st.trace =
        pre ++ skipsFrom 1
          (number_of_dex_files (vdex_Unquicken (toyEnv decNoop) 0 secondOversized).st.mem 0) ∧
      ∀ e ∈ pre, e.fileIdx < 1 :=
  ⟨by decide, by decide, by decide,
    (C18_iterator_failure_sticky (toyEnv decNoop) 0 secondOversized).2 1 (by decide)⟩

theorem stepInv_untouched (c : DexEnv) (p0 : Nat) :
    StepInv c (Untouched p0) (Untouched p0) where
  method0 := by
    intro s pos pm hP _ h
    exact hP (by simpa [UqState.log, callsOf_append, callsOf] using h)
  callOk := by
    intro s pos pm _ _ _ h
    simp [callsOf_append, callsOf] at h
  callFail := by
    intro s pos pm _ _ _ h
    simp [callsOf_append, callsOf] at h
  skipExtract := by
    intro s idx hP h
    exact hP (by simpa [UqState.log, callsOf_append, callsOf] using h)
  skipMagic := by
    intro s idx buf hP h
    exact hP (by simpa [UqState.log, callsOf_append, callsOf] using h)
  sumOk := by
    intro s idx buf hP _ h
    exact hP (by simpa [UqState.log, callsOf_append, callsOf] using h)
  sumFail := by
    intro s idx buf hP _ h
    exact hP (by simpa [UqState.log, callsOf_append, callsOf] using h)

theorem callsOf_skipsFrom (i n : Nat) : callsOf (skipsFrom i n) = [] := by
  unfold skipsFrom
  induction List.range' i (n - i) with
  | nil => rfl
  | cons x xs ih => simpa [callsOf] using ih

/-- C19: when the stream is not empty and no record is consumed, `vdex_Unquicken` returns
failure and the stream pointer is still at the start of the stream, which is not its
end. No record is consumed when the header counts no file, when there is no Dex section
(every file is then skipped), and when no decoded method has a code item. -/
theorem C19_nothing_consumed_fails (c : DexEnv) (cursor : Nat) (m : Mem)
    (hq : vdex_GetQuickeningInfoSize m cursor ≠ 0) :
    (callsOf (vdex_Unquicken c cursor m).st.trace = [] →
      (vdex_Unquicken c cursor m).ok = false ∧
      (vdex_Unquicken c cursor m).st.ptr = vdex_GetQuickeningInfo m cursor ∧
      vdex_GetQuickeningInfo m cursor ≠
        vdex_GetQuickeningInfo m cursor + vdex_GetQuickeningInfoSize m cursor) ∧
    (number_of_dex_files m cursor = 0 → callsOf (vdex_Unquicken c cursor m).st.trace = []) ∧
    (dex_size m cursor = 0 → callsOf (vdex_Unquicken c cursor m).st.trace = []) ∧
    (codeMethodsOf (vdex_Unquicken c cursor m).st.trace = [] →
      callsOf (vdex_Unquicken c cursor m).st.trace = []) := by
  have hrun : (vdex_Unquicken c cursor m).st = (filesLoop c cursor U32 0 0
      { mem := m, ptr := vdex_GetQuickeningInfo m cursor, trace := [] }).st := by
    unfold vdex_Unquicken
    simp only [hq, if_false]
    split <;> rfl
  refine ⟨fun hno => ?_, fun hn => ?_, fun hd => ?_, fun hc => ?_⟩
  · have h := vdex_Unquicken_inv
      ((stepInv_going c (vdex_GetQuickeningInfo m cursor)).and
        (stepInv_untouched c (vdex_GetQuickeningInfo m cursor))) cursor m hq
      ⟨⟨by simp [recordBytes, callsOf, callBytes], by simp⟩, fun _ => rfl⟩
    have hptr : (vdex_Unquicken c cursor m).st.ptr = vdex_GetQuickeningInfo m cursor := by
      cases hok : (vdex_Unquicken c cursor m).ok with
      | true => exact (h.1 hok).1.2 hno
      | false =>
        rcases h.2 hok with h2 | h2
        · exact h2.2 hno
        · exact h2.1.2 hno
    refine ⟨?_, hptr, by omega⟩
    cases hok : (vdex_Unquicken c cursor m).ok with
    | false => rfl
    | true =>
      have := (h.1 hok).2
      rw [hptr] at this
      omega
  · rw [hrun]
    have hU : U32 = 4294967295 + 1 := rfl
    rw [hU, filesLoop]
    simp [hn, callsOf]
  · rw [hrun]
    have hit : (vdex_GetNextDexFileData c m cursor 0).1 = none := by
      simp [vdex_GetNextDexFileData, vdex_hasDexSection, hd]
    have hlt : number_of_dex_files m cursor < U32 := readU32_lt m (cursor + 8)
    rw [filesLoop_all_skipped c cursor U32 0 0
      { mem := m, ptr := vdex_GetQuickeningInfo m cursor, trace := [] } hit (by
        show number_of_dex_files m cursor ≤ 0 + U32
        omega)]
    simp [callsOf_skipsFrom]
  · have hp := (vdex_Unquicken_records c cursor m).2
    unfold Paired at hp
    rw [hc] at hp
    simpa using hp

/-- The witness of C19: a container with a stream of 4 bytes and no Dex section: its three
files are skipped, no record is consumed, and the run fails with the pointer at the
start of the stream. -/
theorem C19_witness :
    vdex_GetQuickeningInfoSize noDex3 0 ≠ 0 ∧
    (vdex_Unquicken (toyEnv decNoop) 0 noDex3).st.trace =
      [Event.skipExtract 0, Event.skipExtract 1, Event.skipExtract 2] ∧
    (vdex_Unquicken (toyEnv decNoop) 0 noDex3).ok = false ∧
    (vdex_Unquicken (toyEnv decNoop) 0 noDex3).st.ptr = vdex_GetQuickeningInfo noDex3 0 ∧
    vdex_GetQuickeningInfo noDex3 0 ≠
      vdex_GetQuickeningInfo noDex3 0 + vdex_GetQuickeningInfoSize noDex3 0 :=
  ⟨by decide, by decide,
    (C19_nothing_consumed_fails (toyEnv decNoop) 0 noDex3 (by decide)).1
      ((C19_nothing_consumed_fails (toyEnv decNoop) 0 noDex3 (by decide)).2.2.1 (by decide))⟩

/-- C20: when the header, the checksums, the Dex files and the verifier deps fit in 32
bits, every pointer accessor is the base plus its offset accessor; without that bound
they can differ: in the container whose Dex files take `2^32 - 1` bytes, `vdex_DexEnd`
is not the base plus `vdex_DexEndOffset`. -/
theorem C20_pointers_match_offsets (m : Mem) (cursor : Nat)
    (hfit : sizeofVdexHeader + 4 * number_of_dex_files m cursor + dex_size m cursor +
      verifier_deps_size m cursor < U32) :
    (vdex_DexBegin m cursor = cursor + vdex_DexBeginOffset m cursor ∧
      vdex_DexEnd m cursor = cursor + vdex_DexEndOffset m cursor ∧
      vdex_GetVerifierDepsData m cursor = cursor + vdex_GetVerifierDepsDataOffset m cursor ∧
      vdex_GetQuickeningInfo m cursor = cursor + vdex_GetQuickeningInfoOffset m cursor) ∧
    (¬ (sizeofVdexHeader + 4 * number_of_dex_files hugeDex 0 + dex_size hugeDex 0 +
        verifier_deps_size hugeDex 0 < U32) ∧
      vdex_DexEnd hugeDex 0 ≠ 0 + vdex_DexEndOffset hugeDex 0 ∧
      vdex_GetQuickeningInfo hugeDex 0 ≠ 0 + vdex_GetQuickeningInfoOffset hugeDex 0) := by
  obtain ⟨_, hbo, hb, heo, he⟩ := layout_fit m cursor (by omega)
  have hv : vdex_GetVerifierDepsDataOffset m cursor = vdex_DexEndOffset m cursor := rfl
  have hvp : vdex_GetVerifierDepsData m cursor = vdex_DexEnd m cursor := rfl
  have hq : vdex_GetQuickeningInfoOffset m cursor =
      (vdex_GetVerifierDepsDataOffset m cursor + verifier_deps_size m cursor) % U32 := rfl
  have hqp : vdex_GetQuickeningInfo m cursor =
      vdex_GetVerifierDepsData m cursor + verifier_deps_size m cursor := rfl
  unfold sizeofVdexHeader at hfit
  refine ⟨⟨by rw [hb, hbo], by rw [he, heo], by rw [hvp, hv, he, heo], ?_⟩, by decide⟩
  rw [hqp, hvp, hq, hv, he, heo, Nat.mod_eq_of_lt (by omega)]
  omega

/-- The witness of C20: the pointers and offsets of the one-file container with a
verifier-deps section, at the base 1000. -/
theorem C20_witness :
    vdex_DexBegin (fun a => oneFileDeps (a - 1000)) 1000 =
      1000 + vdex_DexBeginOffset (fun a => oneFileDeps (a - 1000)) 1000 ∧
    vdex_GetQuickeningInfo (fun a => oneFileDeps (a - 1000)) 1000 =
      1000 + vdex_GetQuickeningInfoOffset (fun a => oneFileDeps (a - 1000)) 1000 ∧
    vdex_GetQuickeningInfoOffset (fun a => oneFileDeps (a - 1000)) 1000 = 292 :=
  ⟨(C20_pointers_match_offsets (fun a => oneFileDeps (a - 1000)) 1000 (by decide)).1.1,
    (C20_pointers_match_offsets (fun a => oneFileDeps (a - 1000)) 1000 (by decide)).1.2.2.2,
    by decide⟩


end Vdex
